import Mathlib

/-!
# foxhole-fw: sliding-window tracker, rule engine and ban manager

A shallow embedding of `internal/rules/state.go`, `internal/rules/engine.go`,
`internal/config/load.go` (`validate`) and of the firewall package
(`banmanager.go`, `util.go` and the four backends).

Modelling conventions.

* `time.Time` is an integer count of clock ticks since the zero `Time`
  (so `IsZero` is `t = 0`), `time.Duration` is an integer count of ticks;
  `Add` is integer addition and `After` is strict `>`. The sample data use
  small numbers (read them as seconds).
* A `time.Duration` is an int64: the negation `-window` in `ApplyWindow` is
  `negDuration`, which maps the least duration to itself as the machine
  negation does. The TTL of a tracker is the positive duration that
  `NewEngine` gives it, and `-s.ttl` is the integer negation.
* A Go `map[string]V` is an association list whose operations (`mapGet`,
  `mapSet`, `mapDelete`, `mapLen`) act on the first binding of a key. Every
  map built from the empty one by these operations has pairwise distinct
  keys, so `mapLen` is the number of keys.
* A Go `int` is an `Int`; a run-time panic (slice bounds out of range) is the
  result `none`.
* The wall clock (`time.Now()`) and the outcome of a backend call are
  arguments of the function that reads them.
* Mutexes, tickers, channels and loggers carry no data of their own and are
  left out; each operation of the tracker is the body it runs while holding
  the lock. `processEvent` locks the tracker once per call (`RecordError`, then
  one `ApplyWindow` per matching rule), and the GC goroutine started by
  `NewStore` can take the lock in between: `processEventGC` and `runArrivals`
  take the wall-clock readings of these GC passes as arguments, and
  `processEvent` is the case without any.
-/

namespace Foxhole

/-! ## Time

An instant (`time.Time`) and a duration (`time.Duration`) are both an `Int`
number of clock ticks. -/

/-- Addition of a duration to an instant (`Time.Add`). -/
def Time.Add (t : Int) (d : Int) : Int := t + d

/-- Strict comparison of instants (`Time.After`): `t` is after `u`. -/
def Time.After (t u : Int) : Bool := decide (u < t)

/-- The zero instant test (`Time.IsZero`). -/
def Time.IsZero (t : Int) : Bool := decide (t = 0)

/-- The least `time.Duration`: `math.MinInt64` nanoseconds. -/
def minDuration : Int := -9223372036854775808

/-- The greatest `time.Duration`: `math.MaxInt64` nanoseconds. -/
def maxDuration : Int := 9223372036854775807

/-- The unary minus of Go on a `time.Duration` (an int64): the least duration
has no positive counterpart and is its own negation; on every int64 this is
`(-d + 2^63) % 2^64 - 2^63`. -/
def negDuration (d : Int) : Int := if d = minDuration then minDuration else -d

/-! ## Go maps keyed by strings -/

/-- Lookup `m[k]` with the comma-ok result as an `Option`. -/
def mapGet {V : Type} : List (String × V) → String → Option V
  | [], _ => none
  | (k, v) :: rest, key => if k = key then some v else mapGet rest key

/-- Assignment `m[k] = v`: overwrite the binding of `k`, or add one. -/
def mapSet {V : Type} : List (String × V) → String → V → List (String × V)
  | [], key, val => [(key, val)]
  | (k, v) :: rest, key, val =>
    if k = key then (k, val) :: rest else (k, v) :: mapSet rest key val

/-- Removal `delete(m, k)`. -/
def mapDelete {V : Type} : List (String × V) → String → List (String × V)
  | [], _ => []
  | (k, v) :: rest, key => if k = key then rest else (k, v) :: mapDelete rest key

/-- Size `len(m)`. -/
def mapLen {V : Type} (m : List (String × V)) : Int := (m.length : Int)

/-- The keys of a map, in storage order. -/
def mapKeys {V : Type} (m : List (String × V)) : List String := m.map Prod.fst

/-- Slice expression `xs[lo:]`; panics unless `0 ≤ lo ≤ len(xs)`. -/
def sliceFrom {α : Type} (xs : List α) (lo : Int) : Option (List α) :=
  if 0 ≤ lo ∧ lo ≤ (xs.length : Int) then some (xs.drop lo.toNat) else none

/-! ## Sliding-window tracker (`internal/rules/state.go`) -/

def DefaultMaxIPs : Int := 100000

def DefaultMaxErrorsPerIP : Int := 1000

/-- Per-IP record: the error timestamps, oldest first. -/
structure ipStats where
  Errors : List Int
  deriving DecidableEq, Repr

/-- The tracker: per-IP records, retention horizon and the two memory caps. -/
structure Store where
  byIP : List (String × ipStats)
  ttl : Int
  maxIPs : Int
  maxErrorsPerIP : Int
  deriving DecidableEq, Repr

/-- Constructor `NewStore(ttl, gcInterval)`: empty map, default limits. -/
def NewStore (ttl : Int) : Store :=
  { byIP := [], ttl := ttl, maxIPs := DefaultMaxIPs, maxErrorsPerIP := DefaultMaxErrorsPerIP }

/-- Method `SetLimits`: each limit is replaced only by a positive value. -/
def SetLimits (s : Store) (maxIPs maxErrorsPerIP : Int) : Store :=
  let s1 := if maxIPs > 0 then { s with maxIPs := maxIPs } else s
  if maxErrorsPerIP > 0 then { s1 with maxErrorsPerIP := maxErrorsPerIP } else s1

/-- The in-place filter loop shared by `RecordError`, `ApplyWindow` and `gc`:
`filtered := errs[:0]; for ts in errs { if ts.After(cutoff) { append } }`. -/
def keepAfter (cutoff : Int) (errs : List Int) : List Int :=
  errs.foldl (fun filtered ts => if Time.After ts cutoff then filtered ++ [ts] else filtered) []

/-- The part of `RecordError` after the record has been located or created:
TTL filter, per-IP cap, append, return the new length. -/
def recordInto (s : Store) (ip : String) (stats : ipStats) (now : Int) :
    Option (Store × Int) :=
  let cutoff := Time.Add now (-s.ttl)
  let filtered := keepAfter cutoff stats.Errors
  let capped : Option (List Int) :=
    if (filtered.length : Int) ≥ s.maxErrorsPerIP then
      sliceFrom filtered ((filtered.length : Int) - s.maxErrorsPerIP + 1)
    else some filtered
  match capped with
  | none => none
  | some errs =>
    let errs1 := errs ++ [now]
    some ({ s with byIP := mapSet s.byIP ip { Errors := errs1 } }, (errs1.length : Int))

/-- Method `Store.RecordError`; the result `-1` is the overflow sentinel. -/
def RecordError (s : Store) (ip : String) (t : Int) : Option (Store × Int) :=
  let now := t
  match mapGet s.byIP ip with
  | none =>
    if mapLen s.byIP ≥ s.maxIPs then some (s, -1)
    else
      let stats : ipStats := { Errors := [] }
      recordInto { s with byIP := mapSet s.byIP ip stats } ip stats now
  | some stats => recordInto s ip stats now

/-- Method `Store.ApplyWindow`. -/
def ApplyWindow (s : Store) (ip : String) (t : Int) (window : Int) : Store × Int :=
  match mapGet s.byIP ip with
  | none => (s, 0)
  | some stats =>
    let cutoff := Time.Add t (negDuration window)
    let filtered := keepAfter cutoff stats.Errors
    ({ s with byIP := mapSet s.byIP ip { Errors := filtered } }, (filtered.length : Int))

/-- One iteration of the `gc` loop for the entry `(ip, stats)`. -/
def gcEntry (cutoff : Int) (m : List (String × ipStats)) (e : String × ipStats) :
    List (String × ipStats) :=
  let filtered := keepAfter cutoff e.2.Errors
  if filtered.length = 0 then mapDelete m e.1 else mapSet m e.1 { Errors := filtered }

/-- Method `Store.gc`, with the wall-clock reading `now` as an argument: every
entry present when the pass starts is visited once. -/
def gc (s : Store) (now : Int) : Store :=
  let cutoff := Time.Add now (-s.ttl)
  { s with byIP := s.byIP.foldl (gcEntry cutoff) s.byIP }

/-- The passes of `gc` that the goroutine `gcLoop`, started by `NewStore`,
makes one after the other while nothing else holds the tracker lock; `nows`
are the wall-clock readings of the passes, in order. -/
def gcPasses (s : Store) : List Int → Store
  | [] => s
  | now :: rest => gcPasses (gc s now) rest

/-! ## Configuration and events (`internal/config/types.go`, `internal/parser/parser.go`) -/

structure LoggingConfig where
  Level : String
  JSON : Bool
  deriving DecidableEq, Repr

structure LogConfig where
  Path : String
  Parser : String
  deriving DecidableEq, Repr

/-- A rule: exact request keys and the threshold that justifies a ban. -/
structure Rule where
  ID : String
  Description : String
  Method : String
  Path : String
  MaxErrors : Int
  Window : Int
  BanDuration : Int
  deriving DecidableEq, Repr

structure IPTablesConfig where
  Table : String
  Chain : String
  deriving DecidableEq, Repr

structure HTTPAPIConfig where
  URL : String
  AuthToken : String
  Headers : List (String × String)
  deriving DecidableEq, Repr

structure VultrConfig where
  APIKey : String
  FirewallID : String
  deriving DecidableEq, Repr

structure ProxmoxConfig where
  APIURL : String
  TokenID : String
  TokenSecret : String
  Node : String
  VMID : String
  deriving DecidableEq, Repr

/-- Backend selection (`TypeName` is the field `Type`); a nil settings pointer is `none`. -/
structure BackendConfig where
  TypeName : String
  IPTables : Option IPTablesConfig
  HTTP : Option HTTPAPIConfig
  Vultr : Option VultrConfig
  Proxmox : Option ProxmoxConfig
  DryRun : Bool
  Whitelist : List String
  deriving DecidableEq, Repr

/-- The root configuration snapshot. -/
structure Config where
  Logging : LoggingConfig
  Log : LogConfig
  Rules : List Rule
  Backend : BackendConfig
  deriving DecidableEq, Repr

/-- A normalized HTTP request extracted from a log line. -/
structure Event where
  RemoteAddr : String
  Method : String
  Path : String
  Status : Int
  Timestamp : Int
  Raw : String
  deriving DecidableEq, Repr

/-- The outcome of evaluating an event against one rule. -/
structure Decision where
  IP : String
  RuleID : String
  Violation : Bool
  Reason : String
  Ban : Bool
  BanFor : Int
  Event : Event
  Timestamp : Int
  deriving DecidableEq, Repr

/-! ## Rule engine (`internal/rules/engine.go`) -/

/-- Function `matchRule`: an empty method or path in the rule matches anything. -/
def matchRule (r : Rule) (ev : Event) : Bool :=
  if r.Method ≠ "" ∧ ev.Method ≠ r.Method then false
  else if r.Path ≠ "" ∧ ev.Path ≠ r.Path then false
  else true

/-- The loop over `cfg.Rules` in `processEvent` when no GC pass takes the
tracker lock while the loop runs; `out` is what has been sent on the decisions
channel so far. -/
def evalRules (ev : Event) (evalTime : Int) :
    List Rule → Store → List Decision → Store × List Decision
  | [], store, out => (store, out)
  | r :: rest, store, out =>
    if !matchRule r ev then evalRules ev evalTime rest store out
    else
      let res := ApplyWindow store ev.RemoteAddr evalTime r.Window
      if res.2 ≥ r.MaxErrors then
        let dec : Decision :=
          { IP := ev.RemoteAddr, RuleID := r.ID, Violation := true,
            Reason := "max_errors exceeded", Ban := true, BanFor := r.BanDuration,
            Event := ev, Timestamp := evalTime }
        evalRules ev evalTime rest res.1 (out ++ [dec])
      else evalRules ev evalTime rest res.1 out

/-- The evaluation time of an event: its timestamp, or the wall clock when the
timestamp is zero. -/
def evalTimeOf (ev : Event) (wallNow : Int) : Int :=
  if Time.IsZero ev.Timestamp then wallNow else ev.Timestamp

/-- Method `Engine.processEvent` on the snapshot `cfg` returned by
`cfgStore.Current()`, the tracker `store` and the wall-clock reading `wallNow`,
when no GC pass takes the tracker lock while the event is processed (the case
`gcs = []` of `processEventGC`). The result is the tracker afterwards and the
decisions sent, in order. -/
def processEvent (cfg : Config) (store : Store) (wallNow : Int) (ev : Event) :
    Option (Store × List Decision) :=
  let evalTime := evalTimeOf ev wallNow
  let recorded : Option Store :=
    if ev.Status ≥ 400 then (RecordError store ev.RemoteAddr evalTime).map Prod.fst
    else some store
  match recorded with
  | none => none
  | some store1 => some (evalRules ev evalTime cfg.Rules store1 [])

/-- The loop over `cfg.Rules` in `processEvent` with the GC goroutine running
beside it. `RecordError` and each `ApplyWindow` call lock the tracker for
themselves only, so GC passes can take the lock in between: the first list of
`gcs` holds the wall-clock readings of the passes made after the previous
tracker call of the event and before the turn of the first rule, the second
list those made before the turn of the second rule, and so on (no pass where
`gcs` has run out). -/
def evalRulesGC (ev : Event) (evalTime : Int) :
    List Rule → List (List Int) → Store → List Decision → Store × List Decision
  | [], _, store, out => (store, out)
  | r :: rest, gcs, store, out =>
    let store0 := gcPasses store (gcs.headD [])
    if !matchRule r ev then evalRulesGC ev evalTime rest gcs.tail store0 out
    else
      let res := ApplyWindow store0 ev.RemoteAddr evalTime r.Window
      if res.2 ≥ r.MaxErrors then
        let dec : Decision :=
          { IP := ev.RemoteAddr, RuleID := r.ID, Violation := true,
            Reason := "max_errors exceeded", Ban := true, BanFor := r.BanDuration,
            Event := ev, Timestamp := evalTime }
        evalRulesGC ev evalTime rest gcs.tail res.1 (out ++ [dec])
      else evalRulesGC ev evalTime rest gcs.tail res.1 out

/-- Method `Engine.processEvent` with the GC goroutine running beside it:
`store` is the tracker when `RecordError` takes the lock (or when the rule loop
starts, for an event that is not an error) and `gcs` are the GC passes made
during the rule loop, as in `evalRulesGC`. -/
def processEventGC (cfg : Config) (store : Store) (wallNow : Int) (ev : Event)
    (gcs : List (List Int)) : Option (Store × List Decision) :=
  let evalTime := evalTimeOf ev wallNow
  let recorded : Option Store :=
    if ev.Status ≥ 400 then (RecordError store ev.RemoteAddr evalTime).map Prod.fst
    else some store
  match recorded with
  | none => none
  | some store1 => some (evalRulesGC ev evalTime cfg.Rules gcs store1 [])

/-! ## Ban manager (`internal/firewall/banmanager.go`) -/

/-- A single active ban. -/
structure banInfo where
  ExpiresAt : Int
  RuleID : String
  deriving DecidableEq, Repr

/-- The ban manager. The field `whitelist` is the `Contains` test of the
matcher captured at construction. -/
structure BanManager where
  dryRun : Bool
  whitelist : String → Bool
  bans : List (String × banInfo)

/-- What the manager does that is visible outside the function body, in
program order. -/
inductive Effect where
  | mapWrite (ip : String) (info : banInfo)
  | backendBan (ip : String) (duration : Int) (reason : String) (ruleID : String)
  | spawnUnban (ip : String) (expiry : Int)
  | backendUnban (ip : String)
  | mapDelete (ip : String)
  deriving DecidableEq, Repr

/-- Method `BanManager.handleDecision`. `now1` and `now2` are the two readings
of `time.Now()` (the active-ban test and the expiry computation); `banErr`
tells whether the backend `Ban` call returns an error. -/
def handleDecision (m : BanManager) (d : Decision) (now1 now2 : Int) (banErr : Bool) :
    BanManager × List Effect :=
  if m.whitelist d.IP then (m, [])
  else
    let active : Bool :=
      match mapGet m.bans d.IP with
      | some existing => Time.After existing.ExpiresAt now1
      | none => false
    if active then (m, [])
    else
      let expiry := Time.Add now2 d.BanFor
      let info : banInfo := { ExpiresAt := expiry, RuleID := d.RuleID }
      let m1 : BanManager := { m with bans := mapSet m.bans d.IP info }
      let written := [Effect.mapWrite d.IP info]
      if m.dryRun then (m1, written)
      else
        let called := written ++ [Effect.backendBan d.IP d.BanFor d.Reason d.RuleID]
        if banErr then (m1, called)
        else if d.BanFor > 0 then (m1, called ++ [Effect.spawnUnban d.IP expiry])
        else (m1, called)

/-- The body of the `Run` loop for one value received from the decisions
channel (`none` is a nil pointer). -/
def runDecision (m : BanManager) (d : Option Decision) (now1 now2 : Int) (banErr : Bool) :
    BanManager × List Effect :=
  match d with
  | none => (m, [])
  | some d =>
    if !d.Ban || !d.Violation then (m, [])
    else handleDecision m d now1 now2 banErr

/-- Method `BanManager.scheduleUnban` from the moment its timer fires;
`unbanErr` tells whether the backend `Unban` call returns an error. -/
def scheduleUnbanFire (m : BanManager) (ip : String) (unbanErr : Bool) :
    BanManager × List Effect :=
  if unbanErr then (m, [Effect.backendUnban ip])
  else ({ m with bans := mapDelete m.bans ip }, [Effect.backendUnban ip, Effect.mapDelete ip])

/-- Constructor `NewBanManager`: empty ban table. -/
def NewBanManager (dryRun : Bool) (whitelist : String → Bool) : BanManager :=
  { dryRun := dryRun, whitelist := whitelist, bans := [] }

/-! ## The ban manager as a step system -/

/-- The manager together with the expiry tasks that have been spawned and have
not finished, and the record of everything done so far. -/
structure Sys where
  mgr : BanManager
  pending : List (String × Int)
  log : List Effect

/-- A step: the `Run` loop receives a value at the clock readings `now1`,
`now2`; or the pending expiry task number `idx` finishes at time `now`. -/
inductive Step where
  | decision (d : Option Decision) (now1 now2 : Int) (banErr : Bool)
  | expire (idx : Nat) (now : Int) (unbanErr : Bool)

/-- The expiry tasks started by a list of effects. -/
def spawnedBy : List Effect → List (String × Int)
  | [] => []
  | Effect.spawnUnban ip expiry :: rest => (ip, expiry) :: spawnedBy rest
  | _ :: rest => spawnedBy rest

/-- One step of the system; `none` when the step is not enabled (no such
pending task, or its timer has not fired yet: `now < expiry`). -/
def Sys.step (s : Sys) : Step → Option Sys
  | Step.decision d now1 now2 banErr =>
    let r := runDecision s.mgr d now1 now2 banErr
    some { mgr := r.1, pending := s.pending ++ spawnedBy r.2, log := s.log ++ r.2 }
  | Step.expire idx now unbanErr =>
    match s.pending.get? idx with
    | none => none
    | some task =>
      if task.2 ≤ now then
        let r := scheduleUnbanFire s.mgr task.1 unbanErr
        some { mgr := r.1, pending := s.pending.eraseIdx idx, log := s.log ++ r.2 }
      else none

/-- A finite run of the system. -/
def Sys.run : Sys → List Step → Option Sys
  | s, [] => some s
  | s, st :: rest =>
    match s.step st with
    | none => none
    | some s1 => Sys.run s1 rest

/-- The system just after `NewBanManager`. -/
def Sys.init (dryRun : Bool) (whitelist : String → Bool) : Sys :=
  { mgr := NewBanManager dryRun whitelist, pending := [], log := [] }

/-- An effect that reaches the backend or starts an expiry task. -/
def Effect.isExternal : Effect → Bool
  | Effect.backendBan _ _ _ _ => true
  | Effect.backendUnban _ => true
  | Effect.spawnUnban _ _ => true
  | _ => false

/-! ## Sequences of tracker operations -/

/-- One public operation of the tracker, or a GC pass at wall-clock `now`. -/
inductive StoreOp where
  | record (ip : String) (t : Int)
  | window (ip : String) (t : Int) (w : Int)
  | collect (now : Int)
  deriving DecidableEq, Repr

/-- The tracker after one operation. -/
def applyOp (s : Store) : StoreOp → Option Store
  | StoreOp.record ip t => (RecordError s ip t).map Prod.fst
  | StoreOp.window ip t w => some (ApplyWindow s ip t w).1
  | StoreOp.collect now => some (gc s now)

/-- The tracker after a finite sequence of operations. -/
def runOps : Store → List StoreOp → Option Store
  | s, [] => some s
  | s, op :: rest =>
    match applyOp s op with
    | none => none
    | some s1 => runOps s1 rest

/-- The tracker after `RecordError(ip, t)` for each `t` of `times`, in order. -/
def recordAll (s : Store) (ip : String) : List Int → Option Store
  | [] => some s
  | t :: rest =>
    match RecordError s ip t with
    | none => none
    | some r => recordAll r.1 ip rest

/-- The timestamps stored for `ip` (none when `ip` is not tracked). -/
def storedFor (s : Store) (ip : String) : List Int :=
  match mapGet s.byIP ip with
  | none => []
  | some stats => stats.Errors

/-! ## The specification's wording of the tracker and engine operations -/

/-- Spec, record_error: "drop every timestamp `ts` with `ts ≤ t − TTL`". -/
def specDropOld (bound : Int) (t : Int) (errs : List Int) : List Int :=
  errs.filter (fun ts => !decide (ts ≤ t - bound))

/-- Spec, record_error: "drop the oldest entries until length is `n`". -/
def specDropOldestUntil (n : Nat) (errs : List Int) : List Int :=
  errs.drop (errs.length - n)

/-- Spec, record_error: the sequence stored for the address afterwards. -/
def specRecord (ttl : Int) (maxErrorsPerIP : Int) (old : List Int) (t : Int) :
    List Int :=
  let kept := specDropOld ttl t old
  let trimmed :=
    if (kept.length : Int) ≥ maxErrorsPerIP then
      specDropOldestUntil (maxErrorsPerIP - 1).toNat kept
    else kept
  trimmed ++ [t]

/-- Spec, engine step 4: the decision emitted for rule `r`. -/
def specDecision (ev : Event) (evalTime : Int) (r : Rule) : Decision :=
  { IP := ev.RemoteAddr, RuleID := r.ID, Violation := true, Reason := "max_errors exceeded",
    Ban := true, BanFor := r.BanDuration, Event := ev, Timestamp := evalTime }

/-- Spec, engine step 2: "`eval_time = e.timestamp` if non-zero, else
wall-clock now". -/
def specEvalTime (ev : Event) (wallNow : Int) : Int :=
  if ev.Timestamp ≠ 0 then ev.Timestamp else wallNow

/-- Spec, engine step 4: the rules with `r.method == e.method ∧ r.path == e.path`,
in declared order, each with the count `apply_window` returns when it is called
for that rule: the tracker keeps the effect of the earlier calls and of the
background GC passes `gcs` made in between (a list of wall-clock readings per
rule, as in `evalRulesGC`). -/
def specCounts (ev : Event) (evalTime : Int) :
    List Rule → List (List Int) → Store → List (Rule × Int)
  | [], _, _ => []
  | r :: rest, gcs, store =>
    if r.Method = ev.Method ∧ r.Path = ev.Path then
      (r, (ApplyWindow (gcPasses store (gcs.headD [])) ev.RemoteAddr evalTime r.Window).2) ::
        specCounts ev evalTime rest gcs.tail
          (ApplyWindow (gcPasses store (gcs.headD [])) ev.RemoteAddr evalTime r.Window).1
    else specCounts ev evalTime rest gcs.tail (gcPasses store (gcs.headD []))

/-- Spec, engine step 4: one decision per rule whose count is at least its
`max_errors`, in declared order. -/
def specDecisions (ev : Event) (evalTime : Int) (rules : List Rule) (gcs : List (List Int))
    (store : Store) : List Decision :=
  ((specCounts ev evalTime rules gcs store).filter
      (fun p => decide (p.2 ≥ p.1.MaxErrors))).map
    (fun p => specDecision ev evalTime p.1)

/-- Spec, ban manager step 3: "an entry exists with `expires_at > now`". -/
def specAlreadyActive (bans : List (String × banInfo)) (ip : String) (now : Int) : Bool :=
  match mapGet bans ip with
  | some info => decide (info.ExpiresAt > now)
  | none => false

/-- Spec, data-model invariant: a decision is acted upon iff
`violation ∧ ban ∧ ¬whitelisted ∧ ¬already-active`. -/
def specActedUpon (m : BanManager) (d : Decision) (now : Int) : Bool :=
  d.Violation && d.Ban && !m.whitelist d.IP && !specAlreadyActive m.bans d.IP now

/-- What holds of every tracker built by `NewStore`, `SetLimits` with positive
limits and the tracker operations: distinct keys, at most `maxIPs` of them, and
a positive per-IP cap. -/
def Store.WellFormed (s : Store) : Prop :=
  (mapKeys s.byIP).Nodup ∧ mapLen s.byIP ≤ s.maxIPs ∧ 0 < s.maxErrorsPerIP

/-! ## Sample data -/

/-- A tracker with TTL 5, room for two addresses of two errors each, in which
`a` has three errors and `b` has one. -/
def sampleStore : Store :=
  { byIP := [("a", { Errors := [6, 7, 9] }), ("b", { Errors := [1] })],
    ttl := 5, maxIPs := 2, maxErrorsPerIP := 2 }

/-- A configuration whose only rule is `login`: three errors on `POST /login`
within 60 s ban for 5 min (times in seconds). -/
def sampleConfig : Config :=
  { Logging := { Level := "info", JSON := false },
    Log := { Path := "/var/log/nginx/access.log", Parser := "nginx_combined" },
    Rules := [{ ID := "login", Description := "", Method := "POST", Path := "/login",
                MaxErrors := 3, Window := 60, BanDuration := 300 }],
    Backend := { TypeName := "iptables", IPTables := some { Table := "filter", Chain := "INPUT" },
                 HTTP := none, Vultr := none, Proxmox := none, DryRun := true,
                 Whitelist := [] } }

/-- A failed login from `1.2.3.4` at time 102. -/
def sampleEvent : Event :=
  { RemoteAddr := "1.2.3.4", Method := "POST", Path := "/login", Status := 401,
    Timestamp := 102, Raw := "" }

/-- A failed login from `1.2.3.4` that carries no timestamp. -/
def unstampedEvent : Event :=
  { RemoteAddr := "1.2.3.4", Method := "POST", Path := "/login", Status := 401,
    Timestamp := 0, Raw := "" }

/-- A tracker with TTL 60 that already holds two errors of `1.2.3.4`. -/
def sampleEngineStore : Store :=
  { byIP := [("1.2.3.4", { Errors := [100, 101] })], ttl := 60,
    maxIPs := DefaultMaxIPs, maxErrorsPerIP := DefaultMaxErrorsPerIP }

/-- A violating ban decision for `ip` under rule `login`. -/
def banDecision (ip : String) (banFor : Int) : Decision :=
  { IP := ip, RuleID := "login", Violation := true, Reason := "max_errors exceeded",
    Ban := true, BanFor := banFor, Event := sampleEvent, Timestamp := 0 }

/-- A run in which the expiry task of a first ban (accepted at time 0 for 10)
finishes just after a second ban of the same address has been accepted at
time 10 for 100. -/
def staleExpirySteps : List Step :=
  [Step.decision (some (banDecision "1.2.3.4" 10)) 0 0 false,
   Step.decision (some (banDecision "1.2.3.4" 100)) 10 10 false,
   Step.expire 0 10 false]

/-- A manager that is not in dry-run mode, whitelists only `10.0.0.1` and
holds a ban of `1.2.3.4` until time 50. -/
def sampleManager : BanManager :=
  { dryRun := false, whitelist := fun ip => decide (ip = "10.0.0.1"),
    bans := [("1.2.3.4", { ExpiresAt := 50, RuleID := "login" })] }

/-- Two decisions for `1.2.3.4`, at times 0 and 5, each for a ban of 100. -/
def dryRunSteps : List Step :=
  [Step.decision (some (banDecision "1.2.3.4" 100)) 0 0 false,
   Step.decision (some (banDecision "1.2.3.4" 100)) 5 5 false]

/-- Operations on a tracker with room for one address of two errors. -/
def sampleOps : List StoreOp :=
  [StoreOp.record "a" 1, StoreOp.record "b" 2, StoreOp.record "a" 3, StoreOp.record "a" 4,
   StoreOp.window "a" 4 2, StoreOp.collect 100]

/-! ## Further definitions: GC, engine construction, event runs -/

/-- One second and one minute, in clock ticks (`time.Second`, `time.Minute`). -/
def Second : Int := 1000000000

def Minute : Int := 60 * Second

/-- The loop of `NewEngine` that finds the largest rule window. -/
def maxRuleWindow (rules : List Rule) : Int :=
  rules.foldl (fun maxWindow r => if r.Window > maxWindow then r.Window else maxWindow) 0

/-- Constructor `NewEngine`, as far as the tracker goes: the tracker it builds
from the snapshot `cfg` returned by `cfgStore.Current()`. -/
def NewEngine (cfg : Config) : Store :=
  let maxWindow := maxRuleWindow cfg.Rules
  let maxWindow := if maxWindow = 0 then 5 * Minute else maxWindow
  NewStore maxWindow

/-- One event received by `Engine.Run`, with what happens around it: the GC
passes made since the previous event (`gcBefore`, wall-clock readings in
order), the reading `wallNow` that `processEvent` takes from the clock when the
event has no timestamp, and the GC passes made during its rule loop
(`gcDuring`, as in `evalRulesGC`). -/
structure Arrival where
  gcBefore : List Int
  wallNow : Int
  ev : Event
  gcDuring : List (List Int)
  deriving DecidableEq, Repr

/-- The wall-clock readings of all GC passes of an arrival. -/
def Arrival.gcTimes (a : Arrival) : List Int :=
  a.gcBefore ++ a.gcDuring.foldr (fun l acc => l ++ acc) []

/-- An arrival around which no GC pass is made. -/
def Arrival.quiet (wallNow : Int) (ev : Event) : Arrival :=
  { gcBefore := [], wallNow := wallNow, ev := ev, gcDuring := [] }

/-- The loop of `Engine.Run` over the events received, with the snapshot `cfg`
current throughout and the GC goroutine of the tracker running beside it: the
tracker afterwards and the decisions sent by each event, in order. -/
def runArrivals (cfg : Config) :
    Store → List Arrival → Option (Store × List (List Decision))
  | store, [] => some (store, [])
  | store, a :: rest =>
    match processEventGC cfg (gcPasses store a.gcBefore) a.wallNow a.ev a.gcDuring with
    | none => none
    | some r =>
      match runArrivals cfg r.1 rest with
      | none => none
      | some r2 => some (r2.1, r.2 :: r2.2)

/-- The configuration of the first end-to-end scenario: the single rule
`login` (three errors on `POST /login` within 60 s, ban for 5 min). -/
def loginConfig : Config :=
  { Logging := { Level := "info", JSON := false },
    Log := { Path := "/var/log/nginx/access.log", Parser := "nginx_combined" },
    Rules := [{ ID := "login", Description := "", Method := "POST", Path := "/login",
                MaxErrors := 3, Window := 60 * Second, BanDuration := 5 * Minute }],
    Backend := { TypeName := "iptables", IPTables := some { Table := "filter", Chain := "INPUT" },
                 HTTP := none, Vultr := none, Proxmox := none, DryRun := true,
                 Whitelist := [] } }

/-- The event of the line `1.2.3.4 POST /login 401` with timestamp `t`. -/
def loginFailure (t : Int) : Event :=
  { RemoteAddr := "1.2.3.4", Method := "POST", Path := "/login", Status := 401,
    Timestamp := t, Raw := "" }

/-- The decision of rule `login` against `1.2.3.4` for the event at `t`. -/
def loginDecision (t : Int) : Decision :=
  { IP := "1.2.3.4", RuleID := "login", Violation := true, Reason := "max_errors exceeded",
    Ban := true, BanFor := 5 * Minute, Event := loginFailure t, Timestamp := t }

/-- A server error from the address `ip` on `POST /login` at time 102. -/
def serverError (ip : String) : Event :=
  { RemoteAddr := ip, Method := "POST", Path := "/login", Status := 500,
    Timestamp := 102, Raw := "" }

/-- A rule on `POST /login` with threshold 1 and the given id and window. -/
def loginRule (id : String) (window : Int) : Rule :=
  { ID := id, Description := "", Method := "POST", Path := "/login",
    MaxErrors := 1, Window := window, BanDuration := 300 }

/-- The tracker that `NewEngine` builds from `loginConfig`: empty, TTL 60 s. -/
def loginTrackerNew : Store :=
  { byIP := [], ttl := 60 * Second, maxIPs := DefaultMaxIPs,
    maxErrorsPerIP := DefaultMaxErrorsPerIP }

/-- The only rule of `loginConfig`. -/
def loginOnlyRule : Rule :=
  { ID := "login", Description := "", Method := "POST", Path := "/login",
    MaxErrors := 3, Window := 60 * Second, BanDuration := 5 * Minute }

/-- The tracker of the engine built from `loginConfig` in which `1.2.3.4` has
the errors `errs`. -/
def loginTracker (errs : List Int) : Store :=
  { byIP := [("1.2.3.4", { Errors := errs })], ttl := 60 * Second,
    maxIPs := DefaultMaxIPs, maxErrorsPerIP := DefaultMaxErrorsPerIP }

/-! ## Configuration validation (`internal/config/load.go`) -/

/-- The errors of `validate`, one constructor per `fmt.Errorf` call; the
argument is the value formatted into the message. -/
inductive ValidateError where
  /-- Message `log.path is required`. -/
  | logPathRequired
  /-- Message `backend.type is required`. -/
  | backendTypeRequired
  /-- Message `backend.X must be set when backend.type=X`. -/
  | backendBlockMissing (backend : String)
  /-- Message `backend.X.… are required` (or `is required`). -/
  | backendFieldsRequired (backend : String)
  /-- Message `unsupported backend.type %q`. -/
  | unsupportedBackendType (typeName : String)
  /-- Message `at least one rule is required`. -/
  | noRules
  /-- Message `rule at index %d is missing id`. -/
  | ruleMissingID (index : Nat)
  /-- Message `rule %q: method is required`. -/
  | ruleMethodRequired (id : String)
  /-- Message `rule %q: path is required`. -/
  | rulePathRequired (id : String)
  /-- Message `rule %q: max_errors must be > 0`. -/
  | ruleMaxErrors (id : String)
  /-- Message `rule %q: window must be > 0`. -/
  | ruleWindow (id : String)
  /-- Message `rule %q: ban_duration must be > 0`. -/
  | ruleBanDuration (id : String)
  deriving DecidableEq, Repr

/-- The `switch c.Backend.Type` of `validate`: the error it returns, if any. -/
def validateBackend (b : BackendConfig) : Option ValidateError :=
  if b.TypeName = "iptables" then
    match b.IPTables with
    | none => some (ValidateError.backendBlockMissing "iptables")
    | some t =>
      if t.Table = "" ∨ t.Chain = "" then some (ValidateError.backendFieldsRequired "iptables")
      else none
  else if b.TypeName = "http_api" then
    match b.HTTP with
    | none => some (ValidateError.backendBlockMissing "http_api")
    | some h =>
      if h.URL = "" then some (ValidateError.backendFieldsRequired "http_api") else none
  else if b.TypeName = "vultr" then
    match b.Vultr with
    | none => some (ValidateError.backendBlockMissing "vultr")
    | some v =>
      if v.APIKey = "" ∨ v.FirewallID = "" then
        some (ValidateError.backendFieldsRequired "vultr")
      else none
  else if b.TypeName = "proxmox" then
    match b.Proxmox with
    | none => some (ValidateError.backendBlockMissing "proxmox")
    | some p =>
      if p.APIURL = "" ∨ p.Node = "" then some (ValidateError.backendFieldsRequired "proxmox")
      else none
  else some (ValidateError.unsupportedBackendType b.TypeName)

/-- The loop `for i := range c.Rules` of `validate`, from index `i` on: the
first error, if any. -/
def validateRules : Nat → List Rule → Option ValidateError
  | _, [] => none
  | i, r :: rest =>
    if r.ID = "" then some (ValidateError.ruleMissingID i)
    else if r.Method = "" then some (ValidateError.ruleMethodRequired r.ID)
    else if r.Path = "" then some (ValidateError.rulePathRequired r.ID)
    else if r.MaxErrors ≤ 0 then some (ValidateError.ruleMaxErrors r.ID)
    else if r.Window ≤ 0 then some (ValidateError.ruleWindow r.ID)
    else if r.BanDuration ≤ 0 then some (ValidateError.ruleBanDuration r.ID)
    else validateRules (i + 1) rest

/-- Function `validate`: the error, or the configuration with the defaults for
`log.parser` and `logging.level` filled in. -/
def validate (c : Config) : Except ValidateError Config :=
  if c.Log.Path = "" then Except.error ValidateError.logPathRequired
  else
    let c1 : Config :=
      if c.Log.Parser = "" then { c with Log := { c.Log with Parser := "nginx_combined" } }
      else c
    if c1.Backend.TypeName = "" then Except.error ValidateError.backendTypeRequired
    else
      match validateBackend c1.Backend with
      | some e => Except.error e
      | none =>
        if c1.Rules.length = 0 then Except.error ValidateError.noRules
        else
          match validateRules 0 c1.Rules with
          | some e => Except.error e
          | none =>
            if c1.Logging.Level = "" then
              Except.ok { c1 with Logging := { c1.Logging with Level := "info" } }
            else Except.ok c1

/-- Spec, configuration errors: the settings block of the selected backend is
present and its required fields are non-empty. -/
def specBackendOk (b : BackendConfig) : Bool :=
  (decide (b.TypeName = "iptables") &&
    (match b.IPTables with
     | some t => decide (t.Table ≠ "") && decide (t.Chain ≠ "")
     | none => false)) ||
  (decide (b.TypeName = "http_api") &&
    (match b.HTTP with
     | some h => decide (h.URL ≠ "")
     | none => false)) ||
  (decide (b.TypeName = "vultr") &&
    (match b.Vultr with
     | some v => decide (v.APIKey ≠ "") && decide (v.FirewallID ≠ "")
     | none => false)) ||
  (decide (b.TypeName = "proxmox") &&
    (match b.Proxmox with
     | some p => decide (p.APIURL ≠ "") && decide (p.Node ≠ "")
     | none => false))

/-- Spec, data model: a rule has non-empty id, method and path, and positive
`max_errors`, `window` and `ban_duration`. -/
def specRuleOk (r : Rule) : Bool :=
  decide (r.ID ≠ "") && decide (r.Method ≠ "") && decide (r.Path ≠ "") &&
  decide (r.MaxErrors > 0) && decide (r.Window > 0) && decide (r.BanDuration > 0)

/-- Spec: the configurations that `validate` is to accept. -/
def specValid (c : Config) : Bool :=
  decide (c.Log.Path ≠ "") && specBackendOk c.Backend && decide (c.Rules ≠ []) &&
  c.Rules.all specRuleOk

/-- The configuration `loginConfig` with its rule listed twice. -/
def duplicateIdConfig : Config :=
  { loginConfig with Rules := [loginOnlyRule, loginOnlyRule] }

/-! ## Tracker shutdown (`Store.Close`) -/

/-- The two fields of the tracker that `Close` touches: whether the GC ticker
has been stopped and whether the `done` channel has been closed. -/
structure StoreRuntime where
  tickerStopped : Bool
  doneClosed : Bool
  deriving DecidableEq, Repr

/-- The runtime fields just after `NewStore`: ticker running, `done` open. -/
def NewStoreRuntime : StoreRuntime := { tickerStopped := false, doneClosed := false }

/-- Method `Store.Close`: `s.ticker.Stop(); close(s.done)`. Stopping a ticker
twice is harmless; closing a closed channel is a run-time panic (`none`). -/
def Close (r : StoreRuntime) : Option StoreRuntime :=
  let r1 : StoreRuntime := { r with tickerStopped := true }
  if r1.doneClosed then none else some { r1 with doneClosed := true }

/-! ## The standard-library functions the firewall package calls -/

/-- An IP network (`net.IPNet`): address and mask, as byte sequences. -/
structure IPNet where
  IP : List Nat
  Mask : List Nat
  deriving DecidableEq, Repr

/-- The functions of Go's `net`, `net/url` and `path` packages that the
firewall package calls. They are not part of the repository and are taken as
given: `ParseIP` (`none` is the nil address), `IP.String`, `IP.To4`,
`ParseCIDR` (the network, `none` on error), `IPNet.Contains`, whether
`url.Parse` succeeds, and the text of a parsed URL after path elements have
been joined to its path. -/
structure StdLib where
  ParseIP : String → Option (List Nat)
  IPString : List Nat → String
  To4 : List Nat → Option (List Nat)
  ParseCIDR : String → Option IPNet
  NetContains : IPNet → List Nat → Bool
  URLParses : String → Bool
  URLWithPath : String → List String → String

/-! ## Address checks and the whitelist matcher (`internal/firewall/util.go`)

An `error` is its message text (`none` is nil); the arguments of `%q`, `%s` and
`%w` are rendered by plain concatenation. -/

/-- Function `ValidateIP`. -/
def ValidateIP (lib : StdLib) (ip : String) : Option String :=
  if ip = "" then some "empty IP address"
  else
    match lib.ParseIP ip with
    | none => some ("invalid IP address: " ++ ip)
    | some _ => none

/-- Function `IsIPv6`. -/
def IsIPv6 (lib : StdLib) (ip : String) : Bool :=
  match lib.ParseIP ip with
  | none => false
  | some parsed => (lib.To4 parsed).isNone

/-- The matcher: parsed networks and the set of literal addresses (a
`map[string]struct{}`). -/
structure whitelistMatcher where
  nets : List IPNet
  ips : List (String × Unit)
  deriving DecidableEq, Repr

/-- One iteration of the loop of `newWhitelistMatcher`. -/
def whitelistAdd (lib : StdLib) (m : whitelistMatcher) (entry : String) : whitelistMatcher :=
  match lib.ParseIP entry with
  | some ip => { m with ips := mapSet m.ips (lib.IPString ip) () }
  | none =>
    match lib.ParseCIDR entry with
    | some cidr => { m with nets := m.nets ++ [cidr] }
    | none => m

/-- Function `newWhitelistMatcher`. -/
def newWhitelistMatcher (lib : StdLib) (cfg : BackendConfig) : whitelistMatcher :=
  cfg.Whitelist.foldl (whitelistAdd lib) { nets := [], ips := [] }

/-- The loop `for _, n := range m.nets` of `Contains`. -/
def containsLoop (lib : StdLib) (ip : List Nat) : List IPNet → Bool
  | [] => false
  | n :: rest => if lib.NetContains n ip then true else containsLoop lib ip rest

/-- Method `whitelistMatcher.Contains`; the receiver `none` is the nil matcher. -/
def Contains (lib : StdLib) (m : Option whitelistMatcher) (ipStr : String) : Bool :=
  match m with
  | none => false
  | some m =>
    if (mapGet m.ips ipStr).isSome then true
    else
      match lib.ParseIP ipStr with
      | none => false
      | some ip => containsLoop lib ip m.nets

/-- The values of the standard library on the few strings the examples use
(the 16-byte form of `1.2.3.4`, which `::ffff:1.2.3.4` denotes as well, and the
network `1.2.3.0/24`); every other string is treated as unparseable. -/
def sampleLib : StdLib :=
  { ParseIP := fun s =>
      if s = "1.2.3.4" ∨ s = "::ffff:1.2.3.4" then
        some [0, 0, 0, 0, 0, 0, 0, 0, 0, 0, 255, 255, 1, 2, 3, 4]
      else none,
    IPString := fun a =>
      if a = [0, 0, 0, 0, 0, 0, 0, 0, 0, 0, 255, 255, 1, 2, 3, 4] then "1.2.3.4" else "",
    To4 := fun a =>
      if a = [0, 0, 0, 0, 0, 0, 0, 0, 0, 0, 255, 255, 1, 2, 3, 4] then some [1, 2, 3, 4]
      else none,
    ParseCIDR := fun s =>
      if s = "1.2.3.0/24" then some { IP := [1, 2, 3, 0], Mask := [255, 255, 255, 0] }
      else none,
    NetContains := fun n a =>
      decide (n = { IP := [1, 2, 3, 0], Mask := [255, 255, 255, 0] } ∧
        a = [0, 0, 0, 0, 0, 0, 0, 0, 0, 0, 255, 255, 1, 2, 3, 4]),
    URLParses := fun _ => true,
    URLWithPath := fun base elems => base ++ "/" ++ "/".intercalate elems }

/-- A backend configuration that whitelists the given entries. -/
def whitelistConfig (entries : List String) : BackendConfig :=
  { loginConfig.Backend with Whitelist := entries }

/-! ## Firewall backends (`iptables.go`, `httpapi.go`, `vultr.go`, `proxmox.go`)

A backend call returns its error (`none` is nil) and the list of what it did
outside the process, in order. The outcome of each child process or HTTP
exchange is an argument. Request headers are left out, and a request body is
kept as the values it is encoded from. Log calls are left out, and so is the
error branch of `json.Marshal`, which cannot fail on the request structs. -/

/-- The body of a request, as the values it is encoded from: nothing
(`http.NoBody`), the `apiRequest` of the generic HTTP backend, the `ruleReq` of
the Vultr backend, or the form of the Proxmox backend. -/
inductive Payload where
  | noBody
  | apiRequest (action ip : String) (duration : Int) (reason ruleID : String)
  | vultrRule (ipType protocol subnet : String) (subnetSize : Int) (notes : String)
  | proxmoxForm (source comment : String)
  deriving DecidableEq, Repr

/-- An HTTP request handed to `client.Do`. -/
structure HTTPRequest where
  method : String
  url : String
  body : Payload
  deriving DecidableEq, Repr

/-- What a backend does outside the process: start a child process, or send an
HTTP request. -/
inductive Wire where
  | exec (cmd : String) (args : List String)
  | http (req : HTTPRequest)
  deriving DecidableEq, Repr

/-- The outcome of `cmd.CombinedOutput()`. -/
structure ExecResult where
  err : Option String
  output : String
  deriving DecidableEq, Repr

/-- The outcome of building and sending one HTTP request: building it failed
(nothing is sent), `client.Do` failed, or a response came back with a status
and a body that decodes into the expected shape (`some`) or does not. -/
inductive HTTPResult (β : Type) where
  | buildError (err : String)
  | transportError (err : String)
  | response (status : Int) (statusText : String) (decoded : Option β)

/-- The iptables backend. -/
structure iptablesBackend where
  table : String
  chain : String
  deriving DecidableEq, Repr

/-- Method `iptablesBackend.Ban`. -/
def iptablesBackend.Ban (lib : StdLib) (b : iptablesBackend) (ip : String) (_duration : Int)
    (_reason _ruleID : String) (run : ExecResult) : Option String × List Wire :=
  match ValidateIP lib ip with
  | some err => (some ("iptables ban: " ++ err), [])
  | none =>
    let iptablesCmd := if IsIPv6 lib ip then "ip6tables" else "iptables"
    let args := ["-t", b.table, "-I", b.chain, "1", "-s", ip, "-j", "DROP"]
    match run.err with
    | some err =>
      (some (iptablesCmd ++ " ban failed: " ++ err ++ " (output=" ++ run.output ++ ")"),
        [Wire.exec iptablesCmd args])
    | none => (none, [Wire.exec iptablesCmd args])

/-- Method `iptablesBackend.Unban`. -/
def iptablesBackend.Unban (lib : StdLib) (b : iptablesBackend) (ip : String)
    (run : ExecResult) : Option String × List Wire :=
  match ValidateIP lib ip with
  | some err => (some ("iptables unban: " ++ err), [])
  | none =>
    let iptablesCmd := if IsIPv6 lib ip then "ip6tables" else "iptables"
    let args := ["-t", b.table, "-D", b.chain, "-s", ip, "-j", "DROP"]
    match run.err with
    | some err =>
      (some (iptablesCmd ++ " unban failed: " ++ err ++ " (output=" ++ run.output ++ ")"),
        [Wire.exec iptablesCmd args])
    | none => (none, [Wire.exec iptablesCmd args])

/-- The generic HTTP backend. -/
structure httpAPIBackend where
  url : String
  token : String
  headers : List (String × String)
  deriving DecidableEq, Repr

/-- Method `httpAPIBackend.send`. -/
def httpAPIBackend.send (b : httpAPIBackend) (payload : Payload) (res : HTTPResult Unit) :
    Option String × List Wire :=
  match res with
  | HTTPResult.buildError err => (some ("build request: " ++ err), [])
  | HTTPResult.transportError err =>
    (some ("http request failed: " ++ err),
      [Wire.http { method := "POST", url := b.url, body := payload }])
  | HTTPResult.response status statusText _ =>
    if status ≥ 300 then
      (some ("http request failed: status=" ++ statusText),
        [Wire.http { method := "POST", url := b.url, body := payload }])
    else (none, [Wire.http { method := "POST", url := b.url, body := payload }])

/-- Method `httpAPIBackend.Ban`. -/
def httpAPIBackend.Ban (lib : StdLib) (b : httpAPIBackend) (ip : String) (duration : Int)
    (reason ruleID : String) (res : HTTPResult Unit) : Option String × List Wire :=
  match ValidateIP lib ip with
  | some err => (some ("http_api ban: " ++ err), [])
  | none => b.send (Payload.apiRequest "ban" ip duration reason ruleID) res

/-- Method `httpAPIBackend.Unban`. -/
def httpAPIBackend.Unban (lib : StdLib) (b : httpAPIBackend) (ip : String)
    (res : HTTPResult Unit) : Option String × List Wire :=
  match ValidateIP lib ip with
  | some err => (some ("http_api unban: " ++ err), [])
  | none => b.send (Payload.apiRequest "unban" ip 0 "" "") res

/-- The loop of `Unban` in the Vultr and Proxmox backends: one DELETE per
recorded rule; a request that cannot be built is skipped, every other outcome
is only logged. `results i` is the outcome of the `i`-th iteration. -/
def deleteLoop {α : Type} (urlOf : α → String) :
    Nat → List α → (Nat → HTTPResult Unit) → List Wire
  | _, [], _ => []
  | i, x :: rest, results =>
    (match results i with
      | HTTPResult.buildError _ => []
      | _ => [Wire.http { method := "DELETE", url := urlOf x, body := Payload.noBody }]) ++
    deleteLoop urlOf (i + 1) rest results

/-- The Vultr backend: configuration and the local map `ip -> []ruleID`. -/
structure vultrBackend where
  cfg : VultrConfig
  rules : List (String × List String)
  deriving DecidableEq, Repr

/-- What `createRule` returns, with what it sent. -/
structure CreateResult where
  id : String
  err : Option String
  wire : List Wire
  deriving DecidableEq, Repr

/-- Method `vultrBackend.createRule`. -/
def vultrBackend.createRule (b : vultrBackend) (ip ipType : String) (subnetSize : Int)
    (proto fwRuleID : String) (res : HTTPResult String) : CreateResult :=
  let req : HTTPRequest :=
    { method := "POST",
      url := "https://api.vultr.com/v2/firewalls/" ++ b.cfg.FirewallID ++ "/rules",
      body := Payload.vultrRule ipType proto ip subnetSize ("foxhole-fw:" ++ fwRuleID) }
  match res with
  | HTTPResult.buildError err =>
    { id := "", err := some ("vultr: build request: " ++ err), wire := [] }
  | HTTPResult.transportError err =>
    { id := "", err := some ("vultr: http error: " ++ err), wire := [Wire.http req] }
  | HTTPResult.response status statusText decoded =>
    if status ≥ 300 then
      { id := "", err := some ("vultr: non-success status " ++ statusText),
        wire := [Wire.http req] }
    else
      match decoded with
      | none => { id := "", err := some "vultr: decode response", wire := [Wire.http req] }
      | some id => { id := id, err := none, wire := [Wire.http req] }

/-- The loop `for _, proto := range protocols` of `vultrBackend.Ban`, each
protocol with the outcome of its request: the error it returns with, if any,
the ids created so far and what was sent. -/
def vultrBackend.createLoop (b : vultrBackend) (ip ipType : String) (subnetSize : Int)
    (ruleID : String) :
    List (String × HTTPResult String) → List String → List Wire →
      Option String × List String × List Wire
  | [], createdIDs, wire => (none, createdIDs, wire)
  | (proto, res) :: rest, createdIDs, wire =>
    match (b.createRule ip ipType subnetSize proto ruleID res).err with
    | some err =>
      (some err, createdIDs, wire ++ (b.createRule ip ipType subnetSize proto ruleID res).wire)
    | none =>
      vultrBackend.createLoop b ip ipType subnetSize ruleID rest
        (if (b.createRule ip ipType subnetSize proto ruleID res).id ≠ "" then
          createdIDs ++ [(b.createRule ip ipType subnetSize proto ruleID res).id]
         else createdIDs)
        (wire ++ (b.createRule ip ipType subnetSize proto ruleID res).wire)

/-- Method `vultrBackend.Ban`; `tcp` and `udp` are the outcomes of the two
rule-creation requests. -/
def vultrBackend.Ban (lib : StdLib) (b : vultrBackend) (ip : String) (_duration : Int)
    (_reason ruleID : String) (tcp udp : HTTPResult String) :
    vultrBackend × Option String × List Wire :=
  match ValidateIP lib ip with
  | some err => (b, some ("vultr ban: " ++ err), [])
  | none =>
    let ipType := if IsIPv6 lib ip then "v6" else "v4"
    let subnetSize : Int := if IsIPv6 lib ip then 128 else 32
    match b.createLoop ip ipType subnetSize ruleID [("tcp", tcp), ("udp", udp)] [] [] with
    | (some err, _, wire) => (b, some err, wire)
    | (none, createdIDs, wire) =>
      if createdIDs.length = 0 then
        (b, some ("vultr: no rule IDs returned for ip=" ++ ip), wire)
      else
        ({ b with rules := mapSet b.rules ip ((mapGet b.rules ip).getD [] ++ createdIDs) },
          none, wire)

/-- The URL of the DELETE request of `vultrBackend.Unban` for the rule `id`. -/
def vultrBackend.deleteURL (b : vultrBackend) (id : String) : String :=
  "https://api.vultr.com/v2/firewalls/" ++ b.cfg.FirewallID ++ "/rules/" ++ id

/-- Method `vultrBackend.Unban`. -/
def vultrBackend.Unban (lib : StdLib) (b : vultrBackend) (ip : String)
    (results : Nat → HTTPResult Unit) : vultrBackend × Option String × List Wire :=
  match ValidateIP lib ip with
  | some err => (b, some ("vultr unban: " ++ err), [])
  | none =>
    let ids := (mapGet b.rules ip).getD []
    let b1 : vultrBackend := { b with rules := mapDelete b.rules ip }
    if ids.length = 0 then (b1, none, [])
    else (b1, none, deleteLoop b.deleteURL 0 ids results)

/-- The Proxmox backend: configuration and the local map `ip -> []position`. -/
structure proxmoxBackend where
  cfg : ProxmoxConfig
  rules : List (String × List Int)
  deriving DecidableEq, Repr

/-- The path elements of the rules collection, at VM or node level. -/
def proxmoxBackend.rulesPath (b : proxmoxBackend) : List String :=
  if b.cfg.VMID ≠ "" then ["nodes", b.cfg.Node, "qemu", b.cfg.VMID, "firewall", "rules"]
  else ["nodes", b.cfg.Node, "firewall", "rules"]

/-- Method `proxmoxBackend.Ban`; a response body decodes to its `data.pos`
(0 when the field is absent). -/
def proxmoxBackend.Ban (lib : StdLib) (b : proxmoxBackend) (ip : String) (_duration : Int)
    (_reason ruleID : String) (res : HTTPResult Int) :
    proxmoxBackend × Option String × List Wire :=
  match ValidateIP lib ip with
  | some err => (b, some ("proxmox ban: " ++ err), [])
  | none =>
    if !lib.URLParses b.cfg.APIURL then (b, some "proxmox: invalid api_url", [])
    else
      let subnetSize := if IsIPv6 lib ip then "128" else "32"
      let req : HTTPRequest :=
        { method := "POST", url := lib.URLWithPath b.cfg.APIURL b.rulesPath,
          body := Payload.proxmoxForm (ip ++ "/" ++ subnetSize) ("foxhole-fw:" ++ ruleID) }
      match res with
      | HTTPResult.buildError err => (b, some ("proxmox: build request: " ++ err), [])
      | HTTPResult.transportError err =>
        (b, some ("proxmox: http error: " ++ err), [Wire.http req])
      | HTTPResult.response status statusText decoded =>
        if status ≥ 300 then
          (b, some ("proxmox: non-success status " ++ statusText), [Wire.http req])
        else
          match decoded with
          | none => (b, none, [Wire.http req])
          | some pos =>
            if pos > 0 then
              ({ b with rules := mapSet b.rules ip ((mapGet b.rules ip).getD [] ++ [pos]) },
                none, [Wire.http req])
            else (b, none, [Wire.http req])

/-- The URL of the DELETE request of `proxmoxBackend.Unban` for position `pos`. -/
def proxmoxBackend.deleteURL (lib : StdLib) (b : proxmoxBackend) (pos : Int) : String :=
  lib.URLWithPath b.cfg.APIURL (b.rulesPath ++ [toString pos])

/-- Method `proxmoxBackend.Unban`. -/
def proxmoxBackend.Unban (lib : StdLib) (b : proxmoxBackend) (ip : String)
    (results : Nat → HTTPResult Unit) : proxmoxBackend × Option String × List Wire :=
  match ValidateIP lib ip with
  | some err => (b, some ("proxmox unban: " ++ err), [])
  | none =>
    if !lib.URLParses b.cfg.APIURL then (b, some "proxmox: invalid api_url", [])
    else
      let positions := (mapGet b.rules ip).getD []
      let b1 : proxmoxBackend := { b with rules := mapDelete b.rules ip }
      if positions.length = 0 then (b1, none, [])
      else (b1, none, deleteLoop (b.deleteURL lib) 0 positions results)

/-- A Vultr backend with nothing recorded. -/
def sampleVultr : vultrBackend :=
  { cfg := { APIKey := "key", FirewallID := "fw1" }, rules := [] }

/-- A Proxmox backend at node level with nothing recorded. -/
def sampleProxmox : proxmoxBackend :=
  { cfg := { APIURL := "https://pve:8006/api2/json", TokenID := "t", TokenSecret := "s",
             Node := "n1", VMID := "" },
    rules := [] }

/-- Every DELETE request is built and answered with `200 OK`. -/
def deletesSucceed : Nat → HTTPResult Unit :=
  fun _ => HTTPResult.response 200 "200 OK" (some ())

/-! ## The configuration store (`internal/config/store.go`) -/

/-- The configuration store: the snapshot its atomic value holds (the pointer
is never nil: `NewStore` and the watcher store loaded configurations). -/
structure CfgStore where
  v : Config
  deriving DecidableEq, Repr

/-- Constructor `config.NewStore`. -/
def NewCfgStore (cfg : Config) : CfgStore := { v := cfg }

/-- Method `Current`. -/
def CfgStore.Current (s : CfgStore) : Config := s.v

/-- Method `Update`. -/
def CfgStore.Update (_s : CfgStore) (cfg : Config) : CfgStore := { v := cfg }

/-- The loop of `Engine.Run` when the configuration may be reloaded between
events: each event comes with the snapshot that `cfgStore.Current()` returns
while it is processed. The result is the tracker afterwards. -/
def runReloads (wallNow : Int) : Store → List (Config × Event) → Option Store
  | store, [] => some store
  | store, (cfg, ev) :: rest =>
    match processEvent cfg store wallNow ev with
    | none => none
    | some r => runReloads wallNow r.1 rest

/-- The configuration `loginConfig` with the window of its rule doubled. -/
def widerConfig : Config :=
  { loginConfig with Rules := [{ loginOnlyRule with Window := 120 * Second }] }

/-- A tracker with TTL 10 in which `a` has one error, at time 100. -/
def staleStore : Store :=
  { byIP := [("a", { Errors := [100] })], ttl := 10, maxIPs := DefaultMaxIPs,
    maxErrorsPerIP := DefaultMaxErrorsPerIP }

/-! ## Histories of one address -/

/-- One operation on the tracker for a fixed address and window: an error
recorded at time `t`, or an `ApplyWindow` call made at the time of the most
recent record. -/
inductive WindowOp where
  | record (t : Int)
  | window
  deriving DecidableEq, Repr

/-- The times of the records of a history, in order. -/
def recordedTimes : List WindowOp → List Int
  | [] => []
  | WindowOp.record t :: rest => t :: recordedTimes rest
  | WindowOp.window :: rest => recordedTimes rest

/-- The tracker after a history for the address `ip` and the window `w`;
`last` is the time of the most recent record so far. An `ApplyWindow` call
made before any record (on the still empty tracker) is given the time 0. -/
def runHistory (ip : String) (w : Int) : Store → Option Int → List WindowOp → Option Store
  | s, _, [] => some s
  | s, _, WindowOp.record t :: rest =>
    match RecordError s ip t with
    | none => none
    | some r => runHistory ip w r.1 (some t) rest
  | s, last, WindowOp.window :: rest =>
    runHistory ip w (ApplyWindow s ip (last.getD 0) w).1 last rest

/-- A history: errors at 1, 3, 3 and 12 with windows asked in between. -/
def sampleHistory : List WindowOp :=
  [WindowOp.window, WindowOp.record 1, WindowOp.window, WindowOp.record 3,
   WindowOp.record 3, WindowOp.window, WindowOp.record 12, WindowOp.window]

/-! ## Lemmas on maps and slices -/

theorem mapGet_mapSet_self {V : Type} (m : List (String × V)) (k : String) (v : V) :
    mapGet (mapSet m k v) k = some v := by
  induction m with
  | nil => simp [mapSet, mapGet]
  | cons e rest ih =>
    obtain ⟨k0, v0⟩ := e
    by_cases h : k0 = k
    · simp [mapSet, mapGet, h]
    · simp [mapSet, mapGet, h, ih]

theorem mapGet_mapSet_other {V : Type} (m : List (String × V)) (k k1 : String) (v : V)
    (hne : k1 ≠ k) : mapGet (mapSet m k v) k1 = mapGet m k1 := by
  induction m with
  | nil => simp [mapSet, mapGet, Ne.symm hne]
  | cons e rest ih =>
    obtain ⟨k0, v0⟩ := e
    by_cases h : k0 = k
    · subst h
      simp [mapSet, mapGet, Ne.symm hne]
    · by_cases h1 : k0 = k1
      · subst h1
        simp [mapSet, mapGet, h]
      · simp [mapSet, mapGet, h, h1, ih]

theorem mapGet_isSome_iff {V : Type} (m : List (String × V)) (k : String) :
    (mapGet m k).isSome = true ↔ k ∈ mapKeys m := by
  induction m with
  | nil => simp [mapGet, mapKeys]
  | cons e rest ih =>
    obtain ⟨k0, v0⟩ := e
    by_cases h : k0 = k
    · simp [mapGet, mapKeys, h]
    · have h2 : ¬ k = k0 := fun e => h e.symm
      simp only [mapKeys] at ih
      simp [mapGet, mapKeys, h, h2, ih]

theorem mapKeys_mapSet_of_mem {V : Type} (m : List (String × V)) (k : String) (v : V)
    (hk : k ∈ mapKeys m) : mapKeys (mapSet m k v) = mapKeys m := by
  induction m with
  | nil => simp [mapKeys] at hk
  | cons e rest ih =>
    obtain ⟨k0, v0⟩ := e
    by_cases h : k0 = k
    · simp [mapSet, mapKeys, h]
    · have h2 : ¬ k = k0 := fun e => h e.symm
      simp only [mapKeys, List.map_cons, List.mem_cons, h2, false_or] at hk
      simp only [mapKeys] at ih
      simp [mapSet, mapKeys, h, ih hk]

theorem mapKeys_mapSet_of_not_mem {V : Type} (m : List (String × V)) (k : String) (v : V)
    (hk : k ∉ mapKeys m) : mapKeys (mapSet m k v) = mapKeys m ++ [k] := by
  induction m with
  | nil => simp [mapKeys, mapSet]
  | cons e rest ih =>
    obtain ⟨k0, v0⟩ := e
    simp only [mapKeys, List.map_cons, List.mem_cons, not_or] at hk
    have h : ¬ k0 = k := fun e => hk.1 e.symm
    simp only [mapKeys] at ih
    simp [mapSet, mapKeys, h, ih hk.2]

theorem mapKeys_mapDelete_sublist {V : Type} (m : List (String × V)) (k : String) :
    List.Sublist (mapKeys (mapDelete m k)) (mapKeys m) := by
  induction m with
  | nil => simp [mapDelete, mapKeys]
  | cons e rest ih =>
    obtain ⟨k0, v0⟩ := e
    by_cases h : k0 = k
    · simp [mapDelete, mapKeys, h]
    · simp only [mapKeys] at ih
      simp [mapDelete, mapKeys, h, ih]

theorem mem_mapKeys_mapDelete {V : Type} (m : List (String × V)) (k k1 : String)
    (hne : k1 ≠ k) (hk : k1 ∈ mapKeys m) : k1 ∈ mapKeys (mapDelete m k) := by
  induction m with
  | nil => simp [mapKeys] at hk
  | cons e rest ih =>
    obtain ⟨k0, v0⟩ := e
    by_cases h : k0 = k
    · subst h
      simp only [mapKeys, List.map_cons, List.mem_cons, hne, false_or] at hk
      simpa [mapDelete, mapKeys] using hk
    · simp only [mapKeys, List.map_cons, List.mem_cons] at hk
      simp only [mapKeys] at ih
      rcases hk with hk | hk
      · simp [mapDelete, mapKeys, h, hk]
      · simp [mapDelete, mapKeys, h, ih hk]

theorem keepAfter_eq_filter (cutoff : Int) (errs : List Int) :
    keepAfter cutoff errs = errs.filter (fun ts => decide (cutoff < ts)) := by
  have gen : ∀ (xs acc : List Int),
      xs.foldl (fun filtered ts => if Time.After ts cutoff then filtered ++ [ts] else filtered)
        acc = acc ++ xs.filter (fun ts => decide (cutoff < ts)) := by
    intro xs
    induction xs with
    | nil => intro acc; simp
    | cons x rest ih =>
      intro acc
      simp only [List.foldl_cons]
      rw [ih]
      by_cases h : cutoff < x
      · simp [Time.After, h, List.filter_cons]
      · simp [Time.After, h, List.filter_cons]
  simpa [keepAfter] using gen errs []

theorem keepAfter_length_le (cutoff : Int) (errs : List Int) :
    (keepAfter cutoff errs).length ≤ errs.length := by
  rw [keepAfter_eq_filter]
  exact List.length_filter_le _ _

/-! ## Lemmas on the tracker operations -/

theorem specDropOldestUntil_length (n : Nat) (errs : List Int) (h : n ≤ errs.length) :
    (specDropOldestUntil n errs).length = n := by
  simp only [specDropOldestUntil, List.length_drop]
  omega

theorem keepAfter_eq_specDropOld (bound : Int) (t : Int) (errs : List Int) :
    keepAfter (Time.Add t (-bound)) errs = specDropOld bound t errs := by
  rw [keepAfter_eq_filter]
  unfold specDropOld Time.Add
  congr 1
  funext ts
  by_cases h : ts ≤ t - bound
  · have h2 : ¬ (t + -bound < ts) := by omega
    simp [h, h2]
  · have h2 : t + -bound < ts := by omega
    simp [h, h2]

theorem recordInto_eq (s : Store) (ip : String) (stats : ipStats) (now : Int)
    (hcap : 0 < s.maxErrorsPerIP) :
    recordInto s ip stats now =
      some ({ s with byIP := (mapSet s.byIP ip
                { Errors := specRecord s.ttl s.maxErrorsPerIP stats.Errors now }) },
            ((specRecord s.ttl s.maxErrorsPerIP stats.Errors now).length : Int)) := by
  unfold recordInto specRecord
  simp only [keepAfter_eq_specDropOld]
  by_cases hfull : ((specDropOld s.ttl now stats.Errors).length : Int) ≥ s.maxErrorsPerIP
  · have hlo : 0 ≤ ((specDropOld s.ttl now stats.Errors).length : Int) - s.maxErrorsPerIP + 1 ∧
        ((specDropOld s.ttl now stats.Errors).length : Int) - s.maxErrorsPerIP + 1 ≤
          ((specDropOld s.ttl now stats.Errors).length : Int) := by
      constructor <;> omega
    have hidx : (((specDropOld s.ttl now stats.Errors).length : Int) - s.maxErrorsPerIP + 1).toNat
        = (specDropOld s.ttl now stats.Errors).length - (s.maxErrorsPerIP - 1).toNat := by
      omega
    simp only [hfull, if_true, sliceFrom, hlo, and_self, hidx, specDropOldestUntil]
  · simp only [hfull, if_false]

theorem specRecord_length_le (ttl : Int) (maxErrorsPerIP : Int) (old : List Int)
    (t : Int) (hcap : 0 < maxErrorsPerIP) :
    ((specRecord ttl maxErrorsPerIP old t).length : Int) ≤ maxErrorsPerIP := by
  unfold specRecord
  by_cases hfull : ((specDropOld ttl t old).length : Int) ≥ maxErrorsPerIP
  · have hn : (maxErrorsPerIP - 1).toNat ≤ (specDropOld ttl t old).length := by omega
    simp only [hfull, if_true, List.length_append, List.length_singleton,
      specDropOldestUntil_length _ _ hn]
    omega
  · simp only [hfull, if_false, List.length_append, List.length_singleton]
    omega

theorem specRecord_length_le_succ (ttl : Int) (maxErrorsPerIP : Int) (old : List Int)
    (t : Int) : (specRecord ttl maxErrorsPerIP old t).length ≤ old.length + 1 := by
  have h1 : (specDropOld ttl t old).length ≤ old.length := List.length_filter_le _ _
  unfold specRecord
  by_cases hfull : ((specDropOld ttl t old).length : Int) ≥ maxErrorsPerIP
  · simp only [hfull, if_true, List.length_append, List.length_singleton, specDropOldestUntil,
      List.length_drop]
    omega
  · simp only [hfull, if_false, List.length_append, List.length_singleton]
    omega

/-- The result of `RecordError` when the address is tracked or there is room
for it, for a tracker whose per-IP cap is positive. -/
theorem RecordError_eq (s : Store) (ip : String) (t : Int)
    (hcap : 0 < s.maxErrorsPerIP)
    (hroom : (mapGet s.byIP ip).isSome = true ∨ mapLen s.byIP < s.maxIPs) :
    RecordError s ip t =
      some ({ s with byIP := (mapSet s.byIP ip
                { Errors := specRecord s.ttl s.maxErrorsPerIP (storedFor s ip) t }) },
            ((specRecord s.ttl s.maxErrorsPerIP (storedFor s ip) t).length : Int)) := by
  unfold RecordError storedFor
  cases hget : mapGet s.byIP ip with
  | some stats => simp only [recordInto_eq s ip stats t hcap]
  | none =>
    have hlt : ¬ (mapLen s.byIP ≥ s.maxIPs) := by
      rcases hroom with h | h
      · simp [hget] at h
      · omega
    simp only [hlt, if_false]
    rw [recordInto_eq { s with byIP := mapSet s.byIP ip { Errors := [] } } ip _ t hcap]
    have hset : mapSet (mapSet s.byIP ip ({ Errors := [] } : ipStats)) ip
        ({ Errors := specRecord s.ttl s.maxErrorsPerIP [] t } : ipStats) =
        mapSet s.byIP ip { Errors := specRecord s.ttl s.maxErrorsPerIP [] t } := by
      have gen : ∀ (m : List (String × ipStats)) (a b : ipStats),
          mapSet (mapSet m ip a) ip b = mapSet m ip b := by
        intro m a b
        induction m with
        | nil => simp [mapSet]
        | cons e rest ih =>
          obtain ⟨k0, v0⟩ := e
          by_cases h : k0 = ip
          · simp [mapSet, h]
          · simp [mapSet, h, ih]
      exact gen _ _ _
    simp only [hset]

/-- The result of `RecordError` at the cap: the sentinel, nothing recorded. -/
theorem RecordError_overflow (s : Store) (ip : String) (t : Int)
    (hnew : mapGet s.byIP ip = none) (hfull : mapLen s.byIP ≥ s.maxIPs) :
    RecordError s ip t = some (s, -1) := by
  unfold RecordError
  simp only [hnew, hfull, if_true]

/-- The machine negation is the integer one except at the least duration. -/
theorem negDuration_eq (d : Int) (hd : d ≠ minDuration) : negDuration d = -d := by
  unfold negDuration
  simp only [hd, if_false]

/-- The machine negation is the two's-complement one on every int64. -/
theorem negDuration_eq_wrap (d : Int) (hlo : minDuration ≤ d) (hhi : d ≤ maxDuration) :
    negDuration d = (-d + 2 ^ 63) % 2 ^ 64 - 2 ^ 63 := by
  unfold negDuration minDuration maxDuration at *
  by_cases h : d = -9223372036854775808
  · subst h
    simp only [if_true]
    norm_num
  · simp only [h, if_false]
    omega

theorem pos_ne_minDuration (d : Int) (hd : 0 < d) : d ≠ minDuration := by
  unfold minDuration
  omega

/-- The result of `ApplyWindow` on a tracked address, for any window: the
look-back it applies is the negated machine negation of the window. -/
theorem ApplyWindow_eq_neg (s : Store) (ip : String) (t : Int) (window : Int)
    (stats : ipStats) (hget : mapGet s.byIP ip = some stats) :
    ApplyWindow s ip t window =
      ({ s with byIP := (mapSet s.byIP ip
            { Errors := specDropOld (-(negDuration window)) t stats.Errors }) },
       ((specDropOld (-(negDuration window)) t stats.Errors).length : Int)) := by
  unfold ApplyWindow
  simp only [hget, ← keepAfter_eq_specDropOld, neg_neg]

/-- The result of `ApplyWindow` on a tracked address, for a window other than
the least duration. -/
theorem ApplyWindow_eq (s : Store) (ip : String) (t : Int) (window : Int)
    (hw : window ≠ minDuration)
    (stats : ipStats) (hget : mapGet s.byIP ip = some stats) :
    ApplyWindow s ip t window =
      ({ s with byIP := mapSet s.byIP ip { Errors := specDropOld window t stats.Errors } },
       ((specDropOld window t stats.Errors).length : Int)) := by
  rw [ApplyWindow_eq_neg s ip t window stats hget, negDuration_eq window hw, neg_neg]

/-! ## Claims on the tracker -/

/-- C3, amended: for every window other than the least duration, on an
untracked address `ApplyWindow` returns 0 and changes nothing; on a tracked one
it stores exactly the timestamps `ts > t - window`, in their order, returns
their number, and leaves every other address, the set of tracked addresses,
the TTL and the limits as they were. -/
theorem C3_ApplyWindow_spec (s : Store) (ip : String) (t : Int) (window : Int)
    (hw : window ≠ minDuration) :
    (mapGet s.byIP ip = none → ApplyWindow s ip t window = (s, 0)) ∧
    (∀ stats : ipStats, mapGet s.byIP ip = some stats →
      (ApplyWindow s ip t window).2 =
        ((stats.Errors.filter (fun ts => decide (ts > t - window))).length : Int) ∧
      mapGet (ApplyWindow s ip t window).1.byIP ip =
        some { Errors := stats.Errors.filter (fun ts => decide (ts > t - window)) } ∧
      (∀ ip1 : String, ip1 ≠ ip →
        mapGet (ApplyWindow s ip t window).1.byIP ip1 = mapGet s.byIP ip1) ∧
      mapKeys (ApplyWindow s ip t window).1.byIP = mapKeys s.byIP ∧
      (ApplyWindow s ip t window).1.ttl = s.ttl ∧
      (ApplyWindow s ip t window).1.maxIPs = s.maxIPs ∧
      (ApplyWindow s ip t window).1.maxErrorsPerIP = s.maxErrorsPerIP) := by
  constructor
  · intro hnone
    unfold ApplyWindow
    simp only [hnone]
  · intro stats hget
    have hfilter : specDropOld window t stats.Errors =
        stats.Errors.filter (fun ts => decide (ts > t - window)) := by
      unfold specDropOld
      congr 1
      funext ts
      by_cases h : ts ≤ t - window
      · have h2 : ¬ (ts > t - window) := by omega
        simp [h, h2]
      · have h2 : ts > t - window := by omega
        simp [h, h2]
    rw [ApplyWindow_eq s ip t window hw stats hget, hfilter]
    refine ⟨rfl, mapGet_mapSet_self _ _ _, ?_, ?_, rfl, rfl, rfl⟩
    · intro ip1 hne
      exact mapGet_mapSet_other _ _ _ _ hne
    · apply mapKeys_mapSet_of_mem
      rw [← mapGet_isSome_iff, hget]
      rfl

/-- C3 fails at the least duration: its negation is itself, the cutoff lies
far in the past, and `ApplyWindow` keeps and counts all three timestamps of
`a`, none of which is later than `t - window`. -/
theorem C3_counterexample :
    mapGet sampleStore.byIP "a" = some { Errors := [6, 7, 9] } ∧
    (ApplyWindow sampleStore "a" 10 minDuration).2 = 3 ∧
    mapGet (ApplyWindow sampleStore "a" 10 minDuration).1.byIP "a" =
      some { Errors := [6, 7, 9] } ∧
    ([6, 7, 9] : List Int).filter (fun ts => decide (ts > 10 - minDuration)) = [] := by
  decide

/-- C8: for an untracked address at the address cap, `RecordError` returns the
overflow sentinel `-1` and the tracker is exactly the one it was given. -/
theorem C8_RecordError_overflow (s : Store) (ip : String) (t : Int)
    (hnew : mapGet s.byIP ip = none) (hfull : mapLen s.byIP ≥ s.maxIPs) :
    RecordError s ip t = some (s, -1) ∧
      ∀ s1 : Store, ∀ c : Int, RecordError s ip t = some (s1, c) →
        s1.byIP = s.byIP ∧ mapGet s1.byIP ip = none ∧ c = -1 := by
  have h := RecordError_overflow s ip t hnew hfull
  refine ⟨h, ?_⟩
  intro s1 c heq
  rw [h] at heq
  simp only [Option.some.injEq, Prod.mk.injEq] at heq
  obtain ⟨h1, h2⟩ := heq
  subst h1
  exact ⟨rfl, hnew, h2.symm⟩

/-- C8 at `sampleStore`: both slots are taken, so recording the new address `c`
returns `-1` and changes nothing. -/
theorem C8_RecordError_overflow_witness :
    (mapGet sampleStore.byIP "c" = none ∧ mapLen sampleStore.byIP ≥ sampleStore.maxIPs) ∧
    RecordError sampleStore "c" 10 = some (sampleStore, -1) :=
  ⟨⟨by decide, by decide⟩, (C8_RecordError_overflow sampleStore "c" 10 (by decide) (by decide)).1⟩

/-- C3 at `sampleStore`: a window of 2 at time 10 keeps `[9]` of `a`, and the
untracked `c` gives 0 without a change. -/
theorem C3_ApplyWindow_spec_witness :
    (2 : Int) ≠ minDuration ∧
    ApplyWindow sampleStore "c" 10 2 = (sampleStore, 0) ∧
    (ApplyWindow sampleStore "a" 10 2).2 = 1 ∧
    mapGet (ApplyWindow sampleStore "a" 10 2).1.byIP "a" = some { Errors := [9] } :=
  ⟨by decide, (C3_ApplyWindow_spec sampleStore "c" 10 2 (by decide)).1 (by decide),
   ((C3_ApplyWindow_spec sampleStore "a" 10 2 (by decide)).2 { Errors := [6, 7, 9] }
      (by decide)).1,
   ((C3_ApplyWindow_spec sampleStore "a" 10 2 (by decide)).2 { Errors := [6, 7, 9] }
      (by decide)).2.1⟩

/-! ## Claims on the rule engine -/

theorem RecordError_cases (s : Store) (ip : String) (t : Int) (hcap : 0 < s.maxErrorsPerIP) :
    (mapGet s.byIP ip = none ∧ mapLen s.byIP ≥ s.maxIPs ∧ RecordError s ip t = some (s, -1)) ∨
    (((mapGet s.byIP ip).isSome = true ∨ mapLen s.byIP < s.maxIPs) ∧
      RecordError s ip t =
        some ({ s with byIP := (mapSet s.byIP ip
                  { Errors := specRecord s.ttl s.maxErrorsPerIP (storedFor s ip) t }) },
              ((specRecord s.ttl s.maxErrorsPerIP (storedFor s ip) t).length : Int))) := by
  by_cases hroom : (mapGet s.byIP ip).isSome = true ∨ mapLen s.byIP < s.maxIPs
  · exact Or.inr ⟨hroom, RecordError_eq s ip t hcap hroom⟩
  · simp only [not_or, not_lt] at hroom
    have hnone : mapGet s.byIP ip = none := by
      cases h : mapGet s.byIP ip with
      | none => rfl
      | some v => simp [h] at hroom
    exact Or.inl ⟨hnone, hroom.2, RecordError_overflow s ip t hnone hroom.2⟩

theorem matchRule_exact (r : Rule) (ev : Event) (hm : r.Method ≠ "") (hp : r.Path ≠ "") :
    matchRule r ev = decide (r.Method = ev.Method ∧ r.Path = ev.Path) := by
  unfold matchRule
  by_cases h1 : ev.Method = r.Method
  · by_cases h2 : ev.Path = r.Path
    · simp [hm, hp, h1, h2]
    · have h3 : ¬ r.Path = ev.Path := fun e => h2 e.symm
      simp [hm, hp, h1, h2, h3]
  · have h3 : ¬ r.Method = ev.Method := fun e => h1 e.symm
    simp [hm, h1, h3]

/-- The evaluation time that `processEvent` computes is the one of the
specification. -/
theorem evalTimeOf_eq_spec (ev : Event) (wallNow : Int) :
    evalTimeOf ev wallNow = specEvalTime ev wallNow := by
  unfold evalTimeOf specEvalTime Time.IsZero
  by_cases h : ev.Timestamp = 0
  · simp [h]
  · simp [h]

theorem evalRulesGC_nil (ev : Event) (evalTime : Int) (rules : List Rule) :
    ∀ (store : Store) (out : List Decision),
      evalRulesGC ev evalTime rules [] store out = evalRules ev evalTime rules store out := by
  induction rules with
  | nil =>
    intro store out
    rfl
  | cons r rest ih =>
    intro store out
    unfold evalRulesGC evalRules
    simp only [List.headD_nil, List.tail_nil, gcPasses, ih]

/-- Without GC passes `processEventGC` is `processEvent`. -/
theorem processEventGC_nil (cfg : Config) (store : Store) (wallNow : Int) (ev : Event) :
    processEventGC cfg store wallNow ev [] = processEvent cfg store wallNow ev := by
  unfold processEventGC processEvent
  simp only [evalRulesGC_nil]

theorem evalRulesGC_eq_spec (ev : Event) (evalTime : Int) (rules : List Rule)
    (hrules : ∀ r ∈ rules, r.Method ≠ "" ∧ r.Path ≠ "") :
    ∀ (gcs : List (List Int)) (store : Store) (out : List Decision),
      (evalRulesGC ev evalTime rules gcs store out).2 =
        out ++ specDecisions ev evalTime rules gcs store := by
  induction rules with
  | nil =>
    intro gcs store out
    simp [evalRulesGC, specDecisions, specCounts]
  | cons r rest ih =>
    intro gcs store out
    have hr := hrules r (List.mem_cons_self _ _)
    have ih1 := ih (fun x hx => hrules x (List.mem_cons_of_mem _ hx))
    unfold evalRulesGC specDecisions specCounts
    rw [matchRule_exact r ev hr.1 hr.2]
    generalize gcPasses store (gcs.headD []) = store0
    by_cases hmatch : r.Method = ev.Method ∧ r.Path = ev.Path
    · by_cases hcount : (ApplyWindow store0 ev.RemoteAddr evalTime r.Window).2 ≥ r.MaxErrors
      · simp only [hmatch, and_self, decide_True, Bool.not_true, hcount, if_true,
          Bool.false_eq_true, if_false]
        rw [ih1]
        simp [specDecisions, specCounts, hmatch, hcount, specDecision, List.filter_cons]
      · simp only [hmatch, and_self, decide_True, Bool.not_true, hcount, if_false,
          Bool.false_eq_true]
        rw [ih1]
        simp [specDecisions, specCounts, hmatch, hcount, List.filter_cons]
    · simp only [hmatch, decide_False, Bool.not_false, if_true]
      rw [ih1]
      simp [specDecisions, specCounts, hmatch]

theorem specCounts_mem (ev : Event) (evalTime : Int) (rules : List Rule) :
    ∀ (gcs : List (List Int)) (store : Store) (p : Rule × Int),
      p ∈ specCounts ev evalTime rules gcs store →
      p.1 ∈ rules ∧ p.1.Method = ev.Method ∧ p.1.Path = ev.Path := by
  induction rules with
  | nil =>
    intro gcs store p hp
    simp [specCounts] at hp
  | cons r rest ih =>
    intro gcs store p hp
    unfold specCounts at hp
    by_cases hmatch : r.Method = ev.Method ∧ r.Path = ev.Path
    · simp only [hmatch, and_self, if_true, List.mem_cons] at hp
      rcases hp with hp | hp
      · subst hp
        exact ⟨List.mem_cons_self _ _, hmatch.1, hmatch.2⟩
      · have h := ih _ _ p hp
        exact ⟨List.mem_cons_of_mem _ h.1, h.2⟩
    · simp only [hmatch, if_false] at hp
      have h := ih _ _ p hp
      exact ⟨List.mem_cons_of_mem _ h.1, h.2⟩

/-- C1: with rules whose method and path are non-empty, and whatever GC passes
`gcs` the tracker makes during the rule loop, `processEvent` first records the
event at `eval_time` (its timestamp, or the wall clock when it has none) when
its status is at least 400 and then emits, in declared rule order, exactly one
decision for each rule with the event's method and path whose `ApplyWindow`
count reaches `MaxErrors`, and nothing else; each decision carries the event's
address, the rule's id and ban duration, `eval_time`, `Violation = Ban = true`
and the reason "max_errors exceeded". -/
theorem C1_processEvent_spec (cfg : Config) (store : Store) (wallNow : Int) (ev : Event)
    (gcs : List (List Int))
    (hrules : ∀ r ∈ cfg.Rules, r.Method ≠ "" ∧ r.Path ≠ "")
    (hcap : 0 < store.maxErrorsPerIP) :
    ∃ recorded final : Store,
      (if ev.Status ≥ 400 then
          (RecordError store ev.RemoteAddr (specEvalTime ev wallNow)).map Prod.fst
        else some store) = some recorded ∧
      processEventGC cfg store wallNow ev gcs =
        some (final, specDecisions ev (specEvalTime ev wallNow) cfg.Rules gcs recorded) ∧
      ∀ d ∈ specDecisions ev (specEvalTime ev wallNow) cfg.Rules gcs recorded,
        d.IP = ev.RemoteAddr ∧ d.Violation = true ∧ d.Ban = true ∧
        d.Reason = "max_errors exceeded" ∧
        d.Timestamp = (if ev.Timestamp ≠ 0 then ev.Timestamp else wallNow) ∧
        ∃ r ∈ cfg.Rules, r.Method = ev.Method ∧ r.Path = ev.Path ∧
          d.RuleID = r.ID ∧ d.BanFor = r.BanDuration := by
  have hrec : ∃ recorded : Store,
      (if ev.Status ≥ 400 then
          (RecordError store ev.RemoteAddr (specEvalTime ev wallNow)).map Prod.fst
        else some store) = some recorded := by
    by_cases hst : ev.Status ≥ 400
    · rcases RecordError_cases store ev.RemoteAddr (specEvalTime ev wallNow) hcap with h | h
      · exact ⟨_, by rw [if_pos hst, h.2.2]; rfl⟩
      · exact ⟨_, by rw [if_pos hst, h.2]; rfl⟩
    · exact ⟨store, by simp only [hst, if_false]⟩
  obtain ⟨recorded, hrecorded⟩ := hrec
  refine ⟨recorded, (evalRulesGC ev (specEvalTime ev wallNow) cfg.Rules gcs recorded []).1,
    hrecorded, ?_, ?_⟩
  · unfold processEventGC
    simp only [evalTimeOf_eq_spec, hrecorded]
    have h := evalRulesGC_eq_spec ev (specEvalTime ev wallNow) cfg.Rules hrules gcs recorded []
    rw [List.nil_append] at h
    rw [← h]
  · intro d hd
    simp only [specDecisions, List.mem_map, List.mem_filter] at hd
    obtain ⟨p, ⟨hp, _⟩, hdp⟩ := hd
    have hmem := specCounts_mem ev (specEvalTime ev wallNow) cfg.Rules gcs recorded p hp
    subst hdp
    exact ⟨rfl, rfl, rfl, rfl, rfl, p.1, hmem.1, hmem.2.1, hmem.2.2, rfl, rfl⟩

/-- C1 at the sample data, for a failed login of `1.2.3.4` that carries no
timestamp and is processed at wall-clock 102, with a GC pass at wall-clock 150
before the turn of the only rule: the event is recorded at 102, it is the third
error within the window, and the single decision of rule `login` is stamped
102. -/
theorem C1_processEvent_spec_witness :
    ((∀ r ∈ sampleConfig.Rules, r.Method ≠ "" ∧ r.Path ≠ "") ∧
      0 < sampleEngineStore.maxErrorsPerIP) ∧
    (processEventGC sampleConfig sampleEngineStore 102 unstampedEvent [[150]]).map Prod.snd =
      some [{ IP := "1.2.3.4", RuleID := "login", Violation := true,
              Reason := "max_errors exceeded", Ban := true, BanFor := 300,
              Event := unstampedEvent, Timestamp := 102 }] ∧
    (processEventGC sampleConfig sampleEngineStore 102 unstampedEvent [[150]]).map
        (fun r => storedFor r.1 "1.2.3.4") = some [100, 101, 102] ∧
    ∃ recorded final : Store,
      (if unstampedEvent.Status ≥ 400 then
          (RecordError sampleEngineStore unstampedEvent.RemoteAddr
            (specEvalTime unstampedEvent 102)).map Prod.fst
        else some sampleEngineStore) = some recorded ∧
      processEventGC sampleConfig sampleEngineStore 102 unstampedEvent [[150]] =
        some (final, specDecisions unstampedEvent (specEvalTime unstampedEvent 102)
          sampleConfig.Rules [[150]] recorded) ∧
      ∀ d ∈ specDecisions unstampedEvent (specEvalTime unstampedEvent 102) sampleConfig.Rules
          [[150]] recorded,
        d.IP = unstampedEvent.RemoteAddr ∧ d.Violation = true ∧ d.Ban = true ∧
        d.Reason = "max_errors exceeded" ∧
        d.Timestamp = (if unstampedEvent.Timestamp ≠ 0 then unstampedEvent.Timestamp else 102) ∧
        ∃ r ∈ sampleConfig.Rules,
          r.Method = unstampedEvent.Method ∧ r.Path = unstampedEvent.Path ∧
          d.RuleID = r.ID ∧ d.BanFor = r.BanDuration :=
  ⟨⟨by decide, by decide⟩, by decide, by decide,
    C1_processEvent_spec sampleConfig sampleEngineStore 102 unstampedEvent [[150]]
      (by decide) (by decide)⟩

/-! ## Claims on the ban manager -/

/-- The result of the `Run` body on a decision that is acted upon. -/
theorem runDecision_acted (m : BanManager) (d : Decision) (now1 now2 : Int) (banErr : Bool)
    (hacc : specActedUpon m d now1 = true) :
    runDecision m (some d) now1 now2 banErr =
      ({ m with bans := mapSet m.bans d.IP { ExpiresAt := now2 + d.BanFor, RuleID := d.RuleID } },
        Effect.mapWrite d.IP { ExpiresAt := now2 + d.BanFor, RuleID := d.RuleID } ::
        (if m.dryRun = true then []
         else Effect.backendBan d.IP d.BanFor d.Reason d.RuleID ::
           (if banErr = false ∧ d.BanFor > 0 then [Effect.spawnUnban d.IP (now2 + d.BanFor)]
            else []))) := by
  simp only [specActedUpon, specAlreadyActive, Bool.and_eq_true, Bool.not_eq_true',
    gt_iff_lt] at hacc
  obtain ⟨⟨⟨hv, hb⟩, hw⟩, hact⟩ := hacc
  have hact2 : (match mapGet m.bans d.IP with
      | some existing => Time.After existing.ExpiresAt now1
      | none => false) = false := by
    cases hget : mapGet m.bans d.IP with
    | none => rfl
    | some info =>
      simp only [hget] at hact
      simpa [Time.After] using hact
  unfold runDecision handleDecision
  simp only [hv, hb, hw, hact2, Time.Add]
  cases hdry : m.dryRun
  · cases banErr
    · by_cases hpos : d.BanFor > 0
      · simp [hpos]
      · simp [hpos]
    · simp
  · simp

/-- The result of the `Run` body on a decision that is not acted upon. -/
theorem runDecision_skipped (m : BanManager) (d : Decision) (now1 now2 : Int) (banErr : Bool)
    (hrej : specActedUpon m d now1 = false) :
    runDecision m (some d) now1 now2 banErr = (m, []) := by
  unfold runDecision handleDecision
  cases hv : d.Violation
  · simp [hv]
  · cases hb : d.Ban
    · simp [hb]
    · cases hw : m.whitelist d.IP
      · have hact : specAlreadyActive m.bans d.IP now1 = true := by
          simpa [specActedUpon, hv, hb, hw] using hrej
        have hact2 : (match mapGet m.bans d.IP with
            | some existing => Time.After existing.ExpiresAt now1
            | none => false) = true := by
          unfold specAlreadyActive at hact
          cases hget : mapGet m.bans d.IP with
          | none => simp [hget] at hact
          | some info =>
            simp only [hget] at hact
            simpa [Time.After] using hact
        simp [hv, hb, hw, hact2]
      · simp [hv, hb, hw]

/-- C4: a decision received at the clock readings `now1` (active-ban test) and
`now2` (expiry computation; the claim's single `now` is `now1 = now2`) writes
the record `{now2 + BanFor, RuleID}` for its address exactly when it is a
violation, asks for a ban, is not whitelisted and no record of the address has
`ExpiresAt > now1`; then the effects are the write, followed when `dryRun` is
false by exactly one backend `Ban` call (and by the expiry task only when that
call succeeded and `BanFor > 0`), and the record is there whatever the backend
returned. In every other case the manager is unchanged and nothing is done. -/
theorem C4_runDecision_spec (m : BanManager) (d : Decision) (now1 now2 : Int)
    (banErr : Bool) :
    (specActedUpon m d now1 = true →
      (runDecision m (some d) now1 now2 banErr).1.bans =
        mapSet m.bans d.IP { ExpiresAt := now2 + d.BanFor, RuleID := d.RuleID } ∧
      mapGet (runDecision m (some d) now1 now2 banErr).1.bans d.IP =
        some { ExpiresAt := now2 + d.BanFor, RuleID := d.RuleID } ∧
      (∀ ip1 : String, ip1 ≠ d.IP →
        mapGet (runDecision m (some d) now1 now2 banErr).1.bans ip1 = mapGet m.bans ip1) ∧
      (runDecision m (some d) now1 now2 banErr).2 =
        Effect.mapWrite d.IP { ExpiresAt := now2 + d.BanFor, RuleID := d.RuleID } ::
          (if m.dryRun = true then []
           else Effect.backendBan d.IP d.BanFor d.Reason d.RuleID ::
             (if banErr = false ∧ d.BanFor > 0 then [Effect.spawnUnban d.IP (now2 + d.BanFor)]
              else []))) ∧
    (specActedUpon m d now1 = false →
      runDecision m (some d) now1 now2 banErr = (m, [])) ∧
    runDecision m none now1 now2 banErr = (m, []) := by
  refine ⟨?_, runDecision_skipped m d now1 now2 banErr, rfl⟩
  intro hacc
  rw [runDecision_acted m d now1 now2 banErr hacc]
  refine ⟨rfl, mapGet_mapSet_self _ _ _, ?_, rfl⟩
  intro ip1 hne
  exact mapGet_mapSet_other _ _ _ _ hne

/-- C4 at `sampleManager`: at time 60 the ban of `1.2.3.4` has lapsed, so a new
decision is acted upon and, the backend failing, the record stays; at time 40
the same decision is skipped. -/
theorem C4_runDecision_spec_witness :
    (specActedUpon sampleManager (banDecision "1.2.3.4" 100) 60 = true ∧
      specActedUpon sampleManager (banDecision "1.2.3.4" 100) 40 = false) ∧
    mapGet (runDecision sampleManager (some (banDecision "1.2.3.4" 100)) 60 60 true).1.bans
        "1.2.3.4" = some { ExpiresAt := 60 + 100, RuleID := "login" } ∧
    runDecision sampleManager (some (banDecision "1.2.3.4" 100)) 40 40 true
      = (sampleManager, []) :=
  ⟨⟨by decide, by decide⟩,
   ((C4_runDecision_spec sampleManager (banDecision "1.2.3.4" 100) 60 60 true).1
      (by decide)).2.1,
   (C4_runDecision_spec sampleManager (banDecision "1.2.3.4" 100) 40 40 true).2.1
      (by decide)⟩

/-- C5, the run that breaks it: a ban of `1.2.3.4` is accepted at time 10 for
100 (record written, backend `Ban` called); the expiry task of the earlier ban
then finishes, calls the backend `Unban` and deletes the new record; the
decision handled at time 11, inside the window `[10, 110)`, is therefore not
skipped and calls the backend `Ban` again. -/
theorem C5_stale_expiry_reban :
    (Sys.run (Sys.init false (fun _ => false)) staleExpirySteps).map Sys.log =
      some [Effect.mapWrite "1.2.3.4" { ExpiresAt := 10, RuleID := "login" },
            Effect.backendBan "1.2.3.4" 10 "max_errors exceeded" "login",
            Effect.spawnUnban "1.2.3.4" 10,
            Effect.mapWrite "1.2.3.4" { ExpiresAt := 110, RuleID := "login" },
            Effect.backendBan "1.2.3.4" 100 "max_errors exceeded" "login",
            Effect.spawnUnban "1.2.3.4" 110,
            Effect.backendUnban "1.2.3.4",
            Effect.mapDelete "1.2.3.4"] ∧
    (Sys.run (Sys.init false (fun _ => false)) staleExpirySteps).map (fun s => s.mgr.bans) =
      some [] ∧
    (Sys.run (Sys.init false (fun _ => false)) staleExpirySteps).map
        (fun s => (runDecision s.mgr (some (banDecision "1.2.3.4" 100)) 11 11 false).2) =
      some [Effect.mapWrite "1.2.3.4" { ExpiresAt := 111, RuleID := "login" },
            Effect.backendBan "1.2.3.4" 100 "max_errors exceeded" "login",
            Effect.spawnUnban "1.2.3.4" 111] ∧
    ((10 : Int) ≤ 11 ∧ (11 : Int) < 10 + 100) := by
  refine ⟨by decide, by decide, by decide, by decide⟩

theorem runDecision_dryRun (m : BanManager) (hdry : m.dryRun = true) (d : Option Decision)
    (now1 now2 : Int) (banErr : Bool) :
    (runDecision m d now1 now2 banErr).1.dryRun = true ∧
    ((runDecision m d now1 now2 banErr).2 = [] ∨
      ∃ ip info, (runDecision m d now1 now2 banErr).2 = [Effect.mapWrite ip info]) := by
  cases d with
  | none => exact ⟨hdry, Or.inl rfl⟩
  | some d =>
    cases hskip : (!d.Ban || !d.Violation) with
    | true => simp [runDecision, hskip, hdry]
    | false =>
      cases hw : m.whitelist d.IP with
      | true => simp [runDecision, handleDecision, hskip, hw, hdry]
      | false =>
        cases hact : (match mapGet m.bans d.IP with
            | some existing => Time.After existing.ExpiresAt now1
            | none => false) with
        | true => simp [runDecision, handleDecision, hskip, hw, hact, hdry]
        | false => simp [runDecision, handleDecision, hskip, hw, hact, hdry]

theorem dryRun_step_invariant (s0 s : Sys) (st : Step) (hdry : s0.mgr.dryRun = true)
    (hpend : s0.pending = []) (hlog : ∀ e ∈ s0.log, Effect.isExternal e = false)
    (hstep : s0.step st = some s) :
    s.mgr.dryRun = true ∧ s.pending = [] ∧ ∀ e ∈ s.log, Effect.isExternal e = false := by
  cases st with
  | decision d now1 now2 banErr =>
    have h := runDecision_dryRun s0.mgr hdry d now1 now2 banErr
    simp only [Sys.step, Option.some.injEq] at hstep
    subst hstep
    rcases h.2 with h2 | ⟨ip, info, h2⟩
    · simp only [h2, spawnedBy, List.append_nil]
      exact ⟨h.1, hpend, hlog⟩
    · simp only [h2, spawnedBy, List.append_nil]
      refine ⟨h.1, hpend, ?_⟩
      intro e he
      simp only [List.mem_append, List.mem_singleton] at he
      rcases he with he | he
      · exact hlog e he
      · subst he
        rfl
  | expire idx now unbanErr =>
    simp [Sys.step, hpend] at hstep

theorem dryRun_run_invariant (steps : List Step) :
    ∀ (s0 s : Sys), s0.mgr.dryRun = true → s0.pending = [] →
      (∀ e ∈ s0.log, Effect.isExternal e = false) → Sys.run s0 steps = some s →
      s.mgr.dryRun = true ∧ s.pending = [] ∧ ∀ e ∈ s.log, Effect.isExternal e = false := by
  induction steps with
  | nil =>
    intro s0 s hdry hpend hlog hrun
    simp only [Sys.run, Option.some.injEq] at hrun
    subst hrun
    exact ⟨hdry, hpend, hlog⟩
  | cons st rest ih =>
    intro s0 s hdry hpend hlog hrun
    unfold Sys.run at hrun
    cases hstep : s0.step st with
    | none => simp [hstep] at hrun
    | some s1 =>
      simp only [hstep] at hrun
      have h1 := dryRun_step_invariant s0 s1 st hdry hpend hlog hstep
      exact ih s1 s h1.1 h1.2.1 h1.2.2 hrun

/-- C6: in every state that a manager constructed with `dryRun = true` reaches
by handling decisions at any times (expiry-task steps are allowed but never
enabled), the record of effects holds no backend `Ban`, no backend `Unban` and
no spawned expiry task, no expiry task is pending, a further decision can always
be handled, and a decision that is acted upon still writes its reservation
`{now2 + BanFor, RuleID}` into the ban table, and does nothing else. -/
theorem C6_dry_run_isolation (whitelist : String → Bool) (steps : List Step) (s : Sys)
    (hrun : Sys.run (Sys.init true whitelist) steps = some s) :
    (∀ e ∈ s.log, Effect.isExternal e = false) ∧ s.pending = [] ∧
    (∀ (d : Option Decision) (now1 now2 : Int) (banErr : Bool),
      ∃ s1, s.step (Step.decision d now1 now2 banErr) = some s1) ∧
    (∀ (d : Decision) (now1 now2 : Int) (banErr : Bool),
      specActedUpon s.mgr d now1 = true →
        (runDecision s.mgr (some d) now1 now2 banErr).2 =
          [Effect.mapWrite d.IP { ExpiresAt := now2 + d.BanFor, RuleID := d.RuleID }] ∧
        mapGet (runDecision s.mgr (some d) now1 now2 banErr).1.bans d.IP =
          some { ExpiresAt := now2 + d.BanFor, RuleID := d.RuleID }) := by
  have hinv := dryRun_run_invariant steps (Sys.init true whitelist) s rfl rfl
    (by intro e he; simp [Sys.init] at he) hrun
  refine ⟨hinv.2.2, hinv.2.1, ?_, ?_⟩
  · intro d now1 now2 banErr
    exact ⟨_, rfl⟩
  · intro d now1 now2 banErr hacc
    rw [runDecision_acted s.mgr d now1 now2 banErr hacc]
    refine ⟨?_, mapGet_mapSet_self _ _ _⟩
    simp only [hinv.1, if_true]

/-- C6 at `dryRunSteps`: the first decision reserves the ban until 100, the
second one is skipped, and the backend is never reached. -/
theorem C6_dry_run_isolation_witness :
    ∃ s : Sys, Sys.run (Sys.init true (fun _ => false)) dryRunSteps = some s ∧
      s.mgr.bans = [("1.2.3.4", { ExpiresAt := 100, RuleID := "login" })] ∧
      s.log = [Effect.mapWrite "1.2.3.4" { ExpiresAt := 100, RuleID := "login" }] ∧
      (∀ e ∈ s.log, Effect.isExternal e = false) ∧ s.pending = [] :=
  ⟨_, rfl, by decide, by decide,
    (C6_dry_run_isolation (fun _ => false) dryRunSteps _ rfl).1,
    (C6_dry_run_isolation (fun _ => false) dryRunSteps _ rfl).2.1⟩

/-! ## Invariants of the tracker -/

theorem mapLen_eq_keys {V : Type} (m : List (String × V)) :
    mapLen m = ((mapKeys m).length : Int) := by
  simp [mapLen, mapKeys]

theorem storedFor_mapSet_self (s : Store) (ip : String) (errs : List Int) :
    storedFor { s with byIP := mapSet s.byIP ip { Errors := errs } } ip = errs := by
  unfold storedFor
  simp only [mapGet_mapSet_self]

theorem specRecord_mem (ttl maxErrorsPerIP : Int) (old : List Int) (t ts : Int)
    (h : ts ∈ specRecord ttl maxErrorsPerIP old t) :
    ts = t ∨ (ts ∈ old ∧ ¬ ts ≤ t - ttl) := by
  unfold specRecord at h
  have hkept : ∀ x, x ∈ specDropOld ttl t old → x ∈ old ∧ ¬ x ≤ t - ttl := by
    intro x hx
    simpa [specDropOld] using hx
  by_cases hfull : ((specDropOld ttl t old).length : Int) ≥ maxErrorsPerIP
  · simp only [hfull, if_true, List.mem_append, List.mem_singleton, specDropOldestUntil] at h
    rcases h with h | h
    · exact Or.inr (hkept ts (List.mem_of_mem_drop h))
    · exact Or.inl h
  · simp only [hfull, if_false, List.mem_append, List.mem_singleton] at h
    rcases h with h | h
    · exact Or.inr (hkept ts h)
    · exact Or.inl h

/-- Everything the later proofs need about one `RecordError` call on a tracker
with a positive per-IP cap. -/
theorem RecordError_step (s : Store) (ip : String) (t : Int) (hcap : 0 < s.maxErrorsPerIP) :
    ∃ (s1 : Store) (c : Int), RecordError s ip t = some (s1, c) ∧
      s1.ttl = s.ttl ∧ s1.maxIPs = s.maxIPs ∧ s1.maxErrorsPerIP = s.maxErrorsPerIP ∧
      (storedFor s1 ip).length ≤ (storedFor s ip).length + 1 ∧
      (∀ ts ∈ storedFor s1 ip, ts = t ∨ (ts ∈ storedFor s ip ∧ ¬ ts ≤ t - s.ttl)) ∧
      (c ≠ -1 → (mapGet s1.byIP ip).isSome = true ∧
        ((storedFor s1 ip).length : Int) ≤ s.maxErrorsPerIP) ∧
      ((mapKeys s.byIP).Nodup → mapLen s.byIP ≤ s.maxIPs →
        (mapKeys s1.byIP).Nodup ∧ mapLen s1.byIP ≤ s.maxIPs) := by
  rcases RecordError_cases s ip t hcap with ⟨hnone, hfull, heq⟩ | ⟨hroom, heq⟩
  · refine ⟨s, -1, heq, rfl, rfl, rfl, Nat.le_succ _, ?_, ?_, ?_⟩
    · intro ts hts
      simp [storedFor, hnone] at hts
    · intro hc
      exact absurd rfl hc
    · intro hk hl
      exact ⟨hk, hl⟩
  · refine ⟨_, _, heq, rfl, rfl, rfl, ?_, ?_, ?_, ?_⟩
    · rw [storedFor_mapSet_self]
      exact specRecord_length_le_succ _ _ _ _
    · intro ts hts
      rw [storedFor_mapSet_self] at hts
      exact specRecord_mem _ _ _ _ _ hts
    · intro _
      rw [storedFor_mapSet_self]
      refine ⟨?_, specRecord_length_le _ _ _ _ hcap⟩
      simp only [mapGet_mapSet_self, Option.isSome_some]
    · intro hk hl
      by_cases hmem : ip ∈ mapKeys s.byIP
      · simp only [mapLen_eq_keys, mapKeys_mapSet_of_mem _ _ _ hmem]
        exact ⟨hk, by rw [← mapLen_eq_keys]; exact hl⟩
      · have hlt : mapLen s.byIP < s.maxIPs := by
          rcases hroom with h | h
          · exact absurd ((mapGet_isSome_iff _ _).1 h) hmem
          · exact h
        simp only [mapLen_eq_keys, mapKeys_mapSet_of_not_mem _ _ _ hmem,
          List.length_append, List.length_singleton]
        rw [mapLen_eq_keys] at hlt
        refine ⟨?_, by push_cast; omega⟩
        rw [List.nodup_append]
        refine ⟨hk, List.nodup_singleton _, ?_⟩
        intro a ha hb
        simp only [List.mem_singleton] at hb
        subst hb
        exact hmem ha

theorem ApplyWindow_step (s : Store) (ip : String) (t window : Int) :
    (ApplyWindow s ip t window).1.ttl = s.ttl ∧
    (ApplyWindow s ip t window).1.maxIPs = s.maxIPs ∧
    (ApplyWindow s ip t window).1.maxErrorsPerIP = s.maxErrorsPerIP ∧
    mapKeys (ApplyWindow s ip t window).1.byIP = mapKeys s.byIP ∧
    (ApplyWindow s ip t window).2 =
      ((storedFor (ApplyWindow s ip t window).1 ip).length : Int) ∧
    (storedFor (ApplyWindow s ip t window).1 ip).length ≤ (storedFor s ip).length := by
  cases hget : mapGet s.byIP ip with
  | none =>
    have h : ApplyWindow s ip t window = (s, 0) := by
      unfold ApplyWindow
      simp only [hget]
    rw [h]
    refine ⟨rfl, rfl, rfl, rfl, ?_, Nat.le_refl _⟩
    simp [storedFor, hget]
  | some stats =>
    rw [ApplyWindow_eq_neg s ip t window stats hget]
    refine ⟨rfl, rfl, rfl, ?_, ?_, ?_⟩
    · apply mapKeys_mapSet_of_mem
      rw [← mapGet_isSome_iff, hget]
      rfl
    · rw [storedFor_mapSet_self]
    · rw [storedFor_mapSet_self]
      have h : storedFor s ip = stats.Errors := by simp [storedFor, hget]
      rw [h]
      exact List.length_filter_le _ _

theorem gc_keys_sublist (cutoff : Int) (es : List (String × ipStats)) :
    ∀ (m : List (String × ipStats)), (es.map Prod.fst).Nodup →
      (∀ e ∈ es, e.1 ∈ mapKeys m) →
      List.Sublist (mapKeys (es.foldl (gcEntry cutoff) m)) (mapKeys m) := by
  induction es with
  | nil =>
    intro m _ _
    exact List.Sublist.refl _
  | cons e rest ih =>
    intro m hnd hmem
    simp only [List.map_cons, List.nodup_cons] at hnd
    have he : e.1 ∈ mapKeys m := hmem e (List.mem_cons_self _ _)
    have hne : ∀ x ∈ rest, x.1 ≠ e.1 := by
      intro x hx heq
      exact hnd.1 (heq ▸ List.mem_map_of_mem Prod.fst hx)
    simp only [List.foldl_cons]
    by_cases hempty : (keepAfter cutoff e.2.Errors).length = 0
    · have hstep : gcEntry cutoff m e = mapDelete m e.1 := by
        simp only [gcEntry, hempty, if_true]
      rw [hstep]
      refine List.Sublist.trans (ih _ hnd.2 ?_) (mapKeys_mapDelete_sublist m e.1)
      intro x hx
      exact mem_mapKeys_mapDelete m e.1 x.1 (hne x hx) (hmem x (List.mem_cons_of_mem _ hx))
    · have hstep : gcEntry cutoff m e =
          mapSet m e.1 { Errors := keepAfter cutoff e.2.Errors } := by
        simp only [gcEntry, hempty, if_false]
      have hkeys := mapKeys_mapSet_of_mem m e.1 { Errors := keepAfter cutoff e.2.Errors } he
      rw [hstep]
      have h := ih (mapSet m e.1 { Errors := keepAfter cutoff e.2.Errors }) hnd.2 (by
        intro x hx
        rw [hkeys]
        exact hmem x (List.mem_cons_of_mem _ hx))
      rw [hkeys] at h
      exact h

theorem gc_step (s : Store) (now : Int) (hk : (mapKeys s.byIP).Nodup) :
    (gc s now).ttl = s.ttl ∧ (gc s now).maxIPs = s.maxIPs ∧
    (gc s now).maxErrorsPerIP = s.maxErrorsPerIP ∧
    (mapKeys (gc s now).byIP).Nodup ∧ mapLen (gc s now).byIP ≤ mapLen s.byIP := by
  have hsub := gc_keys_sublist (Time.Add now (-s.ttl)) s.byIP s.byIP hk (by
    intro e he
    exact List.mem_map_of_mem Prod.fst he)
  refine ⟨rfl, rfl, rfl, List.Nodup.sublist hsub hk, ?_⟩
  have hlen := List.Sublist.length_le hsub
  simp only [mapLen_eq_keys]
  exact_mod_cast hlen

theorem runOps_invariant (ops : List StoreOp) :
    ∀ s : Store, s.WellFormed →
      ∃ s1 : Store, runOps s ops = some s1 ∧ s1.WellFormed ∧ s1.ttl = s.ttl ∧
        s1.maxIPs = s.maxIPs ∧ s1.maxErrorsPerIP = s.maxErrorsPerIP := by
  induction ops with
  | nil =>
    intro s hwf
    exact ⟨s, rfl, hwf, rfl, rfl, rfl⟩
  | cons op rest ih =>
    intro s hwf
    obtain ⟨hk, hl, hcap⟩ := hwf
    have hnext : ∃ s1 : Store, applyOp s op = some s1 ∧ s1.WellFormed ∧ s1.ttl = s.ttl ∧
        s1.maxIPs = s.maxIPs ∧ s1.maxErrorsPerIP = s.maxErrorsPerIP := by
      cases op with
      | record ip t =>
        obtain ⟨s1, c, heq, h1, h2, h3, _, _, _, h7⟩ := RecordError_step s ip t hcap
        have h8 := h7 hk hl
        refine ⟨s1, by simp only [applyOp, heq]; rfl, ⟨h8.1, ?_, ?_⟩, h1, h2, h3⟩
        · rw [h2]; exact h8.2
        · rw [h3]; exact hcap
      | window ip t w =>
        have h := ApplyWindow_step s ip t w
        refine ⟨_, rfl, ⟨?_, ?_, ?_⟩, h.1, h.2.1, h.2.2.1⟩
        · rw [h.2.2.2.1]; exact hk
        · rw [mapLen_eq_keys, h.2.2.2.1, ← mapLen_eq_keys, h.2.1]; exact hl
        · rw [h.2.2.1]; exact hcap
      | collect now =>
        have h := gc_step s now hk
        refine ⟨_, rfl, ⟨h.2.2.2.1, ?_, ?_⟩, h.1, h.2.1, h.2.2.1⟩
        · rw [h.2.1]; exact le_trans h.2.2.2.2 hl
        · rw [h.2.2.1]; exact hcap
    obtain ⟨s1, hop, hwf1, e1, e2, e3⟩ := hnext
    obtain ⟨s2, hrun, hwf2, f1, f2, f3⟩ := ih s1 hwf1
    refine ⟨s2, ?_, hwf2, f1.trans e1, f2.trans e2, f3.trans e3⟩
    simp only [runOps, hop, hrun]

/-- C7: a tracker created empty with limits `maxIPs ≥ 1` and
`maxErrorsPerIP ≥ 1` runs every finite sequence of `RecordError`, `ApplyWindow`
and `gc` operations to a tracker that holds at most `maxIPs` (pairwise distinct)
addresses; and any `RecordError(ip, t)` made there that does not return the
overflow sentinel leaves `ip` tracked with at most `maxErrorsPerIP` stored
timestamps. -/
theorem C7_memory_bound (ttl maxIPs maxErrorsPerIP : Int) (ops : List StoreOp)
    (hips : 1 ≤ maxIPs) (herrs : 1 ≤ maxErrorsPerIP) :
    ∃ s : Store, runOps (SetLimits (NewStore ttl) maxIPs maxErrorsPerIP) ops = some s ∧
      s.maxIPs = maxIPs ∧ s.maxErrorsPerIP = maxErrorsPerIP ∧
      (mapKeys s.byIP).Nodup ∧ mapLen s.byIP ≤ maxIPs ∧
      ∀ (ip : String) (t : Int), ∃ (s1 : Store) (c : Int),
        RecordError s ip t = some (s1, c) ∧ mapLen s1.byIP ≤ maxIPs ∧
        (c ≠ -1 → (mapGet s1.byIP ip).isSome = true ∧
          ((storedFor s1 ip).length : Int) ≤ maxErrorsPerIP) := by
  have hinit : SetLimits (NewStore ttl) maxIPs maxErrorsPerIP =
      { byIP := [], ttl := ttl, maxIPs := maxIPs, maxErrorsPerIP := maxErrorsPerIP } := by
    have h1 : maxIPs > 0 := by omega
    have h2 : maxErrorsPerIP > 0 := by omega
    simp only [SetLimits, NewStore, h1, h2, if_true]
  have hwf : (SetLimits (NewStore ttl) maxIPs maxErrorsPerIP).WellFormed := by
    rw [hinit]
    refine ⟨List.nodup_nil, ?_, ?_⟩
    · simp only [mapLen, List.length_nil]; omega
    · show 0 < maxErrorsPerIP
      omega
  obtain ⟨s, hrun, ⟨hk, hl, hcap⟩, _, h2, h3⟩ := runOps_invariant ops _ hwf
  rw [hinit] at h2 h3
  simp only at h2 h3
  refine ⟨s, hrun, h2, h3, hk, h2 ▸ hl, ?_⟩
  intro ip t
  obtain ⟨s1, c, heq, _, _, _, _, _, h6, h7⟩ := RecordError_step s ip t hcap
  refine ⟨s1, c, heq, ?_, ?_⟩
  · rw [← h2]; exact (h7 hk hl).2
  · intro hc
    rw [← h3]
    exact h6 hc

/-- C7 at `sampleOps`: with room for one address of two errors, `b` is turned
away, `a` keeps its two latest errors, and the GC pass empties the tracker. -/
theorem C7_memory_bound_witness :
    ((1 : Int) ≤ 1 ∧ (1 : Int) ≤ 2) ∧
    runOps (SetLimits (NewStore 60) 1 2) (sampleOps.take 4) =
      some { byIP := [("a", { Errors := [3, 4] })], ttl := 60, maxIPs := 1,
             maxErrorsPerIP := 2 } ∧
    ∃ s : Store, runOps (SetLimits (NewStore 60) 1 2) sampleOps = some s ∧
      s.maxIPs = 1 ∧ s.maxErrorsPerIP = 2 ∧
      (mapKeys s.byIP).Nodup ∧ mapLen s.byIP ≤ 1 ∧
      ∀ (ip : String) (t : Int), ∃ (s1 : Store) (c : Int),
        RecordError s ip t = some (s1, c) ∧ mapLen s1.byIP ≤ 1 ∧
        (c ≠ -1 → (mapGet s1.byIP ip).isSome = true ∧
          ((storedFor s1 ip).length : Int) ≤ 2) :=
  ⟨⟨by decide, by decide⟩, by decide,
    C7_memory_bound 60 1 2 sampleOps (by decide) (by decide)⟩

/-! ## Sequences of `RecordError` calls for one address -/

theorem recordAll_append (ip : String) (a b : List Int) :
    ∀ s : Store, recordAll s ip (a ++ b) =
      (recordAll s ip a).bind (fun s1 => recordAll s1 ip b) := by
  induction a with
  | nil =>
    intro s
    simp [recordAll]
  | cons t rest ih =>
    intro s
    simp only [List.cons_append, recordAll]
    cases h : RecordError s ip t with
    | none => simp
    | some r => simp [ih]

theorem recordAll_props (ip : String) (times : List Int) :
    ∀ s : Store, 0 < s.maxErrorsPerIP →
      ∃ s1 : Store, recordAll s ip times = some s1 ∧ s1.ttl = s.ttl ∧
        s1.maxErrorsPerIP = s.maxErrorsPerIP ∧
        (storedFor s1 ip).length ≤ (storedFor s ip).length + times.length := by
  induction times with
  | nil =>
    intro s _
    exact ⟨s, rfl, rfl, rfl, Nat.le_refl _⟩
  | cons t rest ih =>
    intro s hcap
    obtain ⟨s1, c, heq, h1, _, h3, h4, _⟩ := RecordError_step s ip t hcap
    obtain ⟨s2, hrun, g1, g3, g4⟩ := ih s1 (h3 ▸ hcap)
    refine ⟨s2, ?_, g1.trans h1, g3.trans h3, ?_⟩
    · simp only [recordAll, heq, hrun]
    · simp only [List.length_cons]
      omega

/-- C9, as amended: on a tracker with TTL > 0 (and a positive per-IP cap),
after any sequence of `RecordError(ip, t)` calls for one address, with the
times in any order, every timestamp stored for `ip` satisfies
`t - ts < TTL` for the time `t` of the most recent call (which is the largest
time passed when the times are non-decreasing). -/
theorem C9_tracker_bound_most_recent (s : Store) (ip : String) (earlier : List Int)
    (tLast : Int) (hcap : 0 < s.maxErrorsPerIP) (httl : 0 < s.ttl) :
    ∃ s1 : Store, recordAll s ip (earlier ++ [tLast]) = some s1 ∧
      ∀ ts ∈ storedFor s1 ip, tLast - ts < s.ttl := by
  obtain ⟨s1, hrun, h1, h3, _⟩ := recordAll_props ip earlier s hcap
  obtain ⟨s2, c, heq, _, _, _, _, hmem, _⟩ := RecordError_step s1 ip tLast (h3 ▸ hcap)
  refine ⟨s2, ?_, ?_⟩
  · rw [recordAll_append, hrun]
    simp only [Option.some_bind, recordAll, heq]
  · intro ts hts
    rcases hmem ts hts with h | ⟨_, h⟩
    · subst h
      omega
    · rw [h1] at h
      omega

/-- C9 fails as stated: with TTL 10, recording `a` at 100 and then at 0 leaves
`[100, 0]` stored, and `100 - 0 < 10` is false although 100 is the largest
time passed; with TTL 0, a single record at 5 leaves `[5]`, and `5 - 5 < 0` is
false. -/
theorem C9_counterexample :
    ((recordAll (NewStore 10) "a" [100, 0]).map (fun s => storedFor s "a") = some [100, 0] ∧
      (∀ u ∈ ([100, 0] : List Int), u ≤ 100) ∧ ¬ ((100 : Int) - 0 < (NewStore 10).ttl)) ∧
    ((recordAll (NewStore 0) "a" [5]).map (fun s => storedFor s "a") = some [5] ∧
      ¬ ((5 : Int) - 5 < (NewStore 0).ttl)) := by
  refine ⟨⟨by decide, by decide, by decide⟩, by decide, by decide⟩

/-- C9 (amended) at a tracker with TTL 10: after records at 1, 3 and 12 the
stored timestamps are `[3, 12]`, both less than 10 before 12. -/
theorem C9_tracker_bound_most_recent_witness :
    (0 < (NewStore 10).maxErrorsPerIP ∧ 0 < (NewStore 10).ttl) ∧
    (recordAll (NewStore 10) "a" ([1, 3] ++ [12])).map (fun s => storedFor s "a")
      = some [3, 12] ∧
    ∃ s1 : Store, recordAll (NewStore 10) "a" ([1, 3] ++ [12]) = some s1 ∧
      ∀ ts ∈ storedFor s1 "a", 12 - ts < (NewStore 10).ttl :=
  ⟨⟨by decide, by decide⟩, by decide,
    C9_tracker_bound_most_recent (NewStore 10) "a" [1, 3] 12 (by decide) (by decide)⟩

/-- C10: for a tracker with a positive per-IP cap, an address `ip`, a window `w`
and times `t1 ≤ t2`: if `ApplyWindow(ip, t1, w)` returns `c1`, then `k` further
`RecordError(ip, ·)` calls are made (they all return), and then
`ApplyWindow(ip, t2, w)` returns `c2`, then `c2 ≤ c1 + k`. -/
theorem C10_window_monotone (s : Store) (ip : String) (w t1 t2 : Int) (times : List Int)
    (hcap : 0 < s.maxErrorsPerIP) (_h12 : t1 ≤ t2) :
    ∃ s2 : Store, recordAll (ApplyWindow s ip t1 w).1 ip times = some s2 ∧
      (ApplyWindow s2 ip t2 w).2 ≤ (ApplyWindow s ip t1 w).2 + (times.length : Int) := by
  have hw1 := ApplyWindow_step s ip t1 w
  obtain ⟨s2, hrun, _, _, hlen⟩ :=
    recordAll_props ip times (ApplyWindow s ip t1 w).1 (hw1.2.2.1 ▸ hcap)
  have hw2 := ApplyWindow_step s2 ip t2 w
  refine ⟨s2, hrun, ?_⟩
  rw [hw2.2.2.2.2.1, hw1.2.2.2.2.1]
  have h := hw2.2.2.2.2.2
  omega

/-- C10 at `sampleStore`: the window of 2 at time 10 counts 1 for `a`; after
records at 11 and 12 the same window at time 12 counts 2. -/
theorem C10_window_monotone_witness :
    (0 < sampleStore.maxErrorsPerIP ∧ (10 : Int) ≤ 12) ∧
    (ApplyWindow sampleStore "a" 10 2).2 = 1 ∧
    (recordAll (ApplyWindow sampleStore "a" 10 2).1 "a" [11, 12]).map
        (fun s2 => (ApplyWindow s2 "a" 12 2).2) = some 2 ∧
    ∃ s2 : Store, recordAll (ApplyWindow sampleStore "a" 10 2).1 "a" [11, 12] = some s2 ∧
      (ApplyWindow s2 "a" 12 2).2 ≤
        (ApplyWindow sampleStore "a" 10 2).2 + (([11, 12] : List Int).length : Int) :=
  ⟨⟨by decide, by decide⟩, by decide, by decide,
    C10_window_monotone sampleStore "a" 2 10 12 [11, 12] (by decide) (by decide)⟩

/-! ## The GC pass, entry by entry -/

theorem mapGet_eq_none_iff {V : Type} (m : List (String × V)) (k : String) :
    mapGet m k = none ↔ k ∉ mapKeys m := by
  rw [← mapGet_isSome_iff]
  cases mapGet m k <;> simp

theorem mapKeys_nodup_mapSet {V : Type} (m : List (String × V)) (k : String) (v : V)
    (h : (mapKeys m).Nodup) : (mapKeys (mapSet m k v)).Nodup := by
  by_cases hk : k ∈ mapKeys m
  · rw [mapKeys_mapSet_of_mem m k v hk]
    exact h
  · rw [mapKeys_mapSet_of_not_mem m k v hk, List.nodup_append]
    refine ⟨h, List.nodup_singleton _, ?_⟩
    intro a ha hb
    simp only [List.mem_singleton] at hb
    subst hb
    exact hk ha

theorem mapGet_mapDelete_other {V : Type} (m : List (String × V)) (k k1 : String)
    (hne : k1 ≠ k) : mapGet (mapDelete m k) k1 = mapGet m k1 := by
  induction m with
  | nil => simp [mapDelete, mapGet]
  | cons e rest ih =>
    obtain ⟨k0, v0⟩ := e
    by_cases h : k0 = k
    · subst h
      simp [mapDelete, mapGet, Ne.symm hne]
    · by_cases h1 : k0 = k1
      · subst h1
        simp [mapDelete, mapGet, h]
      · simp [mapDelete, mapGet, h, h1, ih]

theorem mapGet_mapDelete_self {V : Type} (m : List (String × V)) (k : String)
    (hnd : (mapKeys m).Nodup) : mapGet (mapDelete m k) k = none := by
  induction m with
  | nil => simp [mapDelete, mapGet]
  | cons e rest ih =>
    obtain ⟨k0, v0⟩ := e
    simp only [mapKeys, List.map_cons, List.nodup_cons] at hnd
    by_cases h : k0 = k
    · subst h
      simp only [mapDelete, if_true]
      exact (mapGet_eq_none_iff rest k0).2 hnd.1
    · simp only [mapDelete, h, if_false, mapGet]
      exact ih hnd.2

theorem gc_fold_get (cutoff : Int) (es : List (String × ipStats)) :
    ∀ (m : List (String × ipStats)), (mapKeys m).Nodup → (mapKeys es).Nodup →
      ∀ ip : String, mapGet (es.foldl (gcEntry cutoff) m) ip =
        match mapGet es ip with
        | some stats =>
          if (keepAfter cutoff stats.Errors).length = 0 then none
          else some { Errors := keepAfter cutoff stats.Errors }
        | none => mapGet m ip := by
  induction es with
  | nil =>
    intro m _ _ ip
    simp [mapGet]
  | cons e rest ih =>
    intro m hm hes ip
    obtain ⟨k0, v0⟩ := e
    simp only [mapKeys, List.map_cons, List.nodup_cons] at hes
    have hm1 : (mapKeys (gcEntry cutoff m (k0, v0))).Nodup := by
      unfold gcEntry
      by_cases hempty : (keepAfter cutoff v0.Errors).length = 0
      · simp only [hempty, if_true]
        exact List.Nodup.sublist (mapKeys_mapDelete_sublist m k0) hm
      · simp only [hempty, if_false]
        exact mapKeys_nodup_mapSet _ _ _ hm
    rw [List.foldl_cons, ih _ hm1 hes.2 ip]
    by_cases hk : k0 = ip
    · subst hk
      have hrest : mapGet rest k0 = none := (mapGet_eq_none_iff rest k0).2 hes.1
      simp only [hrest, mapGet, if_true]
      unfold gcEntry
      by_cases hempty : (keepAfter cutoff v0.Errors).length = 0
      · simp only [hempty, if_true]
        exact mapGet_mapDelete_self m k0 hm
      · simp only [hempty, if_false]
        exact mapGet_mapSet_self _ _ _
    · simp only [mapGet, hk, if_false]
      cases hrest : mapGet rest ip with
      | some stats => rfl
      | none =>
        simp only
        unfold gcEntry
        by_cases hempty : (keepAfter cutoff v0.Errors).length = 0
        · simp only [hempty, if_true]
          exact mapGet_mapDelete_other m k0 ip (fun h => hk h.symm)
        · simp only [hempty, if_false]
          exact mapGet_mapSet_other _ _ _ _ (fun h => hk h.symm)

theorem evalRules_cons (ev : Event) (evalTime : Int) (r : Rule) (rest : List Rule)
    (store : Store) (out : List Decision) :
    evalRules ev evalTime (r :: rest) store out =
      if matchRule r ev = true then
        if (ApplyWindow store ev.RemoteAddr evalTime r.Window).2 ≥ r.MaxErrors then
          evalRules ev evalTime rest (ApplyWindow store ev.RemoteAddr evalTime r.Window).1
            (out ++ [{ IP := ev.RemoteAddr, RuleID := r.ID, Violation := true,
                       Reason := "max_errors exceeded", Ban := true, BanFor := r.BanDuration,
                       Event := ev, Timestamp := evalTime }])
        else evalRules ev evalTime rest (ApplyWindow store ev.RemoteAddr evalTime r.Window).1 out
      else evalRules ev evalTime rest store out := by
  rw [evalRules]
  cases matchRule r ev <;> simp

theorem ApplyWindow_keeps_now (s : Store) (ip : String) (t window : Int)
    (hmem : t ∈ storedFor s ip) (hw : 0 < window) :
    t ∈ storedFor (ApplyWindow s ip t window).1 ip ∧ (ApplyWindow s ip t window).2 ≥ 1 := by
  have hin : t ∈ storedFor (ApplyWindow s ip t window).1 ip := by
    cases hget : mapGet s.byIP ip with
    | none => simp [storedFor, hget] at hmem
    | some stats =>
      have hst : storedFor s ip = stats.Errors := by simp [storedFor, hget]
      rw [hst] at hmem
      rw [ApplyWindow_eq s ip t window (pos_ne_minDuration window hw) stats hget,
        storedFor_mapSet_self]
      unfold specDropOld
      rw [List.mem_filter]
      refine ⟨hmem, ?_⟩
      have h : ¬ t ≤ t - window := by omega
      simp [h]
  refine ⟨hin, ?_⟩
  rw [(ApplyWindow_step s ip t window).2.2.2.2.1]
  have hpos := List.length_pos_of_mem hin
  omega

/-! ## The first end-to-end scenario -/

theorem specDropOld_eq_self (bound t : Int) (errs : List Int)
    (h : ∀ ts ∈ errs, t - bound < ts) : specDropOld bound t errs = errs := by
  unfold specDropOld
  rw [List.filter_eq_self]
  intro ts hts
  have h1 : ¬ ts ≤ t - bound := by
    have := h ts hts
    omega
  simp [h1]

theorem specRecord_eq_append (ttl maxErrorsPerIP t : Int) (old : List Int)
    (hall : ∀ ts ∈ old, t - ttl < ts) (hlen : (old.length : Int) < maxErrorsPerIP) :
    specRecord ttl maxErrorsPerIP old t = old ++ [t] := by
  unfold specRecord
  rw [specDropOld_eq_self ttl t old hall]
  have h : ¬ ((old.length : Int) ≥ maxErrorsPerIP) := by omega
  simp only [h, if_false]

theorem NewEngine_loginConfig : NewEngine loginConfig = loginTrackerNew := by
  decide

theorem RecordError_loginTracker (old : List Int) (t : Int)
    (hall : ∀ ts ∈ old, t - 60 * Second < ts)
    (hlen : (old.length : Int) < DefaultMaxErrorsPerIP) :
    RecordError (loginTracker old) "1.2.3.4" t =
      some (loginTracker (old ++ [t]), ((old ++ [t]).length : Int)) := by
  have hcap : 0 < (loginTracker old).maxErrorsPerIP := by
    show (0 : Int) < DefaultMaxErrorsPerIP
    decide
  have hget : mapGet (loginTracker old).byIP "1.2.3.4" = some { Errors := old } := by
    simp [loginTracker, mapGet]
  have hstored : storedFor (loginTracker old) "1.2.3.4" = old := by
    simp [storedFor, hget]
  have hrec := RecordError_eq (loginTracker old) "1.2.3.4" t hcap (Or.inl (by rw [hget]; rfl))
  rw [hstored, specRecord_eq_append (loginTracker old).ttl (loginTracker old).maxErrorsPerIP t old
    hall hlen] at hrec
  have hset : ({ loginTracker old with
      byIP := (mapSet (loginTracker old).byIP "1.2.3.4" { Errors := old ++ [t] }) } : Store) =
      loginTracker (old ++ [t]) := by
    simp [loginTracker, mapSet]
  rw [hset] at hrec
  exact hrec

theorem RecordError_loginTrackerNew (t : Int) :
    RecordError loginTrackerNew "1.2.3.4" t = some (loginTracker [t], 1) := by
  have hrec := RecordError_eq loginTrackerNew "1.2.3.4" t (by decide) (Or.inr (by decide))
  have hstored : storedFor loginTrackerNew "1.2.3.4" = [] := rfl
  rw [hstored] at hrec
  have hspec : specRecord loginTrackerNew.ttl loginTrackerNew.maxErrorsPerIP [] t = [t] :=
    specRecord_eq_append _ _ _ [] (by intro ts hts; simp at hts) (by decide)
  simp only [hspec] at hrec
  exact hrec

theorem ApplyWindow_loginTracker (errs : List Int) (t : Int)
    (hall : ∀ ts ∈ errs, t - 60 * Second < ts) :
    ApplyWindow (loginTracker errs) "1.2.3.4" t (60 * Second) =
      (loginTracker errs, (errs.length : Int)) := by
  have hget : mapGet (loginTracker errs).byIP "1.2.3.4" = some { Errors := errs } := by
    simp [loginTracker, mapGet]
  rw [ApplyWindow_eq _ _ _ _ (by unfold Second minDuration; omega) _ hget]
  show ({ loginTracker errs with
      byIP := (mapSet (loginTracker errs).byIP "1.2.3.4"
        { Errors := specDropOld (60 * Second) t errs }) },
      ((specDropOld (60 * Second) t errs).length : Int)) = _
  rw [specDropOld_eq_self _ _ _ hall]
  simp [loginTracker, mapSet]

/-- A GC pass whose cutoff is earlier than everything stored for `1.2.3.4`
leaves the tracker as it is. -/
theorem gc_loginTracker (errs : List Int) (now : Int) (hne : errs ≠ [])
    (hall : ∀ ts ∈ errs, now - 60 * Second < ts) :
    gc (loginTracker errs) now = loginTracker errs := by
  have hkeep : keepAfter (Time.Add now (-(60 * Second))) errs = errs := by
    rw [keepAfter_eq_specDropOld, specDropOld_eq_self _ _ _ hall]
  have hlen : ¬ errs.length = 0 := by
    intro h
    exact hne (List.length_eq_zero.mp h)
  show ({ loginTracker errs with
      byIP := [("1.2.3.4", ({ Errors := errs } : ipStats))].foldl
        (gcEntry (Time.Add now (-(60 * Second)))) [("1.2.3.4", { Errors := errs })] } : Store) = _
  simp only [List.foldl, gcEntry, hkeep, hlen, if_false, mapSet, if_true]
  rfl

theorem gcPasses_loginTracker (errs : List Int) (hne : errs ≠ []) (nows : List Int)
    (hall : ∀ now ∈ nows, ∀ ts ∈ errs, now - 60 * Second < ts) :
    gcPasses (loginTracker errs) nows = loginTracker errs := by
  induction nows with
  | nil => rfl
  | cons now rest ih =>
    rw [gcPasses, gc_loginTracker errs now hne (hall now (List.mem_cons_self _ _))]
    exact ih (fun n hn => hall n (List.mem_cons_of_mem _ hn))

theorem gcPasses_loginTrackerNew (nows : List Int) :
    gcPasses loginTrackerNew nows = loginTrackerNew := by
  induction nows with
  | nil => rfl
  | cons now rest ih =>
    have h : gc loginTrackerNew now = loginTrackerNew := rfl
    rw [gcPasses, h]
    exact ih

theorem evalRulesGC_loginConfig (t : Int) (gcs : List (List Int)) (store : Store) :
    evalRulesGC (loginFailure t) t loginConfig.Rules gcs store [] =
      ((ApplyWindow (gcPasses store (gcs.headD [])) "1.2.3.4" t (60 * Second)).1,
        if (ApplyWindow (gcPasses store (gcs.headD [])) "1.2.3.4" t (60 * Second)).2 ≥ 3
        then [loginDecision t] else []) := by
  have hrules : loginConfig.Rules = [loginOnlyRule] := rfl
  have hmatch : matchRule loginOnlyRule (loginFailure t) = true := rfl
  rw [hrules, evalRulesGC]
  generalize gcPasses store (gcs.headD []) = store0
  simp only [hmatch, Bool.not_true, Bool.false_eq_true, if_false, evalRulesGC]
  by_cases hc : (ApplyWindow store0 (loginFailure t).RemoteAddr t loginOnlyRule.Window).2 ≥
      loginOnlyRule.MaxErrors
  · have hc2 : (ApplyWindow store0 "1.2.3.4" t (60 * Second)).2 ≥ 3 := hc
    simp only [hc, hc2, if_true]
    rfl
  · have hc2 : ¬ (ApplyWindow store0 "1.2.3.4" t (60 * Second)).2 ≥ 3 := hc
    simp only [hc, hc2, if_false]
    rfl

theorem mem_gcTimes_before (a : Arrival) (now : Int) (h : now ∈ a.gcBefore) :
    now ∈ a.gcTimes := by
  unfold Arrival.gcTimes
  exact List.mem_append_left _ h

theorem mem_gcTimes_head (a : Arrival) (now : Int) (h : now ∈ a.gcDuring.headD []) :
    now ∈ a.gcTimes := by
  unfold Arrival.gcTimes
  apply List.mem_append_right
  cases hg : a.gcDuring with
  | nil =>
    rw [hg] at h
    simp at h
  | cons g gs =>
    rw [hg] at h
    simp only [List.foldr_cons, List.mem_append]
    exact Or.inl (by simpa using h)

/-- One more failed login at `t` on a tracker that holds `old` for `1.2.3.4`,
all of it inside the window, met by GC passes that remove nothing. -/
theorem arrival_login (old : List Int) (a : Arrival) (t : Int)
    (hev : a.ev = loginFailure t) (ht : t ≠ 0) (hne : old ≠ [])
    (hall : ∀ ts ∈ old, t - 60 * Second < ts)
    (hlen : (old.length : Int) < DefaultMaxErrorsPerIP)
    (hgc : ∀ now ∈ a.gcTimes, ∀ ts ∈ old ++ [t], now - 60 * Second < ts) :
    processEventGC loginConfig (gcPasses (loginTracker old) a.gcBefore) a.wallNow a.ev
        a.gcDuring =
      some (loginTracker (old ++ [t]),
        if ((old.length : Int) + 1 ≥ 3) then [loginDecision t] else []) := by
  rw [gcPasses_loginTracker old hne a.gcBefore (by
    intro now hnow ts hts
    exact hgc now (mem_gcTimes_before a now hnow) ts (List.mem_append_left _ hts))]
  have hall2 : ∀ ts ∈ old ++ [t], t - 60 * Second < ts := by
    intro ts hts
    simp only [List.mem_append, List.mem_singleton] at hts
    rcases hts with h | h
    · exact hall ts h
    · subst h
      unfold Second
      omega
  have heval : evalTimeOf (loginFailure t) a.wallNow = t := by
    simp [evalTimeOf, Time.IsZero, loginFailure, ht]
  have hstatus : (loginFailure t).Status ≥ 400 := by
    show (401 : Int) ≥ 400
    decide
  have hrec : RecordError (loginTracker old) (loginFailure t).RemoteAddr t =
      some (loginTracker (old ++ [t]), ((old ++ [t]).length : Int)) :=
    RecordError_loginTracker old t hall hlen
  unfold processEventGC
  rw [hev]
  simp only [heval, hstatus, if_true]
  rw [hrec]
  simp only [Option.map_some']
  rw [evalRulesGC_loginConfig,
    gcPasses_loginTracker (old ++ [t]) (by simp) (a.gcDuring.headD []) (by
      intro now hnow ts hts
      exact hgc now (mem_gcTimes_head a now hnow) ts hts),
    ApplyWindow_loginTracker (old ++ [t]) t hall2]
  simp

/-- The first failed login, on the tracker just built by `NewEngine`, met by GC
passes that remove nothing. -/
theorem arrival_login_first (a : Arrival) (t : Int)
    (hev : a.ev = loginFailure t) (ht : t ≠ 0)
    (hgc : ∀ now ∈ a.gcTimes, now - 60 * Second < t) :
    processEventGC loginConfig (gcPasses (NewEngine loginConfig) a.gcBefore) a.wallNow a.ev
        a.gcDuring =
      some (loginTracker [t], []) := by
  rw [NewEngine_loginConfig, gcPasses_loginTrackerNew]
  have heval : evalTimeOf (loginFailure t) a.wallNow = t := by
    simp [evalTimeOf, Time.IsZero, loginFailure, ht]
  have hstatus : (loginFailure t).Status ≥ 400 := by
    show (401 : Int) ≥ 400
    decide
  have hrec : RecordError loginTrackerNew (loginFailure t).RemoteAddr t =
      some (loginTracker [t], 1) := RecordError_loginTrackerNew t
  unfold processEventGC
  rw [hev]
  simp only [heval, hstatus, if_true]
  rw [hrec]
  simp only [Option.map_some']
  rw [evalRulesGC_loginConfig,
    gcPasses_loginTracker [t] (by simp) (a.gcDuring.headD []) (by
      intro now hnow ts hts
      simp only [List.mem_singleton] at hts
      subst hts
      exact hgc now (mem_gcTimes_head a now hnow)),
    ApplyWindow_loginTracker [t] t (by
      intro ts hts
      simp only [List.mem_singleton] at hts
      subst hts
      unfold Second
      omega)]
  simp

/-- C11, as amended: with the single rule `login` and the tracker just built by
`NewEngine`, let failed logins of `1.2.3.4` arrive with the timestamps `T`,
`T + 1s`, `T + 2s` and `T + 3s`, none of them the zero time, and let every GC
pass that the tracker makes meanwhile (before, between and during the events)
read a wall clock `now` with `now - 60s < T`, so that it removes nothing. Then
the first two events send no decision, the third sends exactly one, with
`ip = 1.2.3.4`, `rule_id = login`, `ban = true`, `ban_for = 5m`, and the fourth
sends one further decision with the same fields: the engine does not
de-duplicate. -/
theorem C11_basic_ban (T : Int) (a1 a2 a3 a4 : Arrival)
    (h1 : a1.ev = loginFailure T) (h2 : a2.ev = loginFailure (T + Second))
    (h3 : a3.ev = loginFailure (T + 2 * Second))
    (h4 : a4.ev = loginFailure (T + 3 * Second))
    (hT : T ≠ 0 ∧ T + Second ≠ 0 ∧ T + 2 * Second ≠ 0 ∧ T + 3 * Second ≠ 0)
    (hgc : ∀ a ∈ [a1, a2, a3, a4], ∀ now ∈ a.gcTimes, now - 60 * Second < T) :
    runArrivals loginConfig (NewEngine loginConfig) [a1, a2, a3, a4] =
      some (loginTracker [T, T + Second, T + 2 * Second, T + 3 * Second],
        [[], [], [loginDecision (T + 2 * Second)], [loginDecision (T + 3 * Second)]]) ∧
    ((loginDecision (T + 2 * Second)).IP = "1.2.3.4" ∧
      (loginDecision (T + 2 * Second)).RuleID = "login" ∧
      (loginDecision (T + 2 * Second)).Ban = true ∧
      (loginDecision (T + 2 * Second)).BanFor = 5 * Minute) ∧
    ((loginDecision (T + 3 * Second)).IP = "1.2.3.4" ∧
      (loginDecision (T + 3 * Second)).RuleID = "login" ∧
      (loginDecision (T + 3 * Second)).Ban = true ∧
      (loginDecision (T + 3 * Second)).BanFor = 5 * Minute) := by
  refine ⟨?_, ⟨rfl, rfl, rfl, rfl⟩, ⟨rfl, rfl, rfl, rfl⟩⟩
  have hg1 := hgc a1 (by simp)
  have hg2 := hgc a2 (by simp)
  have hg3 := hgc a3 (by simp)
  have hg4 := hgc a4 (by simp)
  have e1 := arrival_login_first a1 T h1 hT.1 hg1
  have e2 := arrival_login [T] a2 (T + Second) h2 hT.2.1 (by simp)
    (by
      intro ts hts
      simp only [List.mem_singleton] at hts
      subst hts
      unfold Second
      omega)
    (by simp [DefaultMaxErrorsPerIP])
    (by
      intro now hnow ts hts
      have hn := hg2 now hnow
      simp only [List.mem_append, List.mem_cons, List.mem_singleton, List.not_mem_nil,
        or_false] at hts
      unfold Second at *
      rcases hts with h | h <;> omega)
  have e3 := arrival_login [T, T + Second] a3 (T + 2 * Second) h3 hT.2.2.1 (by simp)
    (by
      intro ts hts
      simp only [List.mem_cons, List.mem_singleton, List.not_mem_nil, or_false] at hts
      unfold Second at *
      rcases hts with h | h <;> omega)
    (by simp [DefaultMaxErrorsPerIP])
    (by
      intro now hnow ts hts
      have hn := hg3 now hnow
      simp only [List.mem_append, List.mem_cons, List.mem_singleton, List.not_mem_nil,
        or_false] at hts
      unfold Second at *
      rcases hts with (h | h) | h <;> omega)
  have e4 := arrival_login [T, T + Second, T + 2 * Second] a4 (T + 3 * Second) h4 hT.2.2.2
    (by simp)
    (by
      intro ts hts
      simp only [List.mem_cons, List.mem_singleton, List.not_mem_nil, or_false] at hts
      unfold Second at *
      rcases hts with h | h | h <;> omega)
    (by simp [DefaultMaxErrorsPerIP])
    (by
      intro now hnow ts hts
      have hn := hg4 now hnow
      simp only [List.mem_append, List.mem_cons, List.mem_singleton, List.not_mem_nil,
        or_false] at hts
      unfold Second at *
      rcases hts with (h | h | h) | h <;> omega)
  simp only [List.singleton_append, List.cons_append, List.nil_append, List.length_cons,
    List.length_singleton, List.length_nil] at e2 e3 e4
  norm_num at e2 e3 e4
  simp only [runArrivals, e1, e2, e3, e4]

/-- C11 fails as stated. From the tracker just built by `NewEngine` and with no
GC pass, after failed logins at 1 s, 2 s and 3 s the fourth one at 4 s is not
silent: it sends the decision of rule `login` again. And when a GC pass at
wall-clock 1000 s takes the lock before the third event (a log replayed long
after it was written), the first two errors are gone and the third event sends
no decision at all. -/
theorem C11_counterexample :
    ((runArrivals loginConfig (NewEngine loginConfig)
        [Arrival.quiet 0 (loginFailure Second), Arrival.quiet 0 (loginFailure (2 * Second)),
         Arrival.quiet 0 (loginFailure (3 * Second)),
         Arrival.quiet 0 (loginFailure (4 * Second))]).map Prod.snd =
      some [[], [], [loginDecision (3 * Second)], [loginDecision (4 * Second)]] ∧
      [loginDecision (4 * Second)] ≠ []) ∧
    (runArrivals loginConfig (NewEngine loginConfig)
        [Arrival.quiet 0 (loginFailure Second), Arrival.quiet 0 (loginFailure (2 * Second)),
         Arrival.mk [1000 * Second] 0 (loginFailure (3 * Second)) []]).map Prod.snd =
      some [[], [], []] := by
  refine ⟨⟨by decide, by decide⟩, by decide⟩

/-- C11 (amended) at `T = 1 s`, with a GC pass at wall-clock 5 s before the
first event and one at 30 s between the record of the third event and the turn
of the rule. -/
theorem C11_basic_ban_witness :
    ((Second ≠ 0 ∧ Second + Second ≠ 0 ∧ Second + 2 * Second ≠ 0 ∧
        Second + 3 * Second ≠ 0) ∧
      ∀ a ∈ [Arrival.mk [5 * Second] 0 (loginFailure Second) [],
          Arrival.quiet 0 (loginFailure (Second + Second)),
          Arrival.mk [] 0 (loginFailure (Second + 2 * Second)) [[30 * Second]],
          Arrival.quiet 0 (loginFailure (Second + 3 * Second))],
        ∀ now ∈ a.gcTimes, now - 60 * Second < Second) ∧
    runArrivals loginConfig (NewEngine loginConfig)
        [Arrival.mk [5 * Second] 0 (loginFailure Second) [],
         Arrival.quiet 0 (loginFailure (Second + Second)),
         Arrival.mk [] 0 (loginFailure (Second + 2 * Second)) [[30 * Second]],
         Arrival.quiet 0 (loginFailure (Second + 3 * Second))] =
      some (loginTracker [Second, Second + Second, Second + 2 * Second, Second + 3 * Second],
        [[], [], [loginDecision (Second + 2 * Second)],
         [loginDecision (Second + 3 * Second)]]) :=
  ⟨⟨by decide, by decide⟩,
    (C11_basic_ban Second (Arrival.mk [5 * Second] 0 (loginFailure Second) [])
      (Arrival.quiet 0 (loginFailure (Second + Second)))
      (Arrival.mk [] 0 (loginFailure (Second + 2 * Second)) [[30 * Second]])
      (Arrival.quiet 0 (loginFailure (Second + 3 * Second)))
      rfl rfl rfl rfl (by decide) (by decide)).1⟩

/-! ## Claims on configuration validation -/

theorem validateBackend_none_iff (b : BackendConfig) :
    validateBackend b = none ↔ specBackendOk b = true := by
  unfold validateBackend specBackendOk
  by_cases h1 : b.TypeName = "iptables"
  · cases hb : b.IPTables with
    | none => simp [h1, hb]
    | some t =>
      by_cases ht : t.Table = "" <;> by_cases hc : t.Chain = "" <;> simp [h1, hb, ht, hc]
  · by_cases h2 : b.TypeName = "http_api"
    · cases hb : b.HTTP with
      | none => simp [h2, hb]
      | some t => by_cases ht : t.URL = "" <;> simp [h2, hb, ht]
    · by_cases h3 : b.TypeName = "vultr"
      · cases hb : b.Vultr with
        | none => simp [h3, hb]
        | some t =>
          by_cases ht : t.APIKey = "" <;> by_cases hc : t.FirewallID = "" <;>
            simp [h3, hb, ht, hc]
      · by_cases h4 : b.TypeName = "proxmox"
        · cases hb : b.Proxmox with
          | none => simp [h4, hb]
          | some t =>
            by_cases ht : t.APIURL = "" <;> by_cases hc : t.Node = "" <;>
              simp [h4, hb, ht, hc]
        · simp [h1, h2, h3, h4]

theorem validateRules_none_iff (rules : List Rule) :
    ∀ i : Nat, validateRules i rules = none ↔ rules.all specRuleOk = true := by
  induction rules with
  | nil =>
    intro i
    simp [validateRules]
  | cons r rest ih =>
    intro i
    unfold validateRules
    by_cases h1 : r.ID = ""
    · simp [h1, specRuleOk]
    · by_cases h2 : r.Method = ""
      · simp [h1, h2, specRuleOk]
      · by_cases h3 : r.Path = ""
        · simp [h1, h2, h3, specRuleOk]
        · by_cases h4 : r.MaxErrors ≤ 0
          · have h4b : ¬ (0 < r.MaxErrors) := by omega
            simp [h1, h2, h3, h4, h4b, specRuleOk]
          · by_cases h5 : r.Window ≤ 0
            · have h5b : ¬ (0 < r.Window) := by omega
              simp [h1, h2, h3, h4, h5, h5b, specRuleOk]
            · by_cases h6 : r.BanDuration ≤ 0
              · have h6b : ¬ (0 < r.BanDuration) := by omega
                simp [h1, h2, h3, h4, h5, h6, h6b, specRuleOk]
              · have h4b : 0 < r.MaxErrors := by omega
                have h5b : 0 < r.Window := by omega
                have h6b : 0 < r.BanDuration := by omega
                simp [h1, h2, h3, h4, h5, h6, h4b, h5b, h6b, specRuleOk, ih (i + 1)]

/-- What `validate` returns, by cases on the specification's conditions. -/
theorem validate_cases (c : Config) :
    (specValid c = true ∧ ∃ c1 : Config, validate c = Except.ok c1 ∧ c1.Rules = c.Rules ∧
      c1.Backend = c.Backend) ∨
    (specValid c = false ∧ ∃ e : ValidateError, validate c = Except.error e) := by
  unfold validate specValid
  by_cases hpath : c.Log.Path = ""
  · right
    simp [hpath]
  · have hbk : ∀ c1 : Config, c1.Backend = c.Backend → c1.Rules = c.Rules →
        (((specBackendOk c.Backend && decide (c.Rules ≠ []) && c.Rules.all specRuleOk) = true ∧
          ∃ c2 : Config,
            (if c1.Backend.TypeName = "" then Except.error ValidateError.backendTypeRequired
             else
              match validateBackend c1.Backend with
              | some e => Except.error e
              | none =>
                if c1.Rules.length = 0 then Except.error ValidateError.noRules
                else
                  match validateRules 0 c1.Rules with
                  | some e => Except.error e
                  | none =>
                    if c1.Logging.Level = "" then
                      Except.ok { c1 with Logging := { c1.Logging with Level := "info" } }
                    else Except.ok c1) = Except.ok c2 ∧ c2.Rules = c.Rules ∧
              c2.Backend = c.Backend) ∨
         ((specBackendOk c.Backend && decide (c.Rules ≠ []) && c.Rules.all specRuleOk) = false ∧
          ∃ e : ValidateError,
            (if c1.Backend.TypeName = "" then Except.error ValidateError.backendTypeRequired
             else
              match validateBackend c1.Backend with
              | some e => Except.error e
              | none =>
                if c1.Rules.length = 0 then Except.error ValidateError.noRules
                else
                  match validateRules 0 c1.Rules with
                  | some e => Except.error e
                  | none =>
                    if c1.Logging.Level = "" then
                      Except.ok { c1 with Logging := { c1.Logging with Level := "info" } }
                    else Except.ok c1) = Except.error e)) := by
      intro c1 hb hr
      rw [hb, hr]
      by_cases htype : c.Backend.TypeName = ""
      · right
        have hspec : specBackendOk c.Backend = false := by
          simp [specBackendOk, htype]
        simp [htype, hspec]
      · cases hvb : validateBackend c.Backend with
        | some e =>
          right
          have hspec : specBackendOk c.Backend = false := by
            cases hs : specBackendOk c.Backend with
            | false => rfl
            | true =>
              rw [(validateBackend_none_iff c.Backend).2 hs] at hvb
              cases hvb
          simp [htype, hspec]
        | none =>
          have hspec : specBackendOk c.Backend = true := (validateBackend_none_iff _).1 hvb
          by_cases hlen : c.Rules.length = 0
          · right
            have hnil : c.Rules = [] := List.length_eq_zero.1 hlen
            simp [htype, hspec, hnil]
          · have hnil : c.Rules ≠ [] := fun h => hlen (by rw [h]; rfl)
            cases hvr : validateRules 0 c.Rules with
            | some e =>
              right
              have hall : c.Rules.all specRuleOk = false := by
                cases hs : c.Rules.all specRuleOk with
                | false => rfl
                | true =>
                  rw [(validateRules_none_iff c.Rules 0).2 hs] at hvr
                  cases hvr
              simp [htype, hspec, hlen, hall]
            | none =>
              left
              have hall : c.Rules.all specRuleOk = true := (validateRules_none_iff _ 0).1 hvr
              refine ⟨by simp [hspec, hnil, hall], ?_⟩
              by_cases hlvl : c1.Logging.Level = ""
              · exact ⟨{ c1 with Logging := { c1.Logging with Level := "info" } },
                  by simp [htype, hlen, hlvl, hvb, hvr, hr, hb], hr, hb⟩
              · exact ⟨c1, by simp [htype, hlen, hlvl, hvb, hvr], hr, hb⟩
    have hdec : decide (c.Log.Path ≠ "") = true := by simp [hpath]
    simp only [hpath, if_false, hdec, Bool.true_and]
    by_cases hparser : c.Log.Parser = ""
    · simp only [hparser, if_true]
      have := hbk { c with Log := { c.Log with Parser := "nginx_combined" } } rfl rfl
      simpa [Bool.and_assoc] using this
    · simp only [hparser, if_false]
      have := hbk c rfl rfl
      simpa [Bool.and_assoc] using this

/-- C13: `validate` accepts a configuration exactly when `log.path` is
non-empty, `backend.type` is one of `iptables`, `http_api`, `vultr`, `proxmox`
with the settings block of that backend present and its required fields
non-empty, there is at least one rule, and every rule has non-empty id, method
and path and positive `max_errors`, `window` and `ban_duration`; in every other
case it returns an error. -/
theorem C13_validate_accepts_iff (c : Config) :
    ((∃ c1 : Config, validate c = Except.ok c1) ↔ specValid c = true) ∧
    (specValid c = false → ∃ e : ValidateError, validate c = Except.error e) := by
  rcases validate_cases c with ⟨hv, c1, hok, _⟩ | ⟨hv, e, herr⟩
  · refine ⟨⟨fun _ => hv, fun _ => ⟨c1, hok⟩⟩, ?_⟩
    intro h
    rw [hv] at h
    cases h
  · refine ⟨⟨?_, ?_⟩, fun _ => ⟨e, herr⟩⟩
    · intro ⟨c1, hok⟩
      rw [herr] at hok
      cases hok
    · intro h
      rw [hv] at h
      cases h

/-- C13 at `loginConfig` (accepted) and at the same configuration without
rules (rejected). -/
theorem C13_validate_accepts_iff_witness :
    specValid loginConfig = true ∧ validate loginConfig = Except.ok loginConfig ∧
    specValid { loginConfig with Rules := [] } = false ∧
    ∃ e : ValidateError, validate { loginConfig with Rules := [] } = Except.error e :=
  ⟨by decide, rfl, by decide,
    (C13_validate_accepts_iff { loginConfig with Rules := [] }).2 (by decide)⟩

/-- C14, as amended: every configuration accepted by `validate` has non-empty
rule ids, and `validate` does not compare them: an accepted configuration stays
accepted when any of its rules is listed once more, so two rules may share an
id. -/
theorem C14_rule_ids_nonempty_unchecked (c c1 : Config) (hok : validate c = Except.ok c1) :
    (∀ r ∈ c.Rules, r.ID ≠ "") ∧
    (∀ r ∈ c.Rules, ∃ c2 : Config,
      validate { c with Rules := c.Rules ++ [r] } = Except.ok c2) := by
  have hv : specValid c = true := by
    rcases validate_cases c with ⟨hv, _⟩ | ⟨_, e, herr⟩
    · exact hv
    · rw [herr] at hok
      cases hok
  simp only [specValid, Bool.and_eq_true, decide_eq_true_eq, List.all_eq_true] at hv
  obtain ⟨⟨⟨hpath, hbackend⟩, _⟩, hall⟩ := hv
  constructor
  · intro r hr
    have h := hall r hr
    simp only [specRuleOk, Bool.and_eq_true, decide_eq_true_eq] at h
    exact h.1.1.1.1.1
  · intro r hr
    have hv2 : specValid { c with Rules := c.Rules ++ [r] } = true := by
      simp only [specValid, Bool.and_eq_true, decide_eq_true_eq, List.all_eq_true]
      refine ⟨⟨⟨hpath, hbackend⟩, by simp⟩, ?_⟩
      intro x hx
      simp only [List.mem_append, List.mem_singleton] at hx
      rcases hx with hx | hx
      · exact hall x hx
      · subst hx
        exact hall x hr
    rcases validate_cases { c with Rules := c.Rules ++ [r] } with ⟨_, c2, hok2, _⟩ | ⟨hv3, _⟩
    · exact ⟨c2, hok2⟩
    · rw [hv2] at hv3
      cases hv3

/-- C14 fails as stated: `validate` accepts `duplicateIdConfig`, whose two rules
both have the id `login`. -/
theorem C14_counterexample :
    validate duplicateIdConfig = Except.ok duplicateIdConfig ∧
    duplicateIdConfig.Rules.map Rule.ID = ["login", "login"] ∧
    ¬ (duplicateIdConfig.Rules.map Rule.ID).Nodup := by
  refine ⟨rfl, by decide, by decide⟩

/-- C14 (amended) at `loginConfig`: its rule id is non-empty, and listing the
rule twice is still accepted. -/
theorem C14_rule_ids_nonempty_unchecked_witness :
    validate loginConfig = Except.ok loginConfig ∧
    (∀ r ∈ loginConfig.Rules, r.ID ≠ "") ∧
    (∀ r ∈ loginConfig.Rules, ∃ c2 : Config,
      validate { loginConfig with Rules := loginConfig.Rules ++ [r] } = Except.ok c2) :=
  ⟨rfl, C14_rule_ids_nonempty_unchecked loginConfig loginConfig rfl⟩

/-! ## Claims on tracker shutdown and on the whitelist matcher -/

/-- C18, as amended: `Close` is not idempotent. On a tracker whose `done`
channel is open it completes normally and leaves the tracker closed (ticker
stopped, channel closed); on a tracker that has already been closed it panics
(close of a closed channel). -/
theorem C18_close_once (r : StoreRuntime) :
    (r.doneClosed = false →
      Close r = some { tickerStopped := true, doneClosed := true }) ∧
    (r.doneClosed = true → Close r = none) := by
  constructor
  · intro h
    simp [Close, h]
  · intro h
    simp [Close, h]

/-- C18 fails as stated: the first `Close` of a new tracker returns normally,
the second one panics. -/
theorem C18_counterexample :
    Close NewStoreRuntime = some { tickerStopped := true, doneClosed := true } ∧
    (Close NewStoreRuntime).bind Close = none := by
  refine ⟨by decide, by decide⟩

/-- C18 (amended) at a new tracker and at the closed one. -/
theorem C18_close_once_witness :
    Close NewStoreRuntime = some { tickerStopped := true, doneClosed := true } ∧
    Close { tickerStopped := true, doneClosed := true } = none :=
  ⟨(C18_close_once NewStoreRuntime).1 (by decide),
   (C18_close_once { tickerStopped := true, doneClosed := true }).2 (by decide)⟩

theorem whitelist_fold_ips (lib : StdLib) (entries : List String) :
    ∀ (m : whitelistMatcher) (k : String),
      (mapGet (entries.foldl (whitelistAdd lib) m).ips k).isSome = true ↔
        ((mapGet m.ips k).isSome = true ∨
          ∃ e ∈ entries, ∃ a, lib.ParseIP e = some a ∧ lib.IPString a = k) := by
  induction entries with
  | nil =>
    intro m k
    simp
  | cons e rest ih =>
    intro m k
    rw [List.foldl_cons, ih]
    unfold whitelistAdd
    cases hp : lib.ParseIP e with
    | some a =>
      simp only [List.mem_cons, exists_eq_or_imp, hp, Option.some.injEq, exists_eq_left']
      by_cases hk : lib.IPString a = k
      · subst hk
        simp [mapGet_mapSet_self]
      · have hk2 : k ≠ lib.IPString a := fun h => hk h.symm
        rw [mapGet_mapSet_other _ _ _ _ hk2]
        simp [hk]
    | none =>
      cases hc : lib.ParseCIDR e with
      | some n => simp [hp]
      | none => simp [hp]

theorem whitelist_fold_nets (lib : StdLib) (entries : List String) :
    ∀ (m : whitelistMatcher) (n : IPNet),
      n ∈ (entries.foldl (whitelistAdd lib) m).nets ↔
        (n ∈ m.nets ∨
          ∃ e ∈ entries, lib.ParseIP e = none ∧ lib.ParseCIDR e = some n) := by
  induction entries with
  | nil =>
    intro m n
    simp
  | cons e rest ih =>
    intro m n
    rw [List.foldl_cons, ih]
    unfold whitelistAdd
    cases hp : lib.ParseIP e with
    | some a => simp [hp]
    | none =>
      cases hc : lib.ParseCIDR e with
      | some n1 =>
        simp only [List.mem_append, List.mem_singleton, List.mem_cons, exists_eq_or_imp, hp,
          hc, Option.some.injEq, true_and]
        have hcomm : n1 = n ↔ n = n1 := eq_comm
        rw [hcomm]
        tauto
      | none => simp [hp, hc]

theorem containsLoop_iff (lib : StdLib) (ip : List Nat) (nets : List IPNet) :
    containsLoop lib ip nets = true ↔ ∃ n ∈ nets, lib.NetContains n ip = true := by
  induction nets with
  | nil => simp [containsLoop]
  | cons n rest ih =>
    unfold containsLoop
    by_cases h : lib.NetContains n ip = true
    · simp [h]
    · simp [h, ih]

/-- What the matcher built from a list decides: the text `ipStr` is the
`String()` form of an entry that parses as an address, or `ipStr` parses to an
address inside the network of an entry that parses as a CIDR and not as an
address. -/
theorem Contains_iff (lib : StdLib) (cfg : BackendConfig) (ipStr : String) :
    Contains lib (some (newWhitelistMatcher lib cfg)) ipStr = true ↔
      ((∃ e ∈ cfg.Whitelist, ∃ a, lib.ParseIP e = some a ∧ lib.IPString a = ipStr) ∨
       (∃ ip, lib.ParseIP ipStr = some ip ∧
          ∃ e ∈ cfg.Whitelist, lib.ParseIP e = none ∧
            ∃ n, lib.ParseCIDR e = some n ∧ lib.NetContains n ip = true)) := by
  have hips := whitelist_fold_ips lib cfg.Whitelist { nets := [], ips := [] } ipStr
  have hnets := whitelist_fold_nets lib cfg.Whitelist { nets := [], ips := [] }
  simp only [mapGet, Option.isSome_none, Bool.false_eq_true, false_or, List.not_mem_nil]
    at hips hnets
  unfold Contains newWhitelistMatcher
  by_cases hlit : (mapGet (cfg.Whitelist.foldl (whitelistAdd lib)
      { nets := [], ips := [] }).ips ipStr).isSome = true
  · simp only [hlit, if_true, true_iff]
    exact Or.inl (hips.1 hlit)
  · have hno : ¬ ∃ e ∈ cfg.Whitelist, ∃ a, lib.ParseIP e = some a ∧ lib.IPString a = ipStr :=
      fun h => hlit (hips.2 h)
    simp only [hlit, if_false, Bool.false_eq_true]
    cases hp : lib.ParseIP ipStr with
    | none =>
      simp only [Bool.false_eq_true, false_iff, not_or]
      refine ⟨hno, ?_⟩
      rintro ⟨ip, h, _⟩
      cases h
    | some ip =>
      simp only [containsLoop_iff, hnets]
      constructor
      · rintro ⟨n, ⟨e, he, hpe, hce⟩, hn⟩
        exact Or.inr ⟨ip, rfl, e, he, hpe, n, hce, hn⟩
      · rintro (h | ⟨ip1, hip1, e, he, hpe, n, hce, hn⟩)
        · exact absurd h hno
        · cases hip1
          exact ⟨n, ⟨e, he, hpe, hce⟩, hn⟩

/-- C12, the input that breaks it: the whitelist holds the literal address
`::ffff:1.2.3.4`, which is stored as its `String()` form `1.2.3.4`; asked about
the very text `::ffff:1.2.3.4`, the matcher looks that text up, finds nothing,
has no network to try and answers `false`, while it answers `true` for
`1.2.3.4`, which is not in the list as written. -/
theorem C12_noncanonical_literal_missed :
    "::ffff:1.2.3.4" ∈ (whitelistConfig ["::ffff:1.2.3.4"]).Whitelist ∧
    (sampleLib.ParseIP "::ffff:1.2.3.4").isSome = true ∧
    newWhitelistMatcher sampleLib (whitelistConfig ["::ffff:1.2.3.4"]) =
      { nets := [], ips := [("1.2.3.4", ())] } ∧
    Contains sampleLib (some (newWhitelistMatcher sampleLib
      (whitelistConfig ["::ffff:1.2.3.4"]))) "::ffff:1.2.3.4" = false ∧
    Contains sampleLib (some (newWhitelistMatcher sampleLib
      (whitelistConfig ["::ffff:1.2.3.4"]))) "1.2.3.4" = true := by
  refine ⟨by decide, by decide, by decide, by decide, by decide⟩

/-! ## Claims on the firewall backends -/

theorem ValidateIP_invalid (lib : StdLib) (ip : String)
    (hbad : ip = "" ∨ lib.ParseIP ip = none) : ∃ err, ValidateIP lib ip = some err := by
  unfold ValidateIP
  by_cases h : ip = ""
  · exact ⟨"empty IP address", by simp only [h, if_true]⟩
  · rcases hbad with h1 | h1
    · exact absurd h1 h
    · exact ⟨"invalid IP address: " ++ ip, by simp only [h, if_false, h1]⟩

theorem deleteLoop_mem {α : Type} (urlOf : α → String) (results : Nat → HTTPResult Unit)
    (hbuilt : ∀ i err, results i ≠ HTTPResult.buildError err) (x : α) :
    ∀ (xs : List α) (i : Nat), x ∈ xs →
      Wire.http { method := "DELETE", url := urlOf x, body := Payload.noBody } ∈
        deleteLoop urlOf i xs results := by
  intro xs
  induction xs with
  | nil =>
    intro i hx
    simp at hx
  | cons y rest ih =>
    intro i hx
    unfold deleteLoop
    rw [List.mem_append]
    rcases List.mem_cons.1 hx with h | h
    · subst h
      left
      cases hres : results i with
      | buildError err => exact absurd hres (hbuilt i err)
      | transportError err => simp
      | response status statusText decoded => simp
    · exact Or.inr (ih (i + 1) h)

/-- C15: for a string `ip` that is empty or that `net.ParseIP` rejects, `Ban`
and `Unban` of each of the four backends return an error, start no child
process and send no HTTP request, and the Vultr and Proxmox backends keep
their local rule map as it was. -/
theorem C15_invalid_ip_rejected (lib : StdLib) (ip : String)
    (hbad : ip = "" ∨ lib.ParseIP ip = none)
    (ib : iptablesBackend) (hb : httpAPIBackend) (vb : vultrBackend) (pb : proxmoxBackend)
    (duration : Int) (reason ruleID : String) (run : ExecResult) (res : HTTPResult Unit)
    (tcp udp : HTTPResult String) (pres : HTTPResult Int)
    (results : Nat → HTTPResult Unit) :
    (∃ err, ib.Ban lib ip duration reason ruleID run = (some err, [])) ∧
    (∃ err, ib.Unban lib ip run = (some err, [])) ∧
    (∃ err, hb.Ban lib ip duration reason ruleID res = (some err, [])) ∧
    (∃ err, hb.Unban lib ip res = (some err, [])) ∧
    (∃ err, vb.Ban lib ip duration reason ruleID tcp udp = (vb, some err, [])) ∧
    (∃ err, vb.Unban lib ip results = (vb, some err, [])) ∧
    (∃ err, pb.Ban lib ip duration reason ruleID pres = (pb, some err, [])) ∧
    (∃ err, pb.Unban lib ip results = (pb, some err, [])) := by
  obtain ⟨err, herr⟩ := ValidateIP_invalid lib ip hbad
  refine ⟨⟨"iptables ban: " ++ err, ?_⟩, ⟨"iptables unban: " ++ err, ?_⟩,
    ⟨"http_api ban: " ++ err, ?_⟩, ⟨"http_api unban: " ++ err, ?_⟩,
    ⟨"vultr ban: " ++ err, ?_⟩, ⟨"vultr unban: " ++ err, ?_⟩,
    ⟨"proxmox ban: " ++ err, ?_⟩, ⟨"proxmox unban: " ++ err, ?_⟩⟩
  · simp only [iptablesBackend.Ban, herr]
  · simp only [iptablesBackend.Unban, herr]
  · simp only [httpAPIBackend.Ban, herr]
  · simp only [httpAPIBackend.Unban, herr]
  · simp only [vultrBackend.Ban, herr]
  · simp only [vultrBackend.Unban, herr]
  · simp only [proxmoxBackend.Ban, herr]
  · simp only [proxmoxBackend.Unban, herr]

/-- C15 at the text `not-an-ip`, which the sample library does not parse: the
Vultr backend refuses to ban it without sending anything. -/
theorem C15_invalid_ip_rejected_witness :
    ("not-an-ip" = "" ∨ sampleLib.ParseIP "not-an-ip" = none) ∧
    ∃ err, sampleVultr.Ban sampleLib "not-an-ip" 300 "max_errors exceeded" "login"
      (HTTPResult.response 200 "200 OK" (some "A"))
      (HTTPResult.response 200 "200 OK" (some "B")) = (sampleVultr, some err, []) :=
  ⟨Or.inr (by decide),
    (C15_invalid_ip_rejected sampleLib "not-an-ip" (Or.inr (by decide))
      { table := "filter", chain := "INPUT" } { url := "http://fw", token := "", headers := [] }
      sampleVultr sampleProxmox 300 "max_errors exceeded" "login"
      { err := none, output := "" } (HTTPResult.response 200 "200 OK" (some ()))
      (HTTPResult.response 200 "200 OK" (some "A"))
      (HTTPResult.response 200 "200 OK" (some "B"))
      (HTTPResult.response 200 "200 OK" (some 1)) deletesSucceed).2.2.2.2.1⟩

/-- C16, the input that breaks it: for the valid address `1.2.3.4`, the tcp
rule is created with id `A` and the udp request is answered with status 500.
`Ban` returns the error of the udp request straight from the loop; the id `A`
is not put into the local rule list, so the later `Unban` sends no DELETE and
the tcp rule stays at the provider. When both requests succeed, both ids are
recorded and deleted. -/
theorem C16_partial_failure_loses_id :
    ValidateIP sampleLib "1.2.3.4" = none ∧
    sampleVultr.Ban sampleLib "1.2.3.4" 300 "max_errors exceeded" "login"
        (HTTPResult.response 200 "200 OK" (some "A"))
        (HTTPResult.response 500 "500 Internal Server Error" none) =
      (sampleVultr, some "vultr: non-success status 500 Internal Server Error",
        [Wire.http { method := "POST", url := "https://api.vultr.com/v2/firewalls/fw1/rules",
                     body := Payload.vultrRule "v4" "tcp" "1.2.3.4" 32 "foxhole-fw:login" },
         Wire.http { method := "POST", url := "https://api.vultr.com/v2/firewalls/fw1/rules",
                     body := Payload.vultrRule "v4" "udp" "1.2.3.4" 32 "foxhole-fw:login" }]) ∧
    mapGet sampleVultr.rules "1.2.3.4" = none ∧
    sampleVultr.Unban sampleLib "1.2.3.4" deletesSucceed = (sampleVultr, none, []) ∧
    (sampleVultr.Ban sampleLib "1.2.3.4" 300 "max_errors exceeded" "login"
        (HTTPResult.response 200 "200 OK" (some "A"))
        (HTTPResult.response 200 "200 OK" (some "B"))).1.rules = [("1.2.3.4", ["A", "B"])] := by
  refine ⟨by decide, by decide, by decide, by decide, by decide⟩

/-- C17, as amended: for a valid `ip`, a parseable `api_url` and a
rule-creation POST answered with a status below 300 and a body whose `data.pos`
is `p`, `Ban` returns ok; when `p > 0`, `p` is appended to the position list
recorded for `ip`, and a later `Unban(ip)` whose requests can be built sends a
DELETE for position `p`; when `p ≤ 0` nothing is recorded. -/
theorem C17_proxmox_positive_pos_recorded (lib : StdLib) (b : proxmoxBackend) (ip : String)
    (duration : Int) (reason ruleID : String) (status : Int) (statusText : String) (p : Int)
    (hip : ValidateIP lib ip = none) (hurl : lib.URLParses b.cfg.APIURL = true)
    (hst : status < 300) :
    (b.Ban lib ip duration reason ruleID
      (HTTPResult.response status statusText (some p))).2.1 = none ∧
    (0 < p →
      mapGet (b.Ban lib ip duration reason ruleID
          (HTTPResult.response status statusText (some p))).1.rules ip =
        some ((mapGet b.rules ip).getD [] ++ [p]) ∧
      (∀ ip1 : String, ip1 ≠ ip →
        mapGet (b.Ban lib ip duration reason ruleID
          (HTTPResult.response status statusText (some p))).1.rules ip1 =
          mapGet b.rules ip1) ∧
      ∀ results : Nat → HTTPResult Unit,
        (∀ i err, results i ≠ HTTPResult.buildError err) →
        Wire.http { method := "DELETE", url := b.deleteURL lib p, body := Payload.noBody } ∈
          ((b.Ban lib ip duration reason ruleID
            (HTTPResult.response status statusText (some p))).1.Unban lib ip results).2.2) ∧
    (p ≤ 0 →
      (b.Ban lib ip duration reason ruleID
        (HTTPResult.response status statusText (some p))).1 = b) := by
  have hst2 : ¬ status ≥ 300 := by omega
  by_cases hp : 0 < p
  · have hban : b.Ban lib ip duration reason ruleID
        (HTTPResult.response status statusText (some p)) =
        ({ b with rules := mapSet b.rules ip ((mapGet b.rules ip).getD [] ++ [p]) }, none,
          [Wire.http (HTTPRequest.mk "POST" (lib.URLWithPath b.cfg.APIURL b.rulesPath)
            (Payload.proxmoxForm (ip ++ "/" ++ (if IsIPv6 lib ip then "128" else "32"))
              ("foxhole-fw:" ++ ruleID)))]) := by
      have hp2 : p > 0 := hp
      simp only [proxmoxBackend.Ban, hip, hurl, hst2, hp2, Bool.not_true, Bool.false_eq_true,
        if_false, if_true]
    rw [hban]
    refine ⟨rfl, fun _ => ⟨mapGet_mapSet_self _ _ _, ?_, ?_⟩, fun h => absurd hp (by omega)⟩
    · intro ip1 hne
      exact mapGet_mapSet_other _ _ _ _ hne
    · intro results hbuilt
      have hne : ¬ ((mapGet b.rules ip).getD [] ++ [p]).length = 0 := by simp
      simp only [proxmoxBackend.Unban, hip, hurl, mapGet_mapSet_self, Option.getD_some, hne,
        Bool.not_true, Bool.false_eq_true, if_false]
      exact deleteLoop_mem _ results hbuilt p _ 0 (by simp)
  · have hban : b.Ban lib ip duration reason ruleID
        (HTTPResult.response status statusText (some p)) =
        (b, none,
          [Wire.http (HTTPRequest.mk "POST" (lib.URLWithPath b.cfg.APIURL b.rulesPath)
            (Payload.proxmoxForm (ip ++ "/" ++ (if IsIPv6 lib ip then "128" else "32"))
              ("foxhole-fw:" ++ ruleID)))]) := by
      have hp2 : ¬ p > 0 := hp
      simp only [proxmoxBackend.Ban, hip, hurl, hst2, hp2, Bool.not_true, Bool.false_eq_true,
        if_false]
    rw [hban]
    exact ⟨rfl, fun h => absurd h hp, fun _ => rfl⟩

/-- C17 fails as stated: for the valid address `1.2.3.4`, the POST is answered
with `200 OK` and `data.pos = 0`; `Ban` returns ok but records no position, so
the later `Unban` sends no DELETE. -/
theorem C17_counterexample :
    ValidateIP sampleLib "1.2.3.4" = none ∧
    ((sampleProxmox.Ban sampleLib "1.2.3.4" 300 "max_errors exceeded" "login"
        (HTTPResult.response 200 "200 OK" (some 0))).2.1 = none ∧
      (sampleProxmox.Ban sampleLib "1.2.3.4" 300 "max_errors exceeded" "login"
        (HTTPResult.response 200 "200 OK" (some 0))).1.rules = []) ∧
    ((sampleProxmox.Ban sampleLib "1.2.3.4" 300 "max_errors exceeded" "login"
        (HTTPResult.response 200 "200 OK" (some 0))).1.Unban sampleLib "1.2.3.4"
          deletesSucceed).2.2 = [] := by
  refine ⟨by decide, ⟨by decide, by decide⟩, by decide⟩

/-- C17 (amended) at `sampleProxmox` and position 7: it is recorded for
`1.2.3.4`. -/
theorem C17_proxmox_positive_pos_recorded_witness :
    (ValidateIP sampleLib "1.2.3.4" = none ∧
      sampleLib.URLParses sampleProxmox.cfg.APIURL = true ∧ (200 : Int) < 300 ∧
      (0 : Int) < 7) ∧
    mapGet (sampleProxmox.Ban sampleLib "1.2.3.4" 300 "max_errors exceeded" "login"
        (HTTPResult.response 200 "200 OK" (some 7))).1.rules "1.2.3.4" =
      some ((mapGet sampleProxmox.rules "1.2.3.4").getD [] ++ [7]) :=
  ⟨⟨by decide, by decide, by decide, by decide⟩,
    ((C17_proxmox_positive_pos_recorded sampleLib sampleProxmox "1.2.3.4" 300
      "max_errors exceeded" "login" 200 "200 OK" 7 (by decide) (by decide)
      (by decide)).2.1 (by decide)).1⟩

/-! ## GC against the counts of the rule engine -/

theorem ApplyWindow_count (s : Store) (ip : String) (t window : Int)
    (hw : window ≠ minDuration) :
    (ApplyWindow s ip t window).2 =
      ((specDropOld window t (storedFor s ip)).length : Int) := by
  cases hget : mapGet s.byIP ip with
  | none =>
    have h : ApplyWindow s ip t window = (s, 0) := by
      unfold ApplyWindow
      simp only [hget]
    have hst : storedFor s ip = [] := by simp [storedFor, hget]
    rw [h, hst]
    simp [specDropOld]
  | some stats =>
    have hst : storedFor s ip = stats.Errors := by simp [storedFor, hget]
    rw [ApplyWindow_eq s ip t window hw stats hget, hst]

theorem storedFor_gc (s : Store) (now : Int) (ip : String) (hmap : (mapKeys s.byIP).Nodup) :
    storedFor (gc s now) ip = specDropOld s.ttl now (storedFor s ip) := by
  have h := gc_fold_get (Time.Add now (-s.ttl)) s.byIP s.byIP hmap hmap ip
  have hgc : mapGet (gc s now).byIP ip =
      mapGet (s.byIP.foldl (gcEntry (Time.Add now (-s.ttl))) s.byIP) ip := rfl
  unfold storedFor
  rw [hgc, h]
  cases hget : mapGet s.byIP ip with
  | none => simp [specDropOld]
  | some stats =>
    simp only
    rw [keepAfter_eq_specDropOld]
    by_cases hempty : (specDropOld s.ttl now stats.Errors).length = 0
    · simp only [hempty, if_true]
      exact (List.length_eq_zero.1 hempty).symm
    · simp only [hempty, if_false]

theorem specDropOld_twice (b1 t1 b2 t2 : Int) (errs : List Int) (h : t1 - b1 ≤ t2 - b2) :
    specDropOld b2 t2 (specDropOld b1 t1 errs) = specDropOld b2 t2 errs := by
  unfold specDropOld
  rw [List.filter_filter]
  apply List.filter_congr
  intro ts _
  by_cases h2 : ts ≤ t2 - b2
  · simp [h2]
  · have h1 : ¬ ts ≤ t1 - b1 := by omega
    simp [h1, h2]

/-- C23, as amended: for a tracker (a map, so with pairwise distinct
addresses), a wall-clock time `now`, an address, an evaluation time `t` and a
window `w` other than the least duration with `now - TTL ≤ t - w` (the wall
clock is at most `TTL - w` ahead of the evaluation time), `ApplyWindow(ip, t, w)`
returns the same count whether or not a GC pass at `now` is run just before
it. -/
theorem C23_gc_keeps_counts (s : Store) (now : Int) (ip : String) (t w : Int)
    (hmap : (mapKeys s.byIP).Nodup) (hw : w ≠ minDuration) (hclock : now - s.ttl ≤ t - w) :
    (ApplyWindow (gc s now) ip t w).2 = (ApplyWindow s ip t w).2 := by
  rw [ApplyWindow_count _ _ _ _ hw, ApplyWindow_count _ _ _ _ hw, storedFor_gc s now ip hmap,
    specDropOld_twice s.ttl now w t _ hclock]

/-- C23 fails as stated: `a` has an error at time 100, the TTL and the window
are 10 and the evaluation time is 100, so `ApplyWindow` counts 1; after a GC
pass at wall-clock 1000 the entry is gone and it counts 0. The same happens
with the least duration as the window, although `now - TTL ≤ t - w` holds for
it: its negation is itself, so `ApplyWindow` looks back instead of ahead. -/
theorem C23_counterexample :
    ((10 : Int) ≤ staleStore.ttl ∧
      (ApplyWindow staleStore "a" 100 10).2 = 1 ∧
      (gc staleStore 1000).byIP = [] ∧
      (ApplyWindow (gc staleStore 1000) "a" 100 10).2 = 0) ∧
    (minDuration ≤ staleStore.ttl ∧ (1000 : Int) - staleStore.ttl ≤ 100 - minDuration ∧
      (ApplyWindow staleStore "a" 100 minDuration).2 = 1 ∧
      (ApplyWindow (gc staleStore 1000) "a" 100 minDuration).2 = 0) := by
  refine ⟨⟨by decide, by decide, by decide, by decide⟩, by decide, by decide, by decide,
    by decide⟩

/-- C23 (amended) at `staleStore` with a GC pass at wall-clock 100, the
evaluation time: the count stays 1. -/
theorem C23_gc_keeps_counts_witness :
    ((mapKeys staleStore.byIP).Nodup ∧ (10 : Int) ≠ minDuration ∧
      (100 : Int) - staleStore.ttl ≤ 100 - 10) ∧
    (ApplyWindow staleStore "a" 100 10).2 = 1 ∧
    (ApplyWindow (gc staleStore 100) "a" 100 10).2 = (ApplyWindow staleStore "a" 100 10).2 :=
  ⟨⟨by decide, by decide, by decide⟩, by decide,
    C23_gc_keeps_counts staleStore 100 "a" 100 10 (by decide) (by decide) (by decide)⟩

/-! ## The tracker's TTL against the rule windows -/

theorem maxRuleWindow_fold (rules : List Rule) :
    ∀ acc : Int,
      acc ≤ rules.foldl
        (fun maxWindow r => if r.Window > maxWindow then r.Window else maxWindow) acc ∧
      ∀ r ∈ rules, r.Window ≤ rules.foldl
        (fun maxWindow r => if r.Window > maxWindow then r.Window else maxWindow) acc := by
  induction rules with
  | nil =>
    intro acc
    simp
  | cons r rest ih =>
    intro acc
    simp only [List.foldl_cons, List.mem_cons, forall_eq_or_imp]
    by_cases h : r.Window > acc
    · simp only [h, if_true]
      have h1 := ih r.Window
      exact ⟨by omega, h1.1, h1.2⟩
    · simp only [h, if_false]
      have h1 := ih acc
      exact ⟨h1.1, by omega, h1.2⟩

theorem NewEngine_ttl (cfg : Config) :
    (NewEngine cfg).ttl =
      (if maxRuleWindow cfg.Rules = 0 then 5 * Minute else maxRuleWindow cfg.Rules) ∧
    (NewEngine cfg).maxErrorsPerIP = DefaultMaxErrorsPerIP ∧
    ∀ r ∈ cfg.Rules, r.Window ≤ (NewEngine cfg).ttl := by
  have hfold := maxRuleWindow_fold cfg.Rules 0
  refine ⟨rfl, rfl, ?_⟩
  intro r hr
  have h1 : r.Window ≤ maxRuleWindow cfg.Rules := hfold.2 r hr
  show r.Window ≤ (if maxRuleWindow cfg.Rules = 0 then 5 * Minute else maxRuleWindow cfg.Rules)
  by_cases h0 : maxRuleWindow cfg.Rules = 0
  · simp only [h0, if_true]
    rw [h0] at h1
    unfold Minute Second
    omega
  · simp only [h0, if_false]
    exact h1

theorem evalRules_fields (ev : Event) (evalTime : Int) (rules : List Rule) :
    ∀ (store : Store) (out : List Decision),
      (evalRules ev evalTime rules store out).1.ttl = store.ttl ∧
      (evalRules ev evalTime rules store out).1.maxErrorsPerIP = store.maxErrorsPerIP := by
  induction rules with
  | nil =>
    intro store out
    simp [evalRules]
  | cons r rest ih =>
    intro store out
    have hw := ApplyWindow_step store ev.RemoteAddr evalTime r.Window
    rw [evalRules_cons]
    by_cases hm : matchRule r ev = true
    · by_cases hc : (ApplyWindow store ev.RemoteAddr evalTime r.Window).2 ≥ r.MaxErrors
      · simp only [hm, hc, if_true]
        have h := ih (ApplyWindow store ev.RemoteAddr evalTime r.Window).1
          (out ++ [{ IP := ev.RemoteAddr, RuleID := r.ID, Violation := true,
                     Reason := "max_errors exceeded", Ban := true, BanFor := r.BanDuration,
                     Event := ev, Timestamp := evalTime }])
        exact ⟨h.1.trans hw.1, h.2.trans hw.2.2.1⟩
      · simp only [hm, hc, if_true, if_false]
        have h := ih (ApplyWindow store ev.RemoteAddr evalTime r.Window).1 out
        exact ⟨h.1.trans hw.1, h.2.trans hw.2.2.1⟩
    · simp only [hm, if_false]
      exact ih store out

theorem processEvent_fields (cfg : Config) (store : Store) (wallNow : Int) (ev : Event)
    (hcap : 0 < store.maxErrorsPerIP) :
    ∃ r : Store × List Decision, processEvent cfg store wallNow ev = some r ∧
      r.1.ttl = store.ttl ∧ r.1.maxErrorsPerIP = store.maxErrorsPerIP := by
  unfold processEvent
  by_cases hst : ev.Status ≥ 400
  · obtain ⟨s1, c, heq, h1, _, h3, _⟩ :=
      RecordError_step store ev.RemoteAddr (evalTimeOf ev wallNow) hcap
    have hf := evalRules_fields ev (evalTimeOf ev wallNow) cfg.Rules s1 []
    refine ⟨evalRules ev (evalTimeOf ev wallNow) cfg.Rules s1 [], ?_, hf.1.trans h1,
      hf.2.trans h3⟩
    simp only [hst, if_true, heq, Option.map_some']
  · have hf := evalRules_fields ev (evalTimeOf ev wallNow) cfg.Rules store []
    refine ⟨evalRules ev (evalTimeOf ev wallNow) cfg.Rules store [], ?_, hf.1, hf.2⟩
    simp only [hst, if_false]

theorem runReloads_fields (wallNow : Int) (steps : List (Config × Event)) :
    ∀ store : Store, 0 < store.maxErrorsPerIP →
      ∃ s : Store, runReloads wallNow store steps = some s ∧ s.ttl = store.ttl := by
  induction steps with
  | nil =>
    intro store _
    exact ⟨store, rfl, rfl⟩
  | cons st rest ih =>
    intro store hcap
    obtain ⟨cfg, ev⟩ := st
    obtain ⟨r, hr, h1, h2⟩ := processEvent_fields cfg store wallNow ev hcap
    obtain ⟨s, hs, h3⟩ := ih r.1 (h2 ▸ hcap)
    refine ⟨s, ?_, h3.trans h1⟩
    simp only [runReloads, hr, hs]

/-- C21, as amended: the tracker's TTL is fixed by `NewEngine` as the largest
rule window of the snapshot current at construction, or 5 minutes if that is 0
(no rules), and no evaluation changes it, whatever snapshots are current later;
so whenever the engine evaluates an event the TTL is at least the window of
every rule of the snapshot that was current at construction. -/
theorem C21_ttl_covers_initial_windows (cfg0 : Config) (wallNow : Int)
    (steps : List (Config × Event)) :
    ∃ s : Store,
      runReloads wallNow (NewEngine (NewCfgStore cfg0).Current) steps = some s ∧
      s.ttl = (if maxRuleWindow cfg0.Rules = 0 then 5 * Minute
               else maxRuleWindow cfg0.Rules) ∧
      (cfg0.Rules = [] → s.ttl = 5 * Minute) ∧
      ∀ r ∈ cfg0.Rules, r.Window ≤ s.ttl := by
  have hnew := NewEngine_ttl cfg0
  have hcap : 0 < (NewEngine cfg0).maxErrorsPerIP := by
    rw [hnew.2.1]
    decide
  obtain ⟨s, hs, httl⟩ := runReloads_fields wallNow steps (NewEngine cfg0) hcap
  refine ⟨s, hs, httl.trans hnew.1, ?_, ?_⟩
  · intro hnil
    rw [httl, hnew.1, hnil]
    rfl
  · intro r hr
    rw [httl]
    exact hnew.2.2 r hr

/-- C21 fails as stated: the engine is built while `loginConfig` (window 60 s)
is current, so its TTL is 60 s; after `Update` publishes `widerConfig`, whose
rule has a window of 120 s, the engine evaluates an event with that snapshot
and the TTL is still 60 s, less than the rule's window. -/
theorem C21_counterexample :
    ((NewCfgStore loginConfig).Update widerConfig).Current = widerConfig ∧
    (NewEngine (NewCfgStore loginConfig).Current).ttl = 60 * Second ∧
    (runReloads 0 (NewEngine (NewCfgStore loginConfig).Current)
        [(((NewCfgStore loginConfig).Update widerConfig).Current,
          loginFailure Second)]).map Store.ttl = some (60 * Second) ∧
    widerConfig.Rules.map Rule.Window = [120 * Second] ∧
    ¬ (120 * Second ≤ 60 * Second) := by
  refine ⟨by decide, by decide, by decide, by decide, by decide⟩

/-- C21 (amended) at `loginConfig`: the TTL is 60 s, the window of its rule,
also after an event evaluated with `widerConfig`. -/
theorem C21_ttl_covers_initial_windows_witness :
    (runReloads 0 (NewEngine (NewCfgStore loginConfig).Current)
        [(widerConfig, loginFailure Second)]).map Store.ttl = some (60 * Second) ∧
    ∃ s : Store,
      runReloads 0 (NewEngine (NewCfgStore loginConfig).Current)
        [(widerConfig, loginFailure Second)] = some s ∧
      s.ttl = (if maxRuleWindow loginConfig.Rules = 0 then 5 * Minute
               else maxRuleWindow loginConfig.Rules) ∧
      (loginConfig.Rules = [] → s.ttl = 5 * Minute) ∧
      ∀ r ∈ loginConfig.Rules, r.Window ≤ s.ttl :=
  ⟨by decide,
    C21_ttl_covers_initial_windows loginConfig 0 [(widerConfig, loginFailure Second)]⟩

/-! ## Sliding-window exactness -/

theorem specDropOld_eq_filter_gt (w t : Int) (errs : List Int) :
    specDropOld w t errs = errs.filter (fun u => decide (u > t - w)) := by
  unfold specDropOld
  apply List.filter_congr
  intro u _
  by_cases h : u ≤ t - w
  · have h2 : ¬ (u > t - w) := by omega
    simp [h, h2]
  · have h2 : u > t - w := by omega
    simp [h, h2]

theorem specDropOld_append (w t : Int) (xs ys : List Int) :
    specDropOld w t (xs ++ ys) = specDropOld w t xs ++ specDropOld w t ys := by
  simp [specDropOld]

theorem specDropOld_length_le (w t : Int) (xs : List Int) :
    (specDropOld w t xs).length ≤ xs.length := by
  unfold specDropOld
  exact List.length_filter_le _ _

theorem specRecord_no_trim (ttl maxErrorsPerIP t : Int) (old : List Int)
    (hlen : ((specDropOld ttl t old).length : Int) < maxErrorsPerIP) :
    specRecord ttl maxErrorsPerIP old t = specDropOld ttl t old ++ [t] := by
  unfold specRecord
  have h : ¬ (((specDropOld ttl t old).length : Int) ≥ maxErrorsPerIP) := by omega
  simp only [h, if_false]

theorem storedFor_ApplyWindow (s : Store) (ip : String) (t w : Int)
    (hw : w ≠ minDuration) :
    storedFor (ApplyWindow s ip t w).1 ip = specDropOld w t (storedFor s ip) := by
  cases hget : mapGet s.byIP ip with
  | none =>
    have h : ApplyWindow s ip t w = (s, 0) := by
      unfold ApplyWindow
      simp only [hget]
    have hst : storedFor s ip = [] := by simp [storedFor, hget]
    rw [h, hst]
    simp [specDropOld]
  | some stats =>
    have hst : storedFor s ip = stats.Errors := by simp [storedFor, hget]
    rw [ApplyWindow_eq s ip t w hw stats hget, storedFor_mapSet_self, hst]

/-- The invariant of a history: on every window query made at a time `b` not
before the most recent record, what is stored answers like the full list of
recorded times. -/
theorem runHistory_inv (ip : String) (w : Int) (hw : w ≠ minDuration)
    (ops : List WindowOp) :
    ∀ (s : Store) (last : Option Int) (done : List Int),
      w ≤ s.ttl → 0 < s.maxIPs →
      (done.length : Int) + ((recordedTimes ops).length : Int) < s.maxErrorsPerIP →
      (recordedTimes ops).Pairwise (fun a b => a ≤ b) →
      (∀ l, last = some l → ∀ u ∈ recordedTimes ops, l ≤ u) →
      (last = none → s.byIP = []) →
      (∀ l, last = some l → (mapGet s.byIP ip).isSome = true) →
      (storedFor s ip).length ≤ done.length →
      (∀ b, (∀ l, last = some l → l ≤ b) →
        specDropOld w b (storedFor s ip) = specDropOld w b done) →
      ∃ s1 : Store, runHistory ip w s last ops = some s1 ∧
        ∀ b, (∀ l, last = some l → l ≤ b) → (∀ u ∈ recordedTimes ops, u ≤ b) →
          specDropOld w b (storedFor s1 ip) = specDropOld w b (done ++ recordedTimes ops) := by
  induction ops with
  | nil =>
    intro s last done _ _ _ _ _ _ _ _ hinv
    refine ⟨s, rfl, ?_⟩
    intro b hb _
    simpa [recordedTimes] using hinv b hb
  | cons op rest ih =>
    intro s last done httl hips hlen hsorted hlast hnone hsome hstored hinv
    cases op with
    | record t =>
      simp only [recordedTimes, List.length_cons, List.pairwise_cons, List.mem_cons,
        forall_eq_or_imp] at hlen hsorted hlast
      have hcap : 0 < s.maxErrorsPerIP := by
        have := Int.natCast_nonneg done.length
        have := Int.natCast_nonneg (recordedTimes rest).length
        push_cast at hlen
        omega
      have hroom : (mapGet s.byIP ip).isSome = true ∨ mapLen s.byIP < s.maxIPs := by
        cases hl : last with
        | none =>
          right
          rw [hnone hl]
          simpa [mapLen] using hips
        | some l => exact Or.inl (hsome l hl)
      have hkept : ((specDropOld s.ttl t (storedFor s ip)).length : Int) < s.maxErrorsPerIP := by
        have h1 := specDropOld_length_le s.ttl t (storedFor s ip)
        have := Int.natCast_nonneg (recordedTimes rest).length
        push_cast at hlen
        omega
      have heq := RecordError_eq s ip t hcap hroom
      rw [specRecord_no_trim _ _ _ _ hkept] at heq
      have hlt : ∀ l, last = some l → l ≤ t := fun l hl => (hlast l hl).1
      obtain ⟨s1, hrun, hfin⟩ := ih
        { s with byIP := (mapSet s.byIP ip
            { Errors := specDropOld s.ttl t (storedFor s ip) ++ [t] }) }
        (some t) (done ++ [t]) httl hips
        (by
          simp only [List.length_append, List.length_singleton]
          push_cast at hlen ⊢
          omega)
        hsorted.2
        (by
          intro l hl u hu
          simp only [Option.some.injEq] at hl
          subst hl
          exact hsorted.1 u hu)
        (by intro h; cases h)
        (by
          intro l _
          simp only [mapGet_mapSet_self, Option.isSome_some])
        (by
          rw [storedFor_mapSet_self]
          have h1 := specDropOld_length_le s.ttl t (storedFor s ip)
          simp only [List.length_append, List.length_singleton]
          omega)
        (by
          intro b hb
          have htb : t ≤ b := hb t rfl
          rw [storedFor_mapSet_self, specDropOld_append, specDropOld_append,
            specDropOld_twice s.ttl t w b _ (by omega),
            hinv b (fun l hl => le_trans (hlt l hl) htb)])
      refine ⟨s1, ?_, ?_⟩
      · simp only [runHistory, heq, hrun]
      · intro b hb hall
        simp only [recordedTimes, List.mem_cons, forall_eq_or_imp] at hall
        have h := hfin b
          (by
            intro l hl
            simp only [Option.some.injEq] at hl
            subst hl
            exact hall.1)
          hall.2
        simpa [recordedTimes, List.append_assoc] using h
    | window =>
      simp only [recordedTimes] at hlen hsorted hlast
      have hfields := ApplyWindow_step s ip (last.getD 0) w
      obtain ⟨s1, hrun, hfin⟩ := ih (ApplyWindow s ip (last.getD 0) w).1 last done
        (by rw [hfields.1]; exact httl)
        (by rw [hfields.2.1]; exact hips)
        (by rw [hfields.2.2.1]; exact hlen)
        hsorted hlast
        (by
          intro hl
          have hget : mapGet s.byIP ip = none := by
            rw [hnone hl]
            rfl
          have h : ApplyWindow s ip (last.getD 0) w = (s, 0) := by
            unfold ApplyWindow
            simp only [hget]
          rw [h]
          exact hnone hl)
        (by
          intro l hl
          rw [mapGet_isSome_iff, hfields.2.2.2.1, ← mapGet_isSome_iff]
          exact hsome l hl)
        (le_trans hfields.2.2.2.2.2 hstored)
        (by
          intro b hb
          rw [storedFor_ApplyWindow _ _ _ _ hw]
          cases hl : last with
          | none =>
            have hst : storedFor s ip = [] := by
              simp [storedFor, hnone hl, mapGet]
            have h := hinv b hb
            rw [hst] at h ⊢
            simpa [specDropOld] using h
          | some l =>
            have hlb : l ≤ b := hb l hl
            simp only [Option.getD_some]
            rw [specDropOld_twice w l w b _ (by omega)]
            exact hinv b hb)
      refine ⟨s1, ?_, ?_⟩
      · simp only [runHistory, hrun]
      · intro b hb hall
        simpa [recordedTimes] using hfin b hb (by simpa [recordedTimes] using hall)

/-- C22: for a tracker created empty with `TTL ≥ w > 0`, room for at least one
address and no GC pass, after errors for `ip` recorded at non-decreasing times
`t_1 ≤ … ≤ t_n` with `n < maxErrorsPerIP`, interleaved in any way with
`ApplyWindow(ip, ·, w)` calls made at the time of the most recent record, the
call `ApplyWindow(ip, t, w)` for any `t ≥ t_n` returns exactly the number of
indices `i` with `t_i > t - w`. -/
theorem C22_sliding_window_exact (ttl maxIPs maxErrorsPerIP : Int) (ip : String) (w t : Int)
    (ops : List WindowOp)
    (_hw : 0 < w) (httl : w ≤ ttl) (hips : 0 < maxIPs)
    (hn : ((recordedTimes ops).length : Int) < maxErrorsPerIP)
    (hsorted : (recordedTimes ops).Pairwise (fun a b => a ≤ b))
    (ht : ∀ u ∈ recordedTimes ops, u ≤ t) :
    ∃ s : Store,
      runHistory ip w
        { byIP := [], ttl := ttl, maxIPs := maxIPs, maxErrorsPerIP := maxErrorsPerIP }
        none ops = some s ∧
      (ApplyWindow s ip t w).2 =
        (((recordedTimes ops).filter (fun u => decide (u > t - w))).length : Int) := by
  obtain ⟨s, hrun, hfin⟩ := runHistory_inv ip w (pos_ne_minDuration w _hw) ops
    { byIP := [], ttl := ttl, maxIPs := maxIPs, maxErrorsPerIP := maxErrorsPerIP }
    none [] httl hips (by simpa using hn) hsorted
    (by intro l hl; cases hl) (fun _ => rfl) (by intro l hl; cases hl)
    (by simp [storedFor, mapGet])
    (by intro b _; simp [storedFor, mapGet])
  refine ⟨s, hrun, ?_⟩
  rw [ApplyWindow_count _ _ _ _ (pos_ne_minDuration w _hw),
    hfin t (by intro l hl; cases hl) ht, List.nil_append, specDropOld_eq_filter_gt]

/-- C22 at `sampleHistory` with TTL 10 and window 5: the errors are at 1, 3, 3
and 12, and at time 13 the window holds the one at 12 only. -/
theorem C22_sliding_window_exact_witness :
    ((0 : Int) < 5 ∧ (5 : Int) ≤ 10 ∧ (0 : Int) < 2 ∧
      ((recordedTimes sampleHistory).length : Int) < 5 ∧
      (recordedTimes sampleHistory).Pairwise (fun a b => a ≤ b) ∧
      ∀ u ∈ recordedTimes sampleHistory, u ≤ 13) ∧
    (runHistory "a" 5 { byIP := [], ttl := 10, maxIPs := 2, maxErrorsPerIP := 5 }
        none sampleHistory).map (fun s => (ApplyWindow s "a" 13 5).2) = some 1 ∧
    ∃ s : Store,
      runHistory "a" 5 { byIP := [], ttl := 10, maxIPs := 2, maxErrorsPerIP := 5 }
        none sampleHistory = some s ∧
      (ApplyWindow s "a" 13 5).2 =
        (((recordedTimes sampleHistory).filter (fun u => decide (u > 13 - 5))).length : Int) :=
  ⟨⟨by decide, by decide, by decide, by decide, by decide, by decide⟩, by decide,
    C22_sliding_window_exact 10 2 5 "a" 5 13 sampleHistory (by decide) (by decide)
      (by decide) (by decide) (by decide) (by decide)⟩

/-! ## The count seen by a rule, with GC passes between the tracker calls -/

theorem evalRulesGC_cons (ev : Event) (evalTime : Int) (r : Rule) (rest : List Rule)
    (gcs : List (List Int)) (store : Store) (out : List Decision) :
    evalRulesGC ev evalTime (r :: rest) gcs store out =
      if matchRule r ev = true then
        evalRulesGC ev evalTime rest gcs.tail
          (ApplyWindow (gcPasses store (gcs.headD [])) ev.RemoteAddr evalTime r.Window).1
          (out ++
            if (ApplyWindow (gcPasses store (gcs.headD [])) ev.RemoteAddr evalTime
                r.Window).2 ≥ r.MaxErrors
            then [specDecision ev evalTime r] else [])
      else evalRulesGC ev evalTime rest gcs.tail (gcPasses store (gcs.headD [])) out := by
  rw [evalRulesGC]
  generalize gcPasses store (gcs.headD []) = store0
  cases matchRule r ev
  · simp
  · by_cases hc : (ApplyWindow store0 ev.RemoteAddr evalTime r.Window).2 ≥ r.MaxErrors
    · simp [hc, specDecision]
    · simp [hc]

theorem evalRulesGC_append (ev : Event) (evalTime : Int) (pre rest : List Rule) :
    ∀ (gcs : List (List Int)) (store : Store) (out : List Decision),
      evalRulesGC ev evalTime (pre ++ rest) gcs store out =
        evalRulesGC ev evalTime rest (gcs.drop pre.length)
          (evalRulesGC ev evalTime pre gcs store out).1
          (evalRulesGC ev evalTime pre gcs store out).2 := by
  induction pre with
  | nil =>
    intro gcs store out
    simp [evalRulesGC]
  | cons r pre ih =>
    intro gcs store out
    have hdrop : gcs.drop (r :: pre).length = gcs.tail.drop pre.length := by
      cases gcs with
      | nil => simp
      | cons g gs => simp
    rw [List.cons_append, evalRulesGC_cons, evalRulesGC_cons, hdrop]
    by_cases hm : matchRule r ev = true
    · simp only [hm, if_true]
      exact ih _ _ _
    · simp only [hm, if_false]
      exact ih _ _ _

/-- A GC pass keeps a timestamp that is later than its cutoff. -/
theorem gc_keeps_recent (s : Store) (now : Int) (ip : String) (t : Int)
    (hmap : (mapKeys s.byIP).Nodup) (hmem : t ∈ storedFor s ip) (hrecent : now - s.ttl < t) :
    t ∈ storedFor (gc s now) ip := by
  rw [storedFor_gc s now ip hmap]
  unfold specDropOld
  rw [List.mem_filter]
  refine ⟨hmem, ?_⟩
  have h : ¬ t ≤ now - s.ttl := by omega
  simp [h]

theorem gcPasses_keeps_recent (ip : String) (t : Int) (nows : List Int) :
    ∀ s : Store, (mapKeys s.byIP).Nodup → t ∈ storedFor s ip →
      (∀ now ∈ nows, now - s.ttl < t) →
      (mapKeys (gcPasses s nows).byIP).Nodup ∧ (gcPasses s nows).ttl = s.ttl ∧
        t ∈ storedFor (gcPasses s nows) ip := by
  induction nows with
  | nil =>
    intro s hmap hmem _
    exact ⟨hmap, rfl, hmem⟩
  | cons now rest ih =>
    intro s hmap hmem hall
    have hstep := gc_step s now hmap
    have hkeep := gc_keeps_recent s now ip t hmap hmem (hall now (List.mem_cons_self _ _))
    have h := ih (gc s now) hstep.2.2.2.1 hkeep (by
      intro n hn
      rw [hstep.1]
      exact hall n (List.mem_cons_of_mem _ hn))
    exact ⟨h.1, h.2.1.trans hstep.1, h.2.2⟩

theorem evalRulesGC_keeps_now (ev : Event) (evalTime : Int) (pre : List Rule)
    (hpre : ∀ r0 ∈ pre, matchRule r0 ev = true → 0 < r0.Window) :
    ∀ (gcs : List (List Int)) (store : Store) (out : List Decision),
      (mapKeys store.byIP).Nodup →
      evalTime ∈ storedFor store ev.RemoteAddr →
      (∀ l ∈ gcs.take pre.length, ∀ now ∈ l, now - store.ttl < evalTime) →
      (mapKeys (evalRulesGC ev evalTime pre gcs store out).1.byIP).Nodup ∧
      (evalRulesGC ev evalTime pre gcs store out).1.ttl = store.ttl ∧
      evalTime ∈ storedFor (evalRulesGC ev evalTime pre gcs store out).1 ev.RemoteAddr := by
  induction pre with
  | nil =>
    intro gcs store out hmap h _
    exact ⟨hmap, rfl, h⟩
  | cons r pre ih =>
    intro gcs store out hmap h hgc
    have ih1 := ih (fun x hx => hpre x (List.mem_cons_of_mem _ hx))
    have hhead : ∀ now ∈ gcs.headD [], now - store.ttl < evalTime := by
      cases gcs with
      | nil =>
        intro now hnow
        simp at hnow
      | cons g gs =>
        intro now hnow
        exact hgc g (by simp) now hnow
    have htail : ∀ l ∈ gcs.tail.take pre.length, ∀ now ∈ l, now - store.ttl < evalTime := by
      cases gcs with
      | nil =>
        intro l hl
        simp at hl
      | cons g gs =>
        intro l hl now hnow
        exact hgc l (by
          simp only [List.length_cons, List.take_succ_cons, List.mem_cons]
          exact Or.inr hl) now hnow
    obtain ⟨hmap0, httl0, hmem0⟩ :=
      gcPasses_keeps_recent ev.RemoteAddr evalTime (gcs.headD []) store hmap h hhead
    rw [evalRulesGC_cons]
    by_cases hm : matchRule r ev = true
    · have hw := hpre r (List.mem_cons_self _ _) hm
      have hkeep := (ApplyWindow_keeps_now (gcPasses store (gcs.headD [])) ev.RemoteAddr
        evalTime r.Window hmem0 hw).1
      have hstep := ApplyWindow_step (gcPasses store (gcs.headD [])) ev.RemoteAddr evalTime
        r.Window
      simp only [hm, if_true]
      have h1 := ih1 gcs.tail
        (ApplyWindow (gcPasses store (gcs.headD [])) ev.RemoteAddr evalTime r.Window).1
        (out ++
          if (ApplyWindow (gcPasses store (gcs.headD [])) ev.RemoteAddr evalTime
              r.Window).2 ≥ r.MaxErrors
          then [specDecision ev evalTime r] else [])
        (by rw [hstep.2.2.2.1]; exact hmap0) hkeep
        (by rw [hstep.1, httl0]; exact htail)
      exact ⟨h1.1, h1.2.1.trans (hstep.1.trans httl0), h1.2.2⟩
    · simp only [hm, if_false]
      have h1 := ih1 gcs.tail (gcPasses store (gcs.headD [])) out hmap0 hmem0
        (by rw [httl0]; exact htail)
      exact ⟨h1.1, h1.2.1.trans httl0, h1.2.2⟩

theorem mem_take_succ (gcs : List (List Int)) :
    ∀ (n : Nat) (l : List Int), l ∈ gcs.take n → l ∈ gcs.take (n + 1) := by
  induction gcs with
  | nil =>
    intro n l hl
    simp at hl
  | cons g gs ih =>
    intro n l hl
    cases n with
    | zero => simp at hl
    | succ m =>
      simp only [List.take_succ_cons, List.mem_cons] at hl ⊢
      rcases hl with h | h
      · exact Or.inl h
      · exact Or.inr (ih m l h)

theorem headD_drop_mem_take (gcs : List (List Int)) :
    ∀ n : Nat, ∀ now ∈ (gcs.drop n).headD [], ∃ l ∈ gcs.take (n + 1), now ∈ l := by
  induction gcs with
  | nil =>
    intro n now hnow
    simp at hnow
  | cons g gs ih =>
    intro n now hnow
    cases n with
    | zero =>
      exact ⟨g, by simp, by simpa using hnow⟩
    | succ m =>
      obtain ⟨l, hl, hin⟩ := ih m now (by simpa using hnow)
      exact ⟨l, by
        simp only [List.take_succ_cons, List.mem_cons]
        exact Or.inr hl, hin⟩

/-- C20, as amended: let the tracker (a map, so with pairwise distinct
addresses) have a positive per-IP cap and either track the event's address or
have room for it, let the event have status `≥ 400`, let the snapshot's rules
be `pre ++ r :: post` where `r` matches the event with `r.Window > 0` and every
matching rule before it has a positive window, and let every GC pass made
between the record and the `ApplyWindow` call for `r` read a wall clock `now`
with `now - TTL < eval_time`. Then the error is recorded at `eval_time`, the
call for `r` is made on the tracker `before`, the count it returns is at least
1 and `eval_time` is among the timestamps stored for the event's address. -/
theorem C20_count_includes_recorded (cfg : Config) (store : Store) (ev : Event)
    (wallNow : Int) (gcs : List (List Int)) (pre post : List Rule) (r : Rule)
    (hrules : cfg.Rules = pre ++ r :: post)
    (hmap : (mapKeys store.byIP).Nodup)
    (hcap : 0 < store.maxErrorsPerIP)
    (hroom : (mapGet store.byIP ev.RemoteAddr).isSome = true ∨
      mapLen store.byIP < store.maxIPs)
    (hstatus : ev.Status ≥ 400)
    (hpre : ∀ r0 ∈ pre, matchRule r0 ev = true → 0 < r0.Window)
    (hmatch : matchRule r ev = true) (hw : 0 < r.Window)
    (hgc : ∀ l ∈ gcs.take (pre.length + 1), ∀ now ∈ l,
      now - store.ttl < specEvalTime ev wallNow) :
    ∃ (recorded before : Store) (c : Int),
      RecordError store ev.RemoteAddr (specEvalTime ev wallNow) = some (recorded, c) ∧
      before = gcPasses (evalRulesGC ev (specEvalTime ev wallNow) pre gcs recorded []).1
        ((gcs.drop pre.length).headD []) ∧
      processEventGC cfg store wallNow ev gcs =
        some (evalRulesGC ev (specEvalTime ev wallNow) post (gcs.drop pre.length).tail
          (ApplyWindow before ev.RemoteAddr (specEvalTime ev wallNow) r.Window).1
          ((evalRulesGC ev (specEvalTime ev wallNow) pre gcs recorded []).2 ++
            if (ApplyWindow before ev.RemoteAddr (specEvalTime ev wallNow) r.Window).2 ≥
                r.MaxErrors
            then [specDecision ev (specEvalTime ev wallNow) r] else [])) ∧
      (ApplyWindow before ev.RemoteAddr (specEvalTime ev wallNow) r.Window).2 ≥ 1 ∧
      specEvalTime ev wallNow ∈
        storedFor (ApplyWindow before ev.RemoteAddr (specEvalTime ev wallNow) r.Window).1
          ev.RemoteAddr := by
  have heq := RecordError_eq store ev.RemoteAddr (specEvalTime ev wallNow) hcap hroom
  refine ⟨_, _, _, heq, rfl, ?_, ?_⟩
  · unfold processEventGC
    simp only [evalTimeOf_eq_spec, hstatus, if_true, heq, Option.map_some', hrules]
    rw [evalRulesGC_append, evalRulesGC_cons]
    simp only [hmatch, if_true]
  · have hrec : specEvalTime ev wallNow ∈ storedFor
        { store with byIP := (mapSet store.byIP ev.RemoteAddr
            { Errors := specRecord store.ttl store.maxErrorsPerIP
                (storedFor store ev.RemoteAddr) (specEvalTime ev wallNow) }) }
        ev.RemoteAddr := by
      rw [storedFor_mapSet_self]
      unfold specRecord
      simp
    have hmap1 : (mapKeys ({ store with byIP := (mapSet store.byIP ev.RemoteAddr
            { Errors := specRecord store.ttl store.maxErrorsPerIP
                (storedFor store ev.RemoteAddr) (specEvalTime ev wallNow) }) } :
          Store).byIP).Nodup := mapKeys_nodup_mapSet _ _ _ hmap
    obtain ⟨hmap2, httl2, hmem2⟩ := evalRulesGC_keeps_now ev (specEvalTime ev wallNow) pre hpre
      gcs _ [] hmap1 hrec (by
        intro l hl now hnow
        exact hgc l (mem_take_succ gcs pre.length l hl) now hnow)
    obtain ⟨_, _, hmem3⟩ := gcPasses_keeps_recent ev.RemoteAddr (specEvalTime ev wallNow)
      ((gcs.drop pre.length).headD []) _ hmap2 hmem2 (by
        intro now hnow
        obtain ⟨l, hl, hin⟩ := headD_drop_mem_take gcs pre.length now hnow
        rw [httl2]
        exact hgc l hl now hin)
    have h := ApplyWindow_keeps_now _ ev.RemoteAddr (specEvalTime ev wallNow) r.Window hmem3 hw
    exact ⟨h.2, h.1⟩

/-- C20 fails as stated. At the address cap (`sampleStore` has two of two
addresses) the error of the new address `c` is not recorded, so the matching
rule with window 60 counts 0 and nothing is stored for `c`. On a fresh
tracker, a matching rule with window 0 evaluated first drops the error just
recorded, so the next matching rule, with window 60, counts 0 as well. And on
a fresh tracker with TTL 60, a GC pass that takes the lock at wall-clock 1000
between the record of the error at 102 and the `ApplyWindow` call removes the
error, so the rule with window 60 counts 0. -/
theorem C20_counterexample :
    (RecordError sampleStore "c" 102 = some (sampleStore, -1) ∧
      matchRule (loginRule "r" 60) (serverError "c") = true ∧
      (ApplyWindow sampleStore "c" 102 60).2 = 0 ∧
      storedFor (ApplyWindow sampleStore "c" 102 60).1 "c" = []) ∧
    ((RecordError (NewStore 60) "c" 102).map
        (fun rec =>
          (ApplyWindow (evalRules (serverError "c") 102 [loginRule "z" 0] rec.1 []).1
            "c" 102 60).2) = some 0 ∧
      matchRule (loginRule "z" 0) (serverError "c") = true) ∧
    ((RecordError (NewStore 60) "c" 102).map (fun rec => storedFor rec.1 "c") = some [102] ∧
      (RecordError (NewStore 60) "c" 102).map
        (fun rec => (ApplyWindow (gcPasses rec.1 [1000]) "c" 102 60).2) = some 0 ∧
      (processEventGC { sampleConfig with Rules := [loginRule "r" 60] } (NewStore 60) 1000
          (serverError "c") [[1000]]).map (fun res => (storedFor res.1 "c", res.2)) =
        some ([], [])) := by
  refine ⟨⟨by decide, by decide, by decide, by decide⟩, ⟨by decide, by decide⟩,
    by decide, by decide, by decide⟩

/-- C20 (amended) at a fresh tracker with TTL 60: the error of `c` at time 102
is recorded, a GC pass at wall-clock 110 runs before the turn of the second of
two matching rules, and that rule still counts the error. -/
theorem C20_count_includes_recorded_witness :
    ((mapKeys (NewStore 60).byIP).Nodup ∧ 0 < (NewStore 60).maxErrorsPerIP ∧
      (serverError "c").Status ≥ 400 ∧ 0 < (loginRule "r" 60).Window ∧
      ∀ l ∈ ([[], [110]] : List (List Int)).take (1 + 1), ∀ now ∈ l,
        now - (NewStore 60).ttl < specEvalTime (serverError "c") 0) ∧
    ∃ (recorded before : Store) (c : Int),
      RecordError (NewStore 60) "c" (specEvalTime (serverError "c") 0) = some (recorded, c) ∧
      before = gcPasses (evalRulesGC (serverError "c") (specEvalTime (serverError "c") 0)
        [loginRule "q" 30] [[], [110]] recorded []).1 [110] ∧
      (ApplyWindow before "c" (specEvalTime (serverError "c") 0) (loginRule "r" 60).Window).2
        ≥ 1 :=
  ⟨⟨by decide, by decide, by decide, by decide, by decide⟩, by
    obtain ⟨recorded, before, c, h1, h2, _, h4, _⟩ :=
      C20_count_includes_recorded
        { sampleConfig with Rules := [loginRule "q" 30, loginRule "r" 60] }
        (NewStore 60) (serverError "c") 0 [[], [110]] [loginRule "q" 30] []
        (loginRule "r" 60)
        rfl (by decide) (by decide) (Or.inr (by decide)) (by decide)
        (by intro r0 hr0 _; simp only [List.mem_singleton] at hr0; subst hr0; decide)
        (by decide) (by decide) (by decide)
    exact ⟨recorded, before, c, h1, h2, h4⟩⟩

end Foxhole
